import Mathlib

/-!
# MinecraftSkinViewer: skin analysis and mesh generation

A shallow embedding of the skin pipeline of `src/main.cpp`
(`AnyNonTransparent`, `ScaleRect`, the `UV_*` atlas, `AddFace`, `AddBox`,
`BuildPlayerMesh`, `ForceRectOpaque`, `SanitizeMinecraftBaseAlpha` and the
classification and alpha detection of `LoadSkinPngWIC`).

Conventions of the embedding:

* `uint32_t` values are `Nat`; arithmetic carried out in `uint32_t` is reduced
  modulo `2^32` (`toUInt32`).
* `int` values are `Int`; a conversion to `int` and the result of an `int`
  addition or multiplication are reduced to the two's complement range
  (`toInt32`), which is what the x64 Windows target of this program computes.
* `size_t` is 64 bits wide; the only `size_t` product in the code multiplies a
  32-bit value by 4 and cannot wrap.
* bytes are `Nat`, the buffer `rgba` is a `List Nat`.
* `float` values are exact rationals (`ℚ`); every coordinate of the model is a
  small dyadic rational, and texture coordinates are the exact quotients.
* an unchecked write `s.rgba[i] = v` past the end of the buffer has no defined
  result: the functions that write return `Option`, `none` on such a write.
-/

namespace SkinViewer

/-! ## Machine integers -/

/-- Conversion to `uint32_t`: reduction modulo `2^32`. -/
def toUInt32 (n : Int) : Nat := (n % 4294967296).toNat

/-- Conversion to `int`: two's complement reduction to `[-2^31, 2^31)`. -/
def toInt32 (n : Int) : Int := (n + 2147483648) % 4294967296 - 2147483648

/-- The values `lo, lo+1, ..., hi-1` taken by the counter of
`for (int v = lo; v < hi; ++v)`. -/
def intRange (lo hi : Int) : List Int :=
  (List.range (hi - lo).toNat).map (fun (i : Nat) => lo + (i : Int))

/-! ## Skin and rectangles -/

/-- The fields of `struct SkinInfo` the analysis uses (`path` and `srv` are
not read by it). -/
structure SkinInfo where
  width : Nat := 0
  height : Nat := 0
  scale : Nat := 1
  legacy64x32 : Bool := false
  hasAlpha : Bool := true
  rgba : List Nat := []
deriving DecidableEq

/-- Pixel-space rectangle, `struct UvRectPx`. -/
structure UvRectPx where
  x : Int := 0
  y : Int := 0
  w : Int := 0
  h : Int := 0
deriving DecidableEq

/-- Six face rectangles of one box, `struct BoxUv`. -/
structure BoxUv where
  top : UvRectPx
  bottom : UvRectPx
  right : UvRectPx
  front : UvRectPx
  left : UvRectPx
  back : UvRectPx
deriving DecidableEq

/-- Byte offset of pixel `(x, y)`: `(size_t)(y * s.width + x) * 4`, the sum
being computed in `uint32_t`. -/
def pixelIndex (width : Nat) (x y : Int) : Nat :=
  toUInt32 (y * (width : Int) + x) * 4

/-- `AnyNonTransparent` (main.cpp 117-131). -/
def AnyNonTransparent (s : SkinInfo) (r : UvRectPx) : Bool :=
  if s.rgba.isEmpty || s.width == 0 || s.height == 0 then false
  else
    let x0 := max 0 r.x
    let y0 := max 0 r.y
    let x1 := min (toInt32 s.width) (toInt32 (r.x + r.w))
    let y1 := min (toInt32 s.height) (toInt32 (r.y + r.h))
    if x1 ≤ x0 ∨ y1 ≤ y0 then false
    else
      (intRange y0 y1).any fun y =>
        (intRange x0 x1).any fun x =>
          let idx := pixelIndex s.width x y
          decide (idx + 3 < s.rgba.length) && (s.rgba.getD (idx + 3) 0 != 0)

/-- `ScaleRect` (main.cpp 133-135): every field times `(int)scale`. -/
def ScaleRect (r : UvRectPx) (scale : Nat) : UvRectPx :=
  { x := toInt32 (r.x * toInt32 scale)
    y := toInt32 (r.y * toInt32 scale)
    w := toInt32 (r.w * toInt32 scale)
    h := toInt32 (r.h * toInt32 scale) }

/-- `ScaleBoxUv` (main.cpp 137-146). -/
def ScaleBoxUv (b : BoxUv) (scale : Nat) : BoxUv :=
  { top := ScaleRect b.top scale
    bottom := ScaleRect b.bottom scale
    right := ScaleRect b.right scale
    front := ScaleRect b.front scale
    left := ScaleRect b.left scale
    back := ScaleRect b.back scale }

/-! ## The atlas (64x64 reference), main.cpp 149-310 -/

def UV_Head : BoxUv :=
  { top := ⟨8, 0, 8, 8⟩, bottom := ⟨16, 0, 8, 8⟩, right := ⟨0, 8, 8, 8⟩
    front := ⟨8, 8, 8, 8⟩, left := ⟨16, 8, 8, 8⟩, back := ⟨24, 8, 8, 8⟩ }

def UV_Hat : BoxUv :=
  { top := ⟨40, 0, 8, 8⟩, bottom := ⟨48, 0, 8, 8⟩, right := ⟨32, 8, 8, 8⟩
    front := ⟨40, 8, 8, 8⟩, left := ⟨48, 8, 8, 8⟩, back := ⟨56, 8, 8, 8⟩ }

def UV_Torso : BoxUv :=
  { top := ⟨20, 16, 8, 4⟩, bottom := ⟨28, 16, 8, 4⟩, right := ⟨16, 20, 4, 12⟩
    front := ⟨20, 20, 8, 12⟩, left := ⟨28, 20, 4, 12⟩, back := ⟨32, 20, 8, 12⟩ }

def UV_Jacket : BoxUv :=
  { top := ⟨20, 32, 8, 4⟩, bottom := ⟨28, 32, 8, 4⟩, right := ⟨16, 36, 4, 12⟩
    front := ⟨20, 36, 8, 12⟩, left := ⟨28, 36, 4, 12⟩, back := ⟨32, 36, 8, 12⟩ }

def UV_RightLeg : BoxUv :=
  { top := ⟨4, 16, 4, 4⟩, bottom := ⟨8, 16, 4, 4⟩, right := ⟨0, 20, 4, 12⟩
    front := ⟨4, 20, 4, 12⟩, left := ⟨8, 20, 4, 12⟩, back := ⟨12, 20, 4, 12⟩ }

def UV_RightLegPants : BoxUv :=
  { top := ⟨4, 32, 4, 4⟩, bottom := ⟨8, 32, 4, 4⟩, right := ⟨0, 36, 4, 12⟩
    front := ⟨4, 36, 4, 12⟩, left := ⟨8, 36, 4, 12⟩, back := ⟨12, 36, 4, 12⟩ }

def UV_RightArm : BoxUv :=
  { top := ⟨44, 16, 4, 4⟩, bottom := ⟨48, 16, 4, 4⟩, right := ⟨40, 20, 4, 12⟩
    front := ⟨44, 20, 4, 12⟩, left := ⟨48, 20, 4, 12⟩, back := ⟨52, 20, 4, 12⟩ }

def UV_RightSleeve : BoxUv :=
  { top := ⟨44, 32, 4, 4⟩, bottom := ⟨48, 32, 4, 4⟩, right := ⟨40, 36, 4, 12⟩
    front := ⟨44, 36, 4, 12⟩, left := ⟨48, 36, 4, 12⟩, back := ⟨52, 36, 4, 12⟩ }

def UV_LeftLeg : BoxUv :=
  { top := ⟨20, 48, 4, 4⟩, bottom := ⟨24, 48, 4, 4⟩, right := ⟨16, 52, 4, 12⟩
    front := ⟨20, 52, 4, 12⟩, left := ⟨24, 52, 4, 12⟩, back := ⟨28, 52, 4, 12⟩ }

def UV_LeftLegPants : BoxUv :=
  { top := ⟨4, 48, 4, 4⟩, bottom := ⟨8, 48, 4, 4⟩, right := ⟨0, 52, 4, 12⟩
    front := ⟨4, 52, 4, 12⟩, left := ⟨8, 52, 4, 12⟩, back := ⟨12, 52, 4, 12⟩ }

def UV_LeftArm : BoxUv :=
  { top := ⟨36, 48, 4, 4⟩, bottom := ⟨40, 48, 4, 4⟩, right := ⟨32, 52, 4, 12⟩
    front := ⟨36, 52, 4, 12⟩, left := ⟨40, 52, 4, 12⟩, back := ⟨44, 52, 4, 12⟩ }

def UV_LeftSleeve : BoxUv :=
  { top := ⟨52, 48, 4, 4⟩, bottom := ⟨56, 48, 4, 4⟩, right := ⟨48, 52, 4, 12⟩
    front := ⟨52, 52, 4, 12⟩, left := ⟨56, 52, 4, 12⟩, back := ⟨60, 52, 4, 12⟩ }

def UV_RightArmSlim : BoxUv :=
  { top := ⟨44, 16, 3, 4⟩, bottom := ⟨47, 16, 3, 4⟩, right := ⟨40, 20, 4, 12⟩
    front := ⟨44, 20, 3, 12⟩, left := ⟨47, 20, 4, 12⟩, back := ⟨51, 20, 3, 12⟩ }

def UV_RightSleeveSlim : BoxUv :=
  { top := ⟨44, 32, 3, 4⟩, bottom := ⟨47, 32, 3, 4⟩, right := ⟨40, 36, 4, 12⟩
    front := ⟨44, 36, 3, 12⟩, left := ⟨47, 36, 4, 12⟩, back := ⟨51, 36, 3, 12⟩ }

def UV_LeftArmSlim : BoxUv :=
  { top := ⟨36, 48, 3, 4⟩, bottom := ⟨39, 48, 3, 4⟩, right := ⟨32, 52, 4, 12⟩
    front := ⟨36, 52, 3, 12⟩, left := ⟨39, 52, 4, 12⟩, back := ⟨43, 52, 3, 12⟩ }

def UV_LeftSleeveSlim : BoxUv :=
  { top := ⟨52, 48, 3, 4⟩, bottom := ⟨55, 48, 3, 4⟩, right := ⟨48, 52, 4, 12⟩
    front := ⟨52, 52, 3, 12⟩, left := ⟨55, 52, 4, 12⟩, back := ⟨59, 52, 3, 12⟩ }

/-! ## Geometry, main.cpp 315-400 -/

structure XMFLOAT2 where
  x : ℚ
  y : ℚ
deriving DecidableEq

structure XMFLOAT3 where
  x : ℚ
  y : ℚ
  z : ℚ
deriving DecidableEq

/-- One vertex, `struct Vertex`. -/
structure Vertex where
  pos : XMFLOAT3
  nrm : XMFLOAT3
  uv : XMFLOAT2
deriving DecidableEq

/-- `UVFromPx` (main.cpp 321-323). -/
def UVFromPx (px py : Int) (texW texH : Nat) : XMFLOAT2 :=
  ⟨(px : ℚ) / (texW : ℚ), (py : ℚ) / (texH : ℚ)⟩

/-- `AddFace` (main.cpp 325-351): the vertex list and the index list after the
call. `base` and the six pushed indices are `uint32_t`. -/
def AddFace (v : List Vertex) (i : List Nat) (p0 p1 p2 p3 n : XMFLOAT3)
    (r : UvRectPx) (texW texH : Nat) : List Vertex × List Nat :=
  let uv0 := UVFromPx r.x r.y texW texH
  let uv1 := UVFromPx (toInt32 (r.x + r.w)) r.y texW texH
  let uv2 := UVFromPx (toInt32 (r.x + r.w)) (toInt32 (r.y + r.h)) texW texH
  let uv3 := UVFromPx r.x (toInt32 (r.y + r.h)) texW texH
  let base := toUInt32 (v.length : Int)
  let v := v ++ [⟨p0, n, uv0⟩]
  let v := v ++ [⟨p1, n, uv1⟩]
  let v := v ++ [⟨p2, n, uv2⟩]
  let v := v ++ [⟨p3, n, uv3⟩]
  let i := i ++ [toUInt32 ((base : Int) + 0)]
  let i := i ++ [toUInt32 ((base : Int) + 1)]
  let i := i ++ [toUInt32 ((base : Int) + 2)]
  let i := i ++ [toUInt32 ((base : Int) + 0)]
  let i := i ++ [toUInt32 ((base : Int) + 2)]
  let i := i ++ [toUInt32 ((base : Int) + 3)]
  (v, i)

/-- `AddBox` (main.cpp 353-394). -/
def AddBox (v : List Vertex) (i : List Nat) (center size : XMFLOAT3)
    (uv : BoxUv) (texW texH : Nat) : List Vertex × List Nat :=
  let hx := size.x * (1 / 2)
  let hy := size.y * (1 / 2)
  let hz := size.z * (1 / 2)
  let cx := center.x
  let cy := center.y
  let cz := center.z
  let LBF : XMFLOAT3 := ⟨cx - hx, cy - hy, cz - hz⟩
  let RBF : XMFLOAT3 := ⟨cx + hx, cy - hy, cz - hz⟩
  let RTF : XMFLOAT3 := ⟨cx + hx, cy + hy, cz - hz⟩
  let LTF : XMFLOAT3 := ⟨cx - hx, cy + hy, cz - hz⟩
  let LBB : XMFLOAT3 := ⟨cx - hx, cy - hy, cz + hz⟩
  let RBB : XMFLOAT3 := ⟨cx + hx, cy - hy, cz + hz⟩
  let RTB : XMFLOAT3 := ⟨cx + hx, cy + hy, cz + hz⟩
  let LTB : XMFLOAT3 := ⟨cx - hx, cy + hy, cz + hz⟩
  -- Top (+Y)
  let (v, i) := AddFace v i LTF RTF RTB LTB ⟨0, 1, 0⟩ uv.top texW texH
  -- Bottom (-Y)
  let (v, i) := AddFace v i LBB RBB RBF LBF ⟨0, -1, 0⟩ uv.bottom texW texH
  -- Front (+Z)
  let (v, i) := AddFace v i LTB RTB RBB LBB ⟨0, 0, 1⟩ uv.front texW texH
  -- Back (-Z)
  let (v, i) := AddFace v i RTF LTF LBF RBF ⟨0, 0, -1⟩ uv.back texW texH
  -- Right (+X)
  let (v, i) := AddFace v i RTB RTF RBF RBB ⟨1, 0, 0⟩ uv.right texW texH
  -- Left (-X)
  AddFace v i LTF LTB LBB LBF ⟨-1, 0, 0⟩ uv.left texW texH

/-- The mesh, `struct BuiltMesh`. -/
structure BuiltMesh where
  vertices : List Vertex := []
  indicesBase : List Nat := []
  indicesOverlay : List Nat := []
deriving DecidableEq

/-- The call `AddBox(m.vertices, m.indicesBase, ...)`. -/
def BuiltMesh.addBase (m : BuiltMesh) (center size : XMFLOAT3) (uv : BoxUv)
    (texW texH : Nat) : BuiltMesh :=
  let (v, i) := AddBox m.vertices m.indicesBase center size uv texW texH
  { m with vertices := v, indicesBase := i }

/-- The call `AddBox(m.vertices, m.indicesOverlay, ...)`. -/
def BuiltMesh.addOverlay (m : BuiltMesh) (center size : XMFLOAT3) (uv : BoxUv)
    (texW texH : Nat) : BuiltMesh :=
  let (v, i) := AddBox m.vertices m.indicesOverlay center size uv texW texH
  { m with vertices := v, indicesOverlay := i }

/-- The lambda `Inflate` of `BuildPlayerMesh` (main.cpp 452). -/
def Inflate (size : XMFLOAT3) (delta : ℚ) : XMFLOAT3 :=
  ⟨size.x + delta, size.y + delta, size.z + delta⟩

/-- The flag `has64` of `BuildPlayerMesh` (main.cpp 411),
`!skin.legacy64x32 && skin.height >= 64 * s` with the product in `uint32_t`. -/
def has64 (skin : SkinInfo) : Bool :=
  !skin.legacy64x32 && decide (toUInt32 (64 * (skin.scale : Int)) ≤ skin.height)

/-- `BuildPlayerMesh` (main.cpp 402-517). -/
def BuildPlayerMesh (skin : SkinInfo) (slimArms : Bool) : BuiltMesh :=
  let m : BuiltMesh := {}
  if skin.width = 0 ∨ skin.height = 0 then m
  else
    let texW := skin.width
    let texH := skin.height
    let s := skin.scale
    let S := fun (b : BoxUv) => ScaleBoxUv b s
    let has64 := has64 skin
    let headSize : XMFLOAT3 := ⟨8, 8, 8⟩
    let bodySize : XMFLOAT3 := ⟨8, 12, 4⟩
    let legSize : XMFLOAT3 := ⟨4, 12, 4⟩
    let armW : ℚ := if has64 && slimArms then 3 else 4
    let armSize : XMFLOAT3 := ⟨armW, 12, 4⟩
    let headC : XMFLOAT3 := ⟨0, 12 + 12 + 4, 0⟩
    let bodyC : XMFLOAT3 := ⟨0, 12 + 6, 0⟩
    let armX : ℚ := 4 + armW * (1 / 2)
    let rArmC : XMFLOAT3 := ⟨-armX, 12 + 6, 0⟩
    let lArmC : XMFLOAT3 := ⟨armX, 12 + 6, 0⟩
    let rLegC : XMFLOAT3 := ⟨-2, 6, 0⟩
    let lLegC : XMFLOAT3 := ⟨2, 6, 0⟩
    -- Base geometry
    let m := m.addBase headC headSize (S UV_Head) texW texH
    let m := m.addBase bodyC bodySize (S UV_Torso) texW texH
    let m :=
      if armW = 3 then m.addBase rArmC armSize (S UV_RightArmSlim) texW texH
      else m.addBase rArmC armSize (S UV_RightArm) texW texH
    let m := m.addBase rLegC legSize (S UV_RightLeg) texW texH
    let m :=
      if has64 then
        let m :=
          if armW = 3 then m.addBase lArmC armSize (S UV_LeftArmSlim) texW texH
          else m.addBase lArmC armSize (S UV_LeftArm) texW texH
        m.addBase lLegC legSize (S UV_LeftLeg) texW texH
      else
        let m := m.addBase lArmC armSize (S UV_RightArm) texW texH
        m.addBase lLegC legSize (S UV_RightLeg) texW texH
    -- Hat
    let hat := S UV_Hat
    let present :=
      AnyNonTransparent skin hat.top || AnyNonTransparent skin hat.bottom ||
      AnyNonTransparent skin hat.left || AnyNonTransparent skin hat.right ||
      AnyNonTransparent skin hat.front || AnyNonTransparent skin hat.back
    let m := if present then m.addOverlay headC (Inflate headSize (1 / 2)) hat texW texH else m
    -- Jacket
    let jacket := S UV_Jacket
    let present :=
      AnyNonTransparent skin jacket.top || AnyNonTransparent skin jacket.bottom ||
      AnyNonTransparent skin jacket.left || AnyNonTransparent skin jacket.right ||
      AnyNonTransparent skin jacket.front || AnyNonTransparent skin jacket.back
    let m := if present then m.addOverlay bodyC (Inflate bodySize (1 / 2)) jacket texW texH else m
    -- Right sleeve
    let rs := if armW = 3 then S UV_RightSleeveSlim else S UV_RightSleeve
    let present :=
      AnyNonTransparent skin rs.top || AnyNonTransparent skin rs.bottom ||
      AnyNonTransparent skin rs.left || AnyNonTransparent skin rs.right ||
      AnyNonTransparent skin rs.front || AnyNonTransparent skin rs.back
    let m := if present then m.addOverlay rArmC (Inflate armSize (1 / 2)) rs texW texH else m
    -- Right pants
    let rp := S UV_RightLegPants
    let present :=
      AnyNonTransparent skin rp.top || AnyNonTransparent skin rp.bottom ||
      AnyNonTransparent skin rp.left || AnyNonTransparent skin rp.right ||
      AnyNonTransparent skin rp.front || AnyNonTransparent skin rp.back
    let m := if present then m.addOverlay rLegC (Inflate legSize (1 / 2)) rp texW texH else m
    if has64 then
      -- Left sleeve
      let ls := if armW = 3 then S UV_LeftSleeveSlim else S UV_LeftSleeve
      let present :=
        AnyNonTransparent skin ls.top || AnyNonTransparent skin ls.bottom ||
        AnyNonTransparent skin ls.left || AnyNonTransparent skin ls.right ||
        AnyNonTransparent skin ls.front || AnyNonTransparent skin ls.back
      let m := if present then m.addOverlay lArmC (Inflate armSize (1 / 2)) ls texW texH else m
      -- Left pants
      let lp := S UV_LeftLegPants
      let present :=
        AnyNonTransparent skin lp.top || AnyNonTransparent skin lp.bottom ||
        AnyNonTransparent skin lp.left || AnyNonTransparent skin lp.right ||
        AnyNonTransparent skin lp.front || AnyNonTransparent skin lp.back
      if present then m.addOverlay lLegC (Inflate legSize (1 / 2)) lp texW texH else m
    else m

/-! ## Sanitization and loading, main.cpp 519-592 -/

/-- The statement `s.rgba[i] = 255`: defined only for `i` inside the buffer. -/
def writeAlpha (rgba : List Nat) (i : Nat) : Option (List Nat) :=
  if i < rgba.length then some (rgba.set i 255) else none

/-- `ForceRectOpaque` (main.cpp 519-532). -/
def ForceRectOpaque (s : SkinInfo) (x y w h : Int) : Option SkinInfo :=
  let x0 := max 0 x
  let y0 := max 0 y
  let x1 := min (toInt32 s.width) (toInt32 (x + w))
  let y1 := min (toInt32 s.height) (toInt32 (y + h))
  if x1 ≤ x0 ∨ y1 ≤ y0 then some s
  else
    ((intRange y0 y1).foldlM
      (fun rgba yy =>
        (intRange x0 x1).foldlM
          (fun rgba xx => writeAlpha rgba (pixelIndex s.width xx yy + 3)) rgba)
      s.rgba).map (fun rgba => { s with rgba := rgba })

/-- `SanitizeMinecraftBaseAlpha` (main.cpp 534-546). -/
def SanitizeMinecraftBaseAlpha (s : SkinInfo) : Option SkinInfo :=
  let k := toInt32 s.scale
  let m := fun (c : Int) => toInt32 (c * k)
  ( ForceRectOpaque s (m 0) (m 0) (m 32) (m 16)).bind fun s =>
  ( ForceRectOpaque s (m 16) (m 16) (m 24) (m 16)).bind fun s =>
  ( ForceRectOpaque s (m 40) (m 16) (m 16) (m 16)).bind fun s =>
  ( ForceRectOpaque s (m 0) (m 16) (m 16) (m 16)).bind fun s =>
  if !s.legacy64x32 && decide (toUInt32 (m 64) ≤ s.height) then
    ( ForceRectOpaque s (m 32) (m 48) (m 16) (m 16)).bind fun s =>
    ForceRectOpaque s (m 16) (m 48) (m 16) (m 16)
  else some s

/-- The classification of `LoadSkinPngWIC` (main.cpp 572-574):
`(legacy64x32, scale)` from the decoded size. -/
def classify (w h : Nat) : Bool × Nat :=
  (decide (w = 64 ∧ h = 32), if w = h ∧ w % 64 = 0 then w / 64 else 1)

/-- The alpha detection of `LoadSkinPngWIC` (main.cpp 591-592):
`std::any_of(rgba.begin() + 3, rgba.end(), a != 255)`. On a buffer shorter
than 3 bytes `begin() + 3` is past the end and the C++ has no defined result;
the model answers `false` there. -/
def detectAlpha (rgba : List Nat) : Bool :=
  (rgba.drop 3).any (fun a => a != 255)

/-- The part of `LoadSkinPngWIC` (main.cpp 569-592) that follows decoding:
`w`, `h` are the size reported by the decoder and `pixels` the `w * h * 4`
bytes it copied into `out.rgba`. -/
def LoadSkin (w h : Nat) (pixels : List Nat) : Option SkinInfo :=
  let out : SkinInfo :=
    { width := w, height := h, scale := (classify w h).2
      legacy64x32 := (classify w h).1, rgba := pixels }
  ( SanitizeMinecraftBaseAlpha out).map fun out =>
    { out with hasAlpha := detectAlpha out.rgba }

/-! ## Specification-level notions -/

/-- The image is representable in the program's 32-bit arithmetic: the buffer
holds `width * height` RGBA pixels, both dimensions convert to `int` unchanged,
and every pixel number `y * width + x` fits `uint32_t`. -/
structure SkinInfo.Fits (s : SkinInfo) : Prop where
  size : s.rgba.length = s.width * s.height * 4
  width_lt : s.width < 2147483648
  height_lt : s.height < 2147483648
  pixels_le : s.width * s.height ≤ 4294967296

/-- The right and bottom edges `x + w`, `y + h` of the rectangle, which the
code computes in `int`, are representable. -/
def UvRectPx.Fits (r : UvRectPx) : Prop :=
  -2147483648 ≤ r.x + r.w ∧ r.x + r.w < 2147483648 ∧
  -2147483648 ≤ r.y + r.h ∧ r.y + r.h < 2147483648

instance (r : UvRectPx) : Decidable r.Fits := by
  unfold UvRectPx.Fits; infer_instance

/-- Pixel `(x, y)` lies inside the rectangle. -/
def UvRectPx.contains (r : UvRectPx) (x y : Nat) : Prop :=
  r.x ≤ (x : Int) ∧ (x : Int) < r.x + r.w ∧ r.y ≤ (y : Int) ∧ (y : Int) < r.y + r.h

instance (r : UvRectPx) (x y : Nat) : Decidable (r.contains x y) := by
  unfold UvRectPx.contains; infer_instance

/-- Byte `c` (0 = R, 1 = G, 2 = B, 3 = A) of pixel `(x, y)` of the row-major
RGBA buffer. -/
def byteAt (s : SkinInfo) (x y c : Nat) : Nat :=
  s.rgba.getD ((y * s.width + x) * 4 + c) 0

/-- Alpha byte of pixel `(x, y)`. -/
def alphaAt (s : SkinInfo) (x y : Nat) : Nat :=
  byteAt s x y 3

/-- The arguments of one `AddBox` call. -/
structure Box where
  center : XMFLOAT3
  size : XMFLOAT3
  uv : BoxUv

/-- The six base boxes, in the order `BuildPlayerMesh` emits them. -/
inductive BasePart
  | head | torso | rightArm | rightLeg | leftArm | leftLeg
deriving DecidableEq

/-- The six overlay boxes, in the order `BuildPlayerMesh` considers them. -/
inductive OverlayPart
  | hat | jacket | rightSleeve | rightPants | leftSleeve | leftPants
deriving DecidableEq

def BasePart.all : List BasePart :=
  [.head, .torso, .rightArm, .rightLeg, .leftArm, .leftLeg]

def OverlayPart.all : List OverlayPart :=
  [.hat, .jacket, .rightSleeve, .rightPants, .leftSleeve, .leftPants]

/-- The local `armW` of `BuildPlayerMesh` (main.cpp 418). -/
def armW (skin : SkinInfo) (slimArms : Bool) : ℚ :=
  if has64 skin && slimArms then 3 else 4

/-- Centre of each body part (main.cpp 421-429). -/
def partCenter (skin : SkinInfo) (slimArms : Bool) : BasePart → XMFLOAT3
  | .head => ⟨0, 12 + 12 + 4, 0⟩
  | .torso => ⟨0, 12 + 6, 0⟩
  | .rightArm => ⟨-(4 + armW skin slimArms * (1 / 2)), 12 + 6, 0⟩
  | .rightLeg => ⟨-2, 6, 0⟩
  | .leftArm => ⟨4 + armW skin slimArms * (1 / 2), 12 + 6, 0⟩
  | .leftLeg => ⟨2, 6, 0⟩

/-- Size of each body part (main.cpp 414-419). -/
def partSize (skin : SkinInfo) (slimArms : Bool) : BasePart → XMFLOAT3
  | .head => ⟨8, 8, 8⟩
  | .torso => ⟨8, 12, 4⟩
  | .rightArm => ⟨armW skin slimArms, 12, 4⟩
  | .rightLeg => ⟨4, 12, 4⟩
  | .leftArm => ⟨armW skin slimArms, 12, 4⟩
  | .leftLeg => ⟨4, 12, 4⟩

/-- The face set `BuildPlayerMesh` passes for each base box (main.cpp 432-449). -/
def baseUv (skin : SkinInfo) (slimArms : Bool) : BasePart → BoxUv
  | .head => ScaleBoxUv UV_Head skin.scale
  | .torso => ScaleBoxUv UV_Torso skin.scale
  | .rightArm =>
      if armW skin slimArms = 3 then ScaleBoxUv UV_RightArmSlim skin.scale
      else ScaleBoxUv UV_RightArm skin.scale
  | .rightLeg => ScaleBoxUv UV_RightLeg skin.scale
  | .leftArm =>
      if has64 skin then
        if armW skin slimArms = 3 then ScaleBoxUv UV_LeftArmSlim skin.scale
        else ScaleBoxUv UV_LeftArm skin.scale
      else ScaleBoxUv UV_RightArm skin.scale
  | .leftLeg =>
      if has64 skin then ScaleBoxUv UV_LeftLeg skin.scale
      else ScaleBoxUv UV_RightLeg skin.scale

/-- The `AddBox` arguments of each base box. -/
def baseBox (skin : SkinInfo) (slimArms : Bool) (p : BasePart) : Box :=
  ⟨partCenter skin slimArms p, partSize skin slimArms p, baseUv skin slimArms p⟩

/-- The base part an overlay box is wrapped around. -/
def OverlayPart.under : OverlayPart → BasePart
  | .hat => .head
  | .jacket => .torso
  | .rightSleeve => .rightArm
  | .rightPants => .rightLeg
  | .leftSleeve => .leftArm
  | .leftPants => .leftLeg

/-- The face set `BuildPlayerMesh` probes and passes for each overlay box
(main.cpp 456-507). -/
def overlayUv (skin : SkinInfo) (slimArms : Bool) : OverlayPart → BoxUv
  | .hat => ScaleBoxUv UV_Hat skin.scale
  | .jacket => ScaleBoxUv UV_Jacket skin.scale
  | .rightSleeve =>
      if armW skin slimArms = 3 then ScaleBoxUv UV_RightSleeveSlim skin.scale
      else ScaleBoxUv UV_RightSleeve skin.scale
  | .rightPants => ScaleBoxUv UV_RightLegPants skin.scale
  | .leftSleeve =>
      if armW skin slimArms = 3 then ScaleBoxUv UV_LeftSleeveSlim skin.scale
      else ScaleBoxUv UV_LeftSleeve skin.scale
  | .leftPants => ScaleBoxUv UV_LeftLegPants skin.scale

/-- The `AddBox` arguments of each overlay box: same centre as the base part,
size inflated by 0.5. -/
def overlayBox (skin : SkinInfo) (slimArms : Bool) (p : OverlayPart) : Box :=
  ⟨partCenter skin slimArms p.under, Inflate (partSize skin slimArms p.under) (1 / 2),
    overlayUv skin slimArms p⟩

/-- The overlay parts `BuildPlayerMesh` considers at all: the left sleeve and
left pants only under `has64`. -/
def eligible (skin : SkinInfo) : OverlayPart → Bool
  | .leftSleeve => has64 skin
  | .leftPants => has64 skin
  | _ => true

/-- The six rectangles of a face set, in the order the presence test reads them. -/
def BoxUv.faces (b : BoxUv) : List UvRectPx :=
  [b.top, b.bottom, b.left, b.right, b.front, b.back]

/-- The presence test of an overlay block: `AnyNonTransparent` on some face. -/
def probe (skin : SkinInfo) (b : BoxUv) : Bool :=
  b.faces.any (AnyNonTransparent skin)

/-- The mesh after the six base boxes. -/
def baseMesh (skin : SkinInfo) (slimArms : Bool) : BuiltMesh :=
  (BasePart.all.map (baseBox skin slimArms)).foldl
    (fun m b => m.addBase b.center b.size b.uv skin.width skin.height) {}

/-- The mesh made of the six base boxes followed by the boxes of `parts`. -/
def meshOf (skin : SkinInfo) (slimArms : Bool) (parts : List OverlayPart) : BuiltMesh :=
  (parts.map (overlayBox skin slimArms)).foldl
    (fun m b => m.addOverlay b.center b.size b.uv skin.width skin.height)
    (baseMesh skin slimArms)

/-- The overlay part is considered and its presence test succeeds. -/
def present (skin : SkinInfo) (slimArms : Bool) (p : OverlayPart) : Bool :=
  eligible skin p && probe skin (overlayUv skin slimArms p)

/-- The overlay parts whose block calls `AddBox`. -/
def probedParts (skin : SkinInfo) (slimArms : Bool) : List OverlayPart :=
  OverlayPart.all.filter (present skin slimArms)

/-- Some in-bounds pixel inside one of the six rectangles has non-zero alpha. -/
def visible (s : SkinInfo) (b : BoxUv) : Prop :=
  ∃ x, x < s.width ∧ ∃ y, y < s.height ∧ (∃ r ∈ b.faces, r.contains x y) ∧ alphaAt s x y ≠ 0

instance (s : SkinInfo) (b : BoxUv) : Decidable (visible s b) := by
  unfold visible; infer_instance

/-- The eligible overlay parts that have a visible pixel. -/
def visibleParts (skin : SkinInfo) (slimArms : Bool) : List OverlayPart :=
  OverlayPart.all.filter fun p =>
    eligible skin p && decide (visible skin (overlayUv skin slimArms p))

/-- The four always-present base regions at scale `k`: head, torso, right arm,
right leg. -/
def baseRegions (k : Int) : List UvRectPx :=
  [⟨0, 0, 32 * k, 16 * k⟩, ⟨16 * k, 16 * k, 24 * k, 16 * k⟩,
   ⟨40 * k, 16 * k, 16 * k, 16 * k⟩, ⟨0, 16 * k, 16 * k, 16 * k⟩]

/-- The two secondary base regions at scale `k`: left arm, left leg. -/
def secondaryRegions (k : Int) : List UvRectPx :=
  [⟨32 * k, 48 * k, 16 * k, 16 * k⟩, ⟨16 * k, 48 * k, 16 * k, 16 * k⟩]

/-- The six indices of a face whose first vertex has number `n`. -/
def faceIndices (n : Nat) : List Nat :=
  [n, n + 1, n + 2, n, n + 2, n + 3]

/-- The 36 indices of a box whose first vertex has number `n`. -/
def boxIndices (n : Nat) : List Nat :=
  faceIndices n ++ faceIndices (n + 4) ++ faceIndices (n + 8) ++ faceIndices (n + 12) ++
    faceIndices (n + 16) ++ faceIndices (n + 20)

/-- The 24 vertices `AddBox` appends. -/
def boxVertices (center size : XMFLOAT3) (uv : BoxUv) (texW texH : Nat) : List Vertex :=
  (AddBox [] [] center size uv texW texH).1

/-- The index blocks of `k` boxes appended after `n` vertices. -/
def blockIndices (n : Nat) : Nat → List Nat
  | 0 => []
  | k + 1 => boxIndices n ++ blockIndices (n + 24) k


/-- The profile fields of the skin are the ones `LoadSkinPngWIC` derives from
its size. -/
def Classified (s : SkinInfo) : Prop :=
  s.legacy64x32 = (classify s.width s.height).1 ∧ s.scale = (classify s.width s.height).2

instance (s : SkinInfo) : Decidable (Classified s) := by
  unfold Classified; infer_instance

/-- The skin with its pixel buffer replaced. -/
def SkinInfo.withRgba (s : SkinInfo) (rgba : List Nat) : SkinInfo :=
  { s with rgba := rgba }

/-- The reference face sets of the overlay parts, classic and slim sleeves
included. -/
def overlayAtlas : List BoxUv :=
  [UV_Hat, UV_Jacket, UV_RightSleeve, UV_RightSleeveSlim, UV_LeftSleeve, UV_LeftSleeveSlim,
   UV_RightLegPants, UV_LeftLegPants]

/-- The all-transparent black `w` x `h` image, classified as the loader does. -/
def blankSkin (w h : Nat) : SkinInfo :=
  { width := w, height := h, scale := (classify w h).2, legacy64x32 := (classify w h).1
    rgba := List.replicate (w * h * 4) 0 }

/-- The blank `w` x `h` skin with the alpha of the single pixel `(x0, y0)` set
to `a`. -/
def onePixelSkin (w h x0 y0 a : Nat) : SkinInfo :=
  (blankSkin w h).withRgba ((blankSkin w h).rgba.set ((y0 * w + x0) * 4 + 3) a)

/-- The skin `LoadSkinPngWIC` holds just before sanitization. -/
def rawSkin (w h : Nat) (pixels : List Nat) : SkinInfo :=
  { width := w, height := h, scale := (classify w h).2, legacy64x32 := (classify w h).1
    rgba := pixels }

/-- Smallest value of a list of coordinates (0 for the empty list). -/
def lower (l : List ℚ) : ℚ :=
  l.foldl min (l.headD 0)

/-- Largest value of a list of coordinates (0 for the empty list). -/
def upper (l : List ℚ) : ℚ :=
  l.foldl max (l.headD 0)

/-- The axis-aligned bounding box `(lo, hi)` of a list of vertices. -/
def extent (vs : List Vertex) : XMFLOAT3 × XMFLOAT3 :=
  (⟨lower (vs.map fun v => v.pos.x), lower (vs.map fun v => v.pos.y),
      lower (vs.map fun v => v.pos.z)⟩,
    ⟨upper (vs.map fun v => v.pos.x), upper (vs.map fun v => v.pos.y),
      upper (vs.map fun v => v.pos.z)⟩)

/-- Half of the extent along x of a list of vertices. -/
def halfWidthX (vs : List Vertex) : ℚ :=
  ((extent vs).2.x - (extent vs).1.x) / 2

/-- The `i`-th block of 24 vertices of a mesh. -/
def BuiltMesh.block (m : BuiltMesh) (i : Nat) : List Vertex :=
  (m.vertices.drop (24 * i)).take 24

/-- The reference face sets of the base parts, classic and slim arms included. -/
def baseAtlas : List BoxUv :=
  [UV_Head, UV_Torso, UV_RightArm, UV_RightArmSlim, UV_RightLeg, UV_LeftArm, UV_LeftArmSlim,
   UV_LeftLeg]

/-- A reference rectangle: non-negative position and size, inside the 64x64
reference texture. -/
def UvRectPx.ref (r : UvRectPx) : Prop :=
  0 ≤ r.x ∧ 0 ≤ r.y ∧ 0 ≤ r.w ∧ 0 ≤ r.h ∧ r.x + r.w ≤ 64 ∧ r.y + r.h ≤ 64

instance (r : UvRectPx) : Decidable r.ref := by
  unfold UvRectPx.ref; infer_instance

/-- The rectangle lies inside a `tw` x `th` texture. -/
def UvRectPx.inside (r : UvRectPx) (tw th : Nat) : Prop :=
  0 ≤ r.x ∧ 0 ≤ r.y ∧ 0 ≤ r.w ∧ 0 ≤ r.h ∧ r.x + r.w ≤ (tw : Int) ∧ r.y + r.h ≤ (th : Int)

instance (r : UvRectPx) (tw th : Nat) : Decidable (r.inside tw th) := by
  unfold UvRectPx.inside; infer_instance

/-- Both texture coordinates lie in the closed unit interval. -/
def XMFLOAT2.unit (t : XMFLOAT2) : Prop :=
  0 ≤ t.x ∧ t.x ≤ 1 ∧ 0 ≤ t.y ∧ t.y ≤ 1

/-- Difference of two points. -/
def XMFLOAT3.sub (a b : XMFLOAT3) : XMFLOAT3 :=
  ⟨a.x - b.x, a.y - b.y, a.z - b.z⟩

/-- Dot product. -/
def XMFLOAT3.dot (a b : XMFLOAT3) : ℚ :=
  a.x * b.x + a.y * b.y + a.z * b.z

/-- Cross product. -/
def XMFLOAT3.cross (a b : XMFLOAT3) : XMFLOAT3 :=
  ⟨a.y * b.z - a.z * b.y, a.z * b.x - a.x * b.z, a.x * b.y - a.y * b.x⟩

/-- Multiple of a vector. -/
def XMFLOAT3.smul (t : ℚ) (a : XMFLOAT3) : XMFLOAT3 :=
  ⟨t * a.x, t * a.y, t * a.z⟩

/-- The six axis-aligned unit vectors. -/
def axisUnits : List XMFLOAT3 :=
  [⟨0, 1, 0⟩, ⟨0, -1, 0⟩, ⟨0, 0, 1⟩, ⟨0, 0, -1⟩, ⟨1, 0, 0⟩, ⟨-1, 0, 0⟩]

/-- The zero vertex, the default of list lookups. -/
def Vertex.zero : Vertex :=
  ⟨⟨0, 0, 0⟩, ⟨0, 0, 0⟩, ⟨0, 0⟩⟩

/-- The `t`-th triangle of an indexed triangle list: the three vertices named
by the indices `3t`, `3t + 1`, `3t + 2`. -/
def triangle (vs : List Vertex) (is : List Nat) (t : Nat) : Vertex × Vertex × Vertex :=
  (vs.getD (is.getD (3 * t) 0) Vertex.zero, vs.getD (is.getD (3 * t + 1) 0) Vertex.zero,
    vs.getD (is.getD (3 * t + 2) 0) Vertex.zero)

/-- The point lies strictly inside the axis-aligned box `(lo, hi)`. -/
def strictlyInside (e : XMFLOAT3 × XMFLOAT3) (p : XMFLOAT3) : Prop :=
  e.1.x < p.x ∧ p.x < e.2.x ∧ e.1.y < p.y ∧ p.y < e.2.y ∧ e.1.z < p.z ∧ p.z < e.2.z

/-- The axis-aligned box `(lo, hi)` reflected in the plane `x = 0`. -/
def mirrorX (e : XMFLOAT3 × XMFLOAT3) : XMFLOAT3 × XMFLOAT3 :=
  (⟨-e.2.x, e.1.y, e.1.z⟩, ⟨-e.1.x, e.2.y, e.2.z⟩)

/-- The byte indices `idx + 3` visited by the two nested loops that
`AnyNonTransparent` (main.cpp 119-128) and `ForceRectOpaque` (main.cpp 520-530)
share, for the rectangle `(x, y, w, h)` clipped to the image, in loop order. -/
def rectIndices (width height : Nat) (x y w h : Int) : List Nat :=
  let x0 := max 0 x
  let y0 := max 0 y
  let x1 := min (toInt32 width) (toInt32 (x + w))
  let y1 := min (toInt32 height) (toInt32 (y + h))
  if x1 ≤ x0 ∨ y1 ≤ y0 then []
  else
    (intRange y0 y1).flatMap fun yy =>
      (intRange x0 x1).map fun xx => pixelIndex width xx yy + 3
/-! ## Machine arithmetic and loops -/

theorem toInt32_of_range {n : Int} (h1 : -2147483648 ≤ n) (h2 : n < 2147483648) :
    toInt32 n = n := by
  unfold toInt32; omega

theorem toUInt32_of_range {n : Int} (h1 : 0 ≤ n) (h2 : n < 4294967296) :
    toUInt32 n = n.toNat := by
  unfold toUInt32; congr 1; omega

theorem mem_intRange {lo hi v : Int} : v ∈ intRange lo hi ↔ lo ≤ v ∧ v < hi := by
  unfold intRange
  simp only [List.mem_map, List.mem_range, Int.lt_toNat]
  constructor
  · rintro ⟨i, hi', rfl⟩; omega
  · rintro ⟨h1, h2⟩
    refine ⟨(v - lo).toNat, ?_, ?_⟩
    · rw [Int.toNat_of_nonneg (by omega)]; omega
    · rw [Int.toNat_of_nonneg (by omega)]; omega

/-- Pixels of a row-major image are numbered below `width * height`. -/
theorem pixel_lt {w h x y : Nat} (hx : x < w) (hy : y < h) : y * w + x < w * h := by
  calc y * w + x < y * w + w := by omega
    _ = (y + 1) * w := by ring
    _ ≤ h * w := Nat.mul_le_mul_right w hy
    _ = w * h := by ring

/-- The byte offset the code computes for an in-bounds pixel is the row-major one. -/
theorem pixelIndex_eq {w h x y : Nat} (hx : x < w) (hy : y < h)
    (hp : w * h ≤ 4294967296) : pixelIndex w (x : Int) (y : Int) = (y * w + x) * 4 := by
  have := pixel_lt hx hy
  have e : ((y : Int) * (w : Int) + (x : Int)) = ((y * w + x : Nat) : Int) := by push_cast; ring
  unfold pixelIndex
  rw [e, toUInt32_of_range (by positivity) (by omega), Int.toNat_ofNat]


theorem AnyNonTransparent_iff_exists {s : SkinInfo} {r : UvRectPx}
    (hs : s.Fits) (hr : r.Fits) :
    AnyNonTransparent s r = true ↔
      ∃ x y : Nat, x < s.width ∧ y < s.height ∧ r.contains x y ∧ alphaAt s x y ≠ 0 := by
  obtain ⟨hsz, hw, hh, hp⟩ := hs
  obtain ⟨hx1, hx2, hy1, hy2⟩ := hr
  have ew : toInt32 (s.width : Int) = s.width := toInt32_of_range (by omega) (by omega)
  have eh : toInt32 (s.height : Int) = s.height := toInt32_of_range (by omega) (by omega)
  have ex : toInt32 (r.x + r.w) = r.x + r.w := toInt32_of_range hx1 hx2
  have ey : toInt32 (r.y + r.h) = r.y + r.h := toInt32_of_range hy1 hy2
  unfold AnyNonTransparent
  rw [ew, eh, ex, ey]
  by_cases h0 : (s.rgba.isEmpty || s.width == 0 || s.height == 0) = true
  · rw [if_pos h0]
    simp only [Bool.false_eq_true, false_iff, not_exists]
    rintro x y ⟨hx, hy, -, -⟩
    have hlt := pixel_lt hx hy
    simp only [Bool.or_eq_true, List.isEmpty_iff, beq_iff_eq] at h0
    rcases h0 with (h0 | h0) | h0
    · rw [h0] at hsz; simp at hsz; omega
    · omega
    · omega
  · rw [if_neg h0]
    simp only [UvRectPx.contains, alphaAt, byteAt]
    split_ifs with hc
    · simp only [Bool.false_eq_true, false_iff, not_exists]
      rintro x y ⟨hx, hy, ⟨h1, h2, h3, h4⟩, -⟩
      omega
    · simp only [List.any_eq_true, mem_intRange, Bool.and_eq_true, decide_eq_true_eq,
        bne_iff_ne, ne_eq]
      constructor
      · rintro ⟨y, ⟨hy0, hy1⟩, x, ⟨hx0, hx1⟩, hlt, hne⟩
        lift x to ℕ using (by omega)
        lift y to ℕ using (by omega)
        have hx : x < s.width := by omega
        have hy : y < s.height := by omega
        rw [pixelIndex_eq hx hy hp] at hne
        exact ⟨x, y, hx, hy, ⟨by omega, by omega, by omega, by omega⟩, hne⟩
      · rintro ⟨x, y, hx, hy, ⟨h1, h2, h3, h4⟩, hne⟩
        refine ⟨y, ⟨by omega, by omega⟩, x, ⟨by omega, by omega⟩, ?_⟩
        rw [pixelIndex_eq hx hy hp]
        have := pixel_lt hx hy
        exact ⟨by omega, hne⟩

/-! ## Structure of the mesh -/

theorem probe_eq (skin : SkinInfo) (b : BoxUv) :
    (AnyNonTransparent skin b.top || AnyNonTransparent skin b.bottom ||
      AnyNonTransparent skin b.left || AnyNonTransparent skin b.right ||
      AnyNonTransparent skin b.front || AnyNonTransparent skin b.back) = probe skin b := by
  simp [probe, BoxUv.faces, Bool.or_assoc]

theorem BuildPlayerMesh_eq_foldl (skin : SkinInfo) (slimArms : Bool)
    (hw : skin.width ≠ 0) (hh : skin.height ≠ 0) :
    BuildPlayerMesh skin slimArms =
      OverlayPart.all.foldl
        (fun m p =>
          if present skin slimArms p then
            m.addOverlay (overlayBox skin slimArms p).center (overlayBox skin slimArms p).size
              (overlayBox skin slimArms p).uv skin.width skin.height
          else m)
        (baseMesh skin slimArms) := by
  unfold BuildPlayerMesh
  simp only [hw, hh, or_self, if_false, probe_eq]
  simp only [present, baseMesh, OverlayPart.all, BasePart.all, eligible,
    overlayUv, baseBox, overlayBox, baseUv, partCenter, partSize,
    OverlayPart.under, armW, List.map, List.foldl, Bool.true_and]
  rcases Bool.eq_false_or_eq_true (has64 skin) with hs | hs <;> cases slimArms <;>
    simp only [hs, Bool.false_and, Bool.true_and, Bool.and_true, Bool.and_false, if_true, if_false,
      Bool.false_eq_true, show ¬ ((4 : ℚ) = 3) by norm_num]

theorem foldl_filter_ite {α β : Type} (l : List α) (c : α → Bool) (f : β → α → β) (b : β) :
    l.foldl (fun m p => if c p then f m p else m) b = (l.filter c).foldl f b := by
  induction l generalizing b with
  | nil => rfl
  | cons a l ih =>
    simp only [List.foldl_cons, List.filter_cons]
    split_ifs <;> simp [ih]

theorem BuildPlayerMesh_eq (skin : SkinInfo) (slimArms : Bool)
    (hw : skin.width ≠ 0) (hh : skin.height ≠ 0) :
    BuildPlayerMesh skin slimArms = meshOf skin slimArms (probedParts skin slimArms) := by
  rw [BuildPlayerMesh_eq_foldl skin slimArms hw hh, foldl_filter_ite, meshOf, List.foldl_map]
  rfl

theorem toUInt32_natCast {n : Nat} (h : n < 4294967296) : toUInt32 (n : Int) = n := by
  unfold toUInt32; omega

theorem AddBox_fst (v : List Vertex) (i : List Nat) (c sz : XMFLOAT3) (uv : BoxUv)
    (tw th : Nat) : (AddBox v i c sz uv tw th).1 = v ++ boxVertices c sz uv tw th := by
  simp [AddBox, AddFace, boxVertices]

theorem length_boxVertices (c sz : XMFLOAT3) (uv : BoxUv) (tw th : Nat) :
    (boxVertices c sz uv tw th).length = 24 := by
  simp [AddBox, AddFace, boxVertices]

theorem AddBox_snd_exists (v : List Vertex) (i : List Nat) (c sz : XMFLOAT3) (uv : BoxUv)
    (tw th : Nat) : ∃ js : List Nat, js.length = 36 ∧ (AddBox v i c sz uv tw th).2 = i ++ js := by
  refine ⟨((AddBox v i c sz uv tw th).2).drop i.length, ?_, ?_⟩ <;>
  simp [AddBox, AddFace]

theorem AddBox_snd (v : List Vertex) (i : List Nat) (c sz : XMFLOAT3) (uv : BoxUv)
    (tw th : Nat) (h : v.length + 24 ≤ 4294967296) :
    (AddBox v i c sz uv tw th).2 = i ++ boxIndices v.length := by
  simp only [AddBox, AddFace, boxIndices, faceIndices, List.length_append, List.length_cons, List.length_nil,
    List.append_assoc, List.cons_append, List.nil_append, List.append_cancel_left_eq]
  simp only [toUInt32, List.cons.injEq, and_true]
  repeat' constructor
  all_goals omega


theorem length_boxIndices (n : Nat) : (boxIndices n).length = 36 := by
  simp [boxIndices, faceIndices]

theorem mem_boxIndices {n k : Nat} (h : k ∈ boxIndices n) : n ≤ k ∧ k < n + 24 := by
  simp only [boxIndices, faceIndices, List.mem_append, List.mem_cons, List.mem_singleton,
    List.not_mem_nil, or_false] at h
  omega

theorem addBase_vertices (m : BuiltMesh) (c sz : XMFLOAT3) (uv : BoxUv) (tw th : Nat) :
    (m.addBase c sz uv tw th).vertices = m.vertices ++ boxVertices c sz uv tw th := by
  simp [BuiltMesh.addBase, AddBox_fst]

theorem addOverlay_vertices (m : BuiltMesh) (c sz : XMFLOAT3) (uv : BoxUv) (tw th : Nat) :
    (m.addOverlay c sz uv tw th).vertices = m.vertices ++ boxVertices c sz uv tw th := by
  simp [BuiltMesh.addOverlay, AddBox_fst]

theorem addOverlay_indicesBase (m : BuiltMesh) (c sz : XMFLOAT3) (uv : BoxUv) (tw th : Nat) :
    (m.addOverlay c sz uv tw th).indicesBase = m.indicesBase := by
  simp [BuiltMesh.addOverlay]

theorem addOverlay_indicesOverlay (m : BuiltMesh) (c sz : XMFLOAT3) (uv : BoxUv) (tw th : Nat)
    (h : m.vertices.length + 24 ≤ 4294967296) :
    (m.addOverlay c sz uv tw th).indicesOverlay =
      m.indicesOverlay ++ boxIndices m.vertices.length := by
  simp [BuiltMesh.addOverlay, AddBox_snd _ _ _ _ _ _ _ h]

theorem length_blockIndices (n k : Nat) : (blockIndices n k).length = 36 * k := by
  induction k generalizing n with
  | zero => rfl
  | succ k ih => simp [blockIndices, ih, length_boxIndices]; ring

theorem mem_blockIndices {n k j : Nat} (h : j ∈ blockIndices n k) : n ≤ j ∧ j < n + 24 * k := by
  induction k generalizing n with
  | zero => simp [blockIndices] at h
  | succ k ih =>
    simp only [blockIndices, List.mem_append] at h
    rcases h with h | h
    · have := mem_boxIndices h; omega
    · have := ih h; omega

theorem foldl_addOverlay (tw th : Nat) (bs : List Box) (m : BuiltMesh)
    (hb : m.vertices.length + 24 * bs.length ≤ 4294967296) :
    (bs.foldl (fun m b => m.addOverlay b.center b.size b.uv tw th) m).vertices =
        m.vertices ++ bs.flatMap (fun b => boxVertices b.center b.size b.uv tw th) ∧
      (bs.foldl (fun m b => m.addOverlay b.center b.size b.uv tw th) m).indicesBase =
        m.indicesBase ∧
      (bs.foldl (fun m b => m.addOverlay b.center b.size b.uv tw th) m).indicesOverlay =
        m.indicesOverlay ++ blockIndices m.vertices.length bs.length := by
  induction bs generalizing m with
  | nil => simp [blockIndices]
  | cons b bs ih =>
    simp only [List.length_cons] at hb
    have h1 := addOverlay_vertices m b.center b.size b.uv tw th
    have h2 := addOverlay_indicesBase m b.center b.size b.uv tw th
    have h3 := addOverlay_indicesOverlay m b.center b.size b.uv tw th (by omega)
    have hl : (m.addOverlay b.center b.size b.uv tw th).vertices.length = m.vertices.length + 24 := by
      rw [h1, List.length_append, length_boxVertices]
    obtain ⟨i1, i2, i3⟩ := ih (m.addOverlay b.center b.size b.uv tw th) (by rw [hl]; omega)
    simp only [List.foldl_cons, List.flatMap_cons, List.length_cons, blockIndices]
    rw [i1, i2, i3, hl, h1, h2, h3]
    simp

theorem baseMesh_vertices (skin : SkinInfo) (slimArms : Bool) :
    (baseMesh skin slimArms).vertices =
      BasePart.all.flatMap fun p =>
        boxVertices (baseBox skin slimArms p).center (baseBox skin slimArms p).size
          (baseBox skin slimArms p).uv skin.width skin.height := by
  simp [baseMesh, BasePart.all, addBase_vertices]

theorem baseMesh_length (skin : SkinInfo) (slimArms : Bool) :
    (baseMesh skin slimArms).vertices.length = 144 := by
  simp [baseMesh_vertices, BasePart.all, length_boxVertices]

theorem baseMesh_indicesBase (skin : SkinInfo) (slimArms : Bool) :
    (baseMesh skin slimArms).indicesBase = blockIndices 0 6 := by
  simp [baseMesh, BasePart.all, BuiltMesh.addBase, AddBox_fst, AddBox_snd, length_boxVertices,
    blockIndices]

theorem baseMesh_indicesOverlay (skin : SkinInfo) (slimArms : Bool) :
    (baseMesh skin slimArms).indicesOverlay = [] := by
  simp [baseMesh, BasePart.all, BuiltMesh.addBase]

theorem length_probedParts_le (skin : SkinInfo) (slimArms : Bool) :
    (probedParts skin slimArms).length ≤ 6 :=
  List.length_filter_le _ _

theorem meshOf_spec (skin : SkinInfo) (slimArms : Bool) (parts : List OverlayPart)
    (hp : parts.length ≤ 6) :
    (meshOf skin slimArms parts).vertices =
        (baseMesh skin slimArms).vertices ++
          parts.flatMap (fun p =>
            boxVertices (overlayBox skin slimArms p).center (overlayBox skin slimArms p).size
              (overlayBox skin slimArms p).uv skin.width skin.height) ∧
      (meshOf skin slimArms parts).indicesBase = blockIndices 0 6 ∧
      (meshOf skin slimArms parts).indicesOverlay = blockIndices 144 parts.length := by
  have h := foldl_addOverlay skin.width skin.height (parts.map (overlayBox skin slimArms))
    (baseMesh skin slimArms) (by rw [baseMesh_length, List.length_map]; omega)
  rw [baseMesh_length, baseMesh_indicesBase, baseMesh_indicesOverlay, List.length_map,
    List.nil_append, List.flatMap_map] at h
  exact h

theorem length_flatMap_boxVertices {α : Type} (l : List α) (f : α → Box) (tw th : Nat) :
    (l.flatMap fun p => boxVertices (f p).center (f p).size (f p).uv tw th).length =
      24 * l.length := by
  induction l with
  | nil => rfl
  | cons a l ih => simp [ih, length_boxVertices]; ring

theorem meshOf_length (skin : SkinInfo) (slimArms : Bool) (parts : List OverlayPart)
    (hp : parts.length ≤ 6) :
    (meshOf skin slimArms parts).vertices.length = 144 + 24 * parts.length := by
  rw [(meshOf_spec skin slimArms parts hp).1, List.length_append, baseMesh_length,
    length_flatMap_boxVertices]

theorem AddFace_append (v : List Vertex) (i : List Nat) (p0 p1 p2 p3 n : XMFLOAT3)
    (r : UvRectPx) (tw th : Nat) :
    ∃ vs js, AddFace v i p0 p1 p2 p3 n r tw th = (v ++ vs, i ++ js) ∧
      vs.length = 4 ∧ js.length = 6 := by
  refine ⟨((AddFace v i p0 p1 p2 p3 n r tw th).1).drop v.length,
    ((AddFace v i p0 p1 p2 p3 n r tw th).2).drop i.length, ?_, ?_, ?_⟩ <;>
  simp [AddFace]

theorem AddBox_append (v : List Vertex) (i : List Nat) (c sz : XMFLOAT3) (uv : BoxUv)
    (tw th : Nat) :
    ∃ vs js, AddBox v i c sz uv tw th = (v ++ vs, i ++ js) ∧
      vs.length = 24 ∧ js.length = 36 := by
  obtain ⟨js, hj, he⟩ := AddBox_snd_exists v i c sz uv tw th
  exact ⟨boxVertices c sz uv tw th, js, Prod.ext (AddBox_fst v i c sz uv tw th) he,
    length_boxVertices c sz uv tw th, hj⟩

/-- Texture coordinates of a box do not depend on where the box is placed. -/
theorem boxVertices_uv (c sz c' sz' : XMFLOAT3) (uv : BoxUv) (tw th : Nat) :
    (boxVertices c sz uv tw th).map (fun v => v.uv) =
      (boxVertices c' sz' uv tw th).map (fun v => v.uv) := by
  simp [boxVertices, AddBox, AddFace]

theorem drop_take_block {α : Type} (a b c : List α) (n k : Nat) (ha : a.length = n)
    (hb : b.length = k) : ((a ++ b ++ c).drop n).take k = b := by
  subst ha hb
  simp

theorem has64_legacy (skin : SkinInfo) (h : skin.legacy64x32 = true) : has64 skin = false := by
  simp [has64, h]

/-- The 24 vertices of the `i`-th base box (0 = head, ..., 5 = left leg). -/
theorem baseBlock (skin : SkinInfo) (slimArms : Bool) (hw : skin.width ≠ 0)
    (hh : skin.height ≠ 0) (i : Nat) (p : BasePart) (hi : BasePart.all.get? i = some p) :
    ((BuildPlayerMesh skin slimArms).vertices.drop (24 * i)).take 24 =
      boxVertices (baseBox skin slimArms p).center (baseBox skin slimArms p).size
        (baseBox skin slimArms p).uv skin.width skin.height := by
  have hp := length_probedParts_le skin slimArms
  rw [BuildPlayerMesh_eq skin slimArms hw hh, (meshOf_spec skin slimArms _ hp).1,
    baseMesh_vertices]
  have hi6 : i < 6 := by
    have := List.get?_eq_some.1 hi
    obtain ⟨h, -⟩ := this
    simpa [BasePart.all] using h
  interval_cases i <;> simp only [BasePart.all, List.get?_cons_zero, List.get?_cons_succ,
      Option.some.injEq] at hi <;> subst hi <;>
    simp only [BasePart.all, List.flatMap_cons, List.flatMap_nil, List.append_nil]
  all_goals
    simp [List.drop_append_eq_append_drop, List.take_append_eq_append_take, length_boxVertices,
      List.drop_eq_nil_of_le, List.take_of_length_le]

/-! ## Sanitization -/

theorem length_foldl_set (is : List Nat) (b : List Nat) :
    (is.foldl (fun b i => b.set i 255) b).length = b.length := by
  induction is generalizing b with
  | nil => rfl
  | cons i is ih => simp [ih]

theorem getD_foldl_set (is : List Nat) (b : List Nat) (j : Nat) :
    (is.foldl (fun b i => b.set i 255) b).getD j 0 =
      if j ∈ is ∧ j < b.length then 255 else b.getD j 0 := by
  induction is generalizing b with
  | nil => simp
  | cons i is ih =>
    simp only [List.foldl_cons, ih, List.length_set, List.mem_cons]
    by_cases hj : j ∈ is ∧ j < b.length
    · rw [if_pos hj, if_pos ⟨Or.inr hj.1, hj.2⟩]
    · rw [if_neg hj]
      by_cases hji : j = i
      · subst hji
        by_cases hl : j < b.length
        · rw [if_pos ⟨Or.inl rfl, hl⟩]
          simp [List.getD_eq_getElem?_getD, List.getElem?_set, hl]
        · rw [if_neg (fun h => hl h.2)]
          have hl' : b.length ≤ j := Nat.le_of_not_lt hl
          simp [List.getD_eq_getElem?_getD, List.getElem?_set, hl, List.getElem?_eq_none hl']
      · have : ¬ ((j = i ∨ j ∈ is) ∧ j < b.length) := by
          rintro ⟨h | h, hl⟩
          · exact hji h
          · exact hj ⟨h, hl⟩
        rw [if_neg this]
        simp [List.getD_eq_getElem?_getD, List.getElem?_set, Ne.symm hji]

theorem foldlM_writeAlpha (is : List Nat) (b : List Nat) (h : ∀ i ∈ is, i < b.length) :
    is.foldlM writeAlpha b = some (is.foldl (fun b i => b.set i 255) b) := by
  induction is generalizing b with
  | nil => rfl
  | cons i is ih =>
    have hi : i < b.length := h i (List.mem_cons_self _ _)
    simp only [List.foldlM_cons, List.foldl_cons, writeAlpha, if_pos hi]
    exact ih (b.set i 255) (fun k hk => by
      rw [List.length_set]; exact h k (List.mem_cons_of_mem _ hk))

theorem foldlM_nested {α β : Type} (ys : List α) (xs : List β) (g : β → α → Nat)
    (b : List Nat) :
    ys.foldlM (fun rgba yy => xs.foldlM (fun rgba xx => writeAlpha rgba (g xx yy)) rgba) b =
      (ys.flatMap fun yy => xs.map fun xx => g xx yy).foldlM writeAlpha b := by
  induction ys generalizing b with
  | nil => rfl
  | cons y ys ih =>
    simp only [List.foldlM_cons, List.flatMap_cons, List.foldlM_append, List.foldlM_map]
    congr 1
    funext b'
    exact ih b'

theorem pixel_inj {w x y x' y' : Nat} (hx : x < w) (hx' : x' < w)
    (h : y * w + x = y' * w + x') : y = y' ∧ x = x' := by
  have h1 : (y * w + x) % w = x := by
    rw [Nat.add_comm, Nat.add_mul_mod_self_right, Nat.mod_eq_of_lt hx]
  have h2 : (y' * w + x') % w = x' := by
    rw [Nat.add_comm, Nat.add_mul_mod_self_right, Nat.mod_eq_of_lt hx']
  have hxx : x = x' := by rw [← h1, ← h2, h]
  subst hxx
  have hw : 0 < w := by omega
  have : y * w = y' * w := by omega
  exact ⟨Nat.eq_of_mul_eq_mul_right hw this, rfl⟩

/-- Effect of `ForceRectOpaque` on a representable image: it succeeds, changes
only `rgba`, keeps its length, and sets to 255 exactly the alpha bytes of the
in-bounds pixels of the rectangle. -/
theorem ForceRectOpaque_spec (s : SkinInfo) (x y w h : Int) (hs : s.Fits) :
    ∃ rgba, ForceRectOpaque s x y w h = some (s.withRgba rgba) ∧
      rgba.length = s.rgba.length ∧
      ∀ px py c, px < s.width → py < s.height → c < 4 →
        byteAt (s.withRgba rgba) px py c =
          if c = 3 ∧ x ≤ (px : Int) ∧ (px : Int) < toInt32 (x + w) ∧
              y ≤ (py : Int) ∧ (py : Int) < toInt32 (y + h) then 255
          else byteAt s px py c := by
  obtain ⟨hsz, hw, hh, hp⟩ := hs
  have ew : toInt32 (s.width : Int) = s.width := toInt32_of_range (by omega) (by omega)
  have eh : toInt32 (s.height : Int) = s.height := toInt32_of_range (by omega) (by omega)
  unfold ForceRectOpaque
  rw [ew, eh]
  simp only []
  split_ifs with hc
  · refine ⟨s.rgba, rfl, rfl, ?_⟩
    intro px py c hpx hpy hc4
    rw [if_neg (by rintro ⟨-, h1, h2, h3, h4⟩; omega)]
    rfl
  · have hall : ∀ i ∈ ((intRange (max 0 y) (min (s.height : Int) (toInt32 (y + h)))).flatMap fun yy =>
        (intRange (max 0 x) (min (s.width : Int) (toInt32 (x + w)))).map fun xx =>
          pixelIndex s.width xx yy + 3), i < s.rgba.length := by
      intro i hi
      simp only [List.mem_flatMap, List.mem_map, mem_intRange] at hi
      obtain ⟨yy, ⟨hy0, hy1⟩, xx, ⟨hx0, hx1⟩, rfl⟩ := hi
      lift xx to ℕ using (by omega)
      lift yy to ℕ using (by omega)
      have hx : xx < s.width := by omega
      have hy : yy < s.height := by omega
      rw [pixelIndex_eq hx hy hp]
      have := pixel_lt hx hy
      omega
    rw [foldlM_nested, foldlM_writeAlpha _ _ hall]
    refine ⟨_, rfl, length_foldl_set _ _, ?_⟩
    intro px py c hpx hpy hc4
    simp only [byteAt, SkinInfo.withRgba, getD_foldl_set]
    have hlt : (py * s.width + px) * 4 + c < s.rgba.length := by
      have := pixel_lt hpx hpy
      omega
    by_cases hin : c = 3 ∧ x ≤ (px : Int) ∧ (px : Int) < toInt32 (x + w) ∧
        y ≤ (py : Int) ∧ (py : Int) < toInt32 (y + h)
    · obtain ⟨rfl, h1, h2, h3, h4⟩ := hin
      rw [if_pos, if_pos ⟨rfl, h1, h2, h3, h4⟩]
      refine ⟨?_, hlt⟩
      simp only [List.mem_flatMap, List.mem_map, mem_intRange]
      refine ⟨py, ⟨by omega, by omega⟩, px, ⟨by omega, by omega⟩, ?_⟩
      rw [pixelIndex_eq hpx hpy hp]
    · rw [if_neg hin, if_neg]
      rintro ⟨hmem, -⟩
      apply hin
      simp only [List.mem_flatMap, List.mem_map, mem_intRange] at hmem
      obtain ⟨yy, ⟨hy0, hy1⟩, xx, ⟨hx0, hx1⟩, he⟩ := hmem
      lift xx to ℕ using (by omega)
      lift yy to ℕ using (by omega)
      have hx : xx < s.width := by omega
      have hy : yy < s.height := by omega
      rw [pixelIndex_eq hx hy hp] at he
      have hc3 : c = 3 := by omega
      subst hc3
      have := pixel_inj hx hpx (by omega : yy * s.width + xx = py * s.width + px)
      obtain ⟨rfl, rfl⟩ := this
      exact ⟨rfl, by omega, by omega, by omega, by omega⟩

@[simp] theorem withRgba_withRgba (s : SkinInfo) (a b : List Nat) :
    (s.withRgba a).withRgba b = s.withRgba b := rfl

@[simp] theorem withRgba_width (s : SkinInfo) (a : List Nat) : (s.withRgba a).width = s.width := rfl
@[simp] theorem withRgba_height (s : SkinInfo) (a : List Nat) : (s.withRgba a).height = s.height := rfl
@[simp] theorem withRgba_scale (s : SkinInfo) (a : List Nat) : (s.withRgba a).scale = s.scale := rfl
@[simp] theorem withRgba_legacy (s : SkinInfo) (a : List Nat) :
    (s.withRgba a).legacy64x32 = s.legacy64x32 := rfl
@[simp] theorem withRgba_hasAlpha (s : SkinInfo) (a : List Nat) :
    (s.withRgba a).hasAlpha = s.hasAlpha := rfl
@[simp] theorem withRgba_rgba (s : SkinInfo) (a : List Nat) : (s.withRgba a).rgba = a := rfl

theorem Fits_withRgba {s : SkinInfo} (hs : s.Fits) {rgba : List Nat}
    (hl : rgba.length = s.rgba.length) : (s.withRgba rgba).Fits :=
  ⟨by simpa [hl] using hs.size, hs.width_lt, hs.height_lt, hs.pixels_le⟩

/-- `ForceRectOpaque` on a rectangle whose edges are representable. -/
theorem ForceRectOpaque_rect (s : SkinInfo) (r : UvRectPx) (hs : s.Fits) (hr : r.Fits) :
    ∃ rgba, ForceRectOpaque s r.x r.y r.w r.h = some (s.withRgba rgba) ∧
      rgba.length = s.rgba.length ∧
      ∀ px py c, px < s.width → py < s.height → c < 4 →
        byteAt (s.withRgba rgba) px py c =
          if c = 3 ∧ r.contains px py then 255 else byteAt s px py c := by
  obtain ⟨rgba, h1, h2, h3⟩ := ForceRectOpaque_spec s r.x r.y r.w r.h hs
  refine ⟨rgba, h1, h2, ?_⟩
  intro px py c hpx hpy hc
  rw [h3 px py c hpx hpy hc, toInt32_of_range hr.1 hr.2.1, toInt32_of_range hr.2.2.1 hr.2.2.2]
  rfl

theorem scaled_const {k : Nat} (hk : 64 * k < 2147483648) (c : Int) (h0 : 0 ≤ c)
    (h1 : c ≤ 64) : toInt32 (c * toInt32 (k : Int)) = c * (k : Int) := by
  have e : toInt32 (k : Int) = k := toInt32_of_range (by omega) (by omega)
  rw [e]
  have : c * (k : Int) ≤ 64 * (k : Int) := Int.mul_le_mul_of_nonneg_right h1 (by omega)
  have : 0 ≤ c * (k : Int) := Int.mul_nonneg h0 (by omega)
  exact toInt32_of_range (by omega) (by omega)

theorem scaled_Fits {k : Nat} (hk : 64 * k < 2147483648) (a b c d : Int)
    (hac0 : 0 ≤ a + c) (hbd0 : 0 ≤ b + d) (hac : a + c ≤ 64) (hbd : b + d ≤ 64) :
    (⟨a * k, b * k, c * k, d * k⟩ : UvRectPx).Fits := by
  have hk0 : (0 : Int) ≤ k := by omega
  have h1 : (a + c) * (k : Int) ≤ 64 * (k : Int) := Int.mul_le_mul_of_nonneg_right hac hk0
  have h2 : (b + d) * (k : Int) ≤ 64 * (k : Int) := Int.mul_le_mul_of_nonneg_right hbd hk0
  have h3 : 0 ≤ (a + c) * (k : Int) := Int.mul_nonneg hac0 hk0
  have h4 : 0 ≤ (b + d) * (k : Int) := Int.mul_nonneg hbd0 hk0
  simp only [UvRectPx.Fits]
  rw [← Int.add_mul, ← Int.add_mul]
  omega

/-- One step of the sanitization chain. -/
theorem force_step (s : SkinInfo) (hs : s.Fits) (hk : 64 * s.scale < 2147483648)
    (prev : List Nat) (hprev : prev.length = s.rgba.length) (a b c d : Int)
    (hac0 : 0 ≤ a + c) (hbd0 : 0 ≤ b + d) (hac : a + c ≤ 64) (hbd : b + d ≤ 64) :
    ∃ rgba, ForceRectOpaque (s.withRgba prev) (a * s.scale) (b * s.scale) (c * s.scale)
        (d * s.scale) = some (s.withRgba rgba) ∧
      rgba.length = s.rgba.length ∧
      ∀ px py e, px < s.width → py < s.height → e < 4 →
        byteAt (s.withRgba rgba) px py e =
          if e = 3 ∧ (⟨a * s.scale, b * s.scale, c * s.scale, d * s.scale⟩ : UvRectPx).contains
              px py then 255
          else byteAt (s.withRgba prev) px py e := by
  obtain ⟨rgba, h1, h2, h3⟩ := ForceRectOpaque_rect (s.withRgba prev)
    ⟨a * s.scale, b * s.scale, c * s.scale, d * s.scale⟩ (Fits_withRgba hs hprev)
    (scaled_Fits hk a b c d hac0 hbd0 hac hbd)
  exact ⟨rgba, h1, by rw [h2]; exact hprev, h3⟩

theorem withRgba_self (s : SkinInfo) : s.withRgba s.rgba = s := rfl

theorem mem_baseRegions (k : Int) (px py : Nat) :
    (∃ r ∈ baseRegions k, r.contains px py) ↔
      ((⟨0 * k, 0 * k, 32 * k, 16 * k⟩ : UvRectPx).contains px py ∨
       (⟨16 * k, 16 * k, 24 * k, 16 * k⟩ : UvRectPx).contains px py ∨
       (⟨40 * k, 16 * k, 16 * k, 16 * k⟩ : UvRectPx).contains px py ∨
       (⟨0 * k, 16 * k, 16 * k, 16 * k⟩ : UvRectPx).contains px py) := by
  simp [baseRegions]

theorem mem_secondaryRegions (k : Int) (px py : Nat) :
    (∃ r ∈ secondaryRegions k, r.contains px py) ↔
      ((⟨32 * k, 48 * k, 16 * k, 16 * k⟩ : UvRectPx).contains px py ∨
       (⟨16 * k, 48 * k, 16 * k, 16 * k⟩ : UvRectPx).contains px py) := by
  simp [secondaryRegions]

theorem chain4 (c : Nat) (p1 p2 p3 p4 : Prop) [Decidable p1] [Decidable p2] [Decidable p3]
    [Decidable p4] (v : Nat) :
    (if c = 3 ∧ p4 then 255 else if c = 3 ∧ p3 then 255 else if c = 3 ∧ p2 then 255
      else if c = 3 ∧ p1 then 255 else v) =
      if c = 3 ∧ (p1 ∨ p2 ∨ p3 ∨ p4) then 255 else v := by
  split_ifs <;> first | rfl | (exfalso; tauto)

theorem chain6 (c : Nat) (p1 p2 p3 p4 p5 p6 : Prop) [Decidable p1] [Decidable p2]
    [Decidable p3] [Decidable p4] [Decidable p5] [Decidable p6] (v : Nat) :
    (if c = 3 ∧ p6 then 255 else if c = 3 ∧ p5 then 255 else if c = 3 ∧ p4 then 255
      else if c = 3 ∧ p3 then 255 else if c = 3 ∧ p2 then 255
      else if c = 3 ∧ p1 then 255 else v) =
      if c = 3 ∧ ((p1 ∨ p2 ∨ p3 ∨ p4) ∨ (p5 ∨ p6)) then 255 else v := by
  split_ifs <;> first | rfl | (exfalso; tauto)

/-- Effect of `SanitizeMinecraftBaseAlpha`: it succeeds, changes only `rgba`,
keeps the length, and sets to 255 exactly the alpha bytes of the in-bounds
pixels of the four base regions and, under `has64`, of the two secondary ones. -/
theorem Sanitize_spec (s : SkinInfo) (hs : s.Fits) (hk : 64 * s.scale < 2147483648) :
    ∃ rgba, SanitizeMinecraftBaseAlpha s = some (s.withRgba rgba) ∧
      rgba.length = s.rgba.length ∧
      ∀ px py c, px < s.width → py < s.height → c < 4 →
        byteAt (s.withRgba rgba) px py c =
          if c = 3 ∧ ((∃ r ∈ baseRegions s.scale, r.contains px py) ∨
              (has64 s = true ∧ ∃ r ∈ secondaryRegions s.scale, r.contains px py)) then 255
          else byteAt s px py c := by
  obtain ⟨r1, e1, l1, b1⟩ := force_step s hs hk s.rgba rfl 0 0 32 16
    (by omega) (by omega) (by omega) (by omega)
  obtain ⟨r2, e2, l2, b2⟩ := force_step s hs hk r1 l1 16 16 24 16
    (by omega) (by omega) (by omega) (by omega)
  obtain ⟨r3, e3, l3, b3⟩ := force_step s hs hk r2 l2 40 16 16 16
    (by omega) (by omega) (by omega) (by omega)
  obtain ⟨r4, e4, l4, b4⟩ := force_step s hs hk r3 l3 0 16 16 16
    (by omega) (by omega) (by omega) (by omega)
  obtain ⟨r5, e5, l5, b5⟩ := force_step s hs hk r4 l4 32 48 16 16
    (by omega) (by omega) (by omega) (by omega)
  obtain ⟨r6, e6, l6, b6⟩ := force_step s hs hk r5 l5 16 48 16 16
    (by omega) (by omega) (by omega) (by omega)
  rw [withRgba_self] at e1 b1
  have hcond : (!s.legacy64x32 && decide (toUInt32 (toInt32 (64 * toInt32 (s.scale : Int))) ≤ s.height))
      = has64 s := by
    rw [scaled_const hk 64 (by omega) (by omega)]; rfl
  have hS : SanitizeMinecraftBaseAlpha s =
      if has64 s = true then some (s.withRgba r6) else some (s.withRgba r4) := by
    unfold SanitizeMinecraftBaseAlpha
    simp only []
    rw [scaled_const hk 0 (by omega) (by omega), scaled_const hk 16 (by omega) (by omega),
      scaled_const hk 24 (by omega) (by omega), scaled_const hk 32 (by omega) (by omega),
      scaled_const hk 40 (by omega) (by omega), scaled_const hk 48 (by omega) (by omega)]
    rw [e1, Option.some_bind, e2, Option.some_bind, e3, Option.some_bind, e4, Option.some_bind]
    rw [withRgba_legacy, withRgba_height, hcond]
    split_ifs
    · rw [e5, Option.some_bind, e6]
    · rfl
  rw [hS]
  rcases Bool.eq_false_or_eq_true (has64 s) with h64 | h64
  · rw [if_pos h64]
    refine ⟨r6, rfl, l6, ?_⟩
    intro px py c hpx hpy hc
    rw [b6 px py c hpx hpy hc, b5 px py c hpx hpy hc, b4 px py c hpx hpy hc,
      b3 px py c hpx hpy hc, b2 px py c hpx hpy hc, b1 px py c hpx hpy hc]
    simp only [mem_baseRegions, mem_secondaryRegions]
    simp only [h64, true_and]
    exact chain6 c _ _ _ _ _ _ _
  · have h64' : ¬ has64 s = true := by simp [h64]
    rw [if_neg h64']
    refine ⟨r4, rfl, l4, ?_⟩
    intro px py c hpx hpy hc
    rw [b4 px py c hpx hpy hc,
      b3 px py c hpx hpy hc, b2 px py c hpx hpy hc, b1 px py c hpx hpy hc]
    simp only [mem_baseRegions]
    simp only [h64, Bool.false_eq_true, false_and, or_false]
    exact chain4 c _ _ _ _ _

theorem blankSkin_Fits_64 : (blankSkin 64 64).Fits :=
  ⟨List.length_replicate _ _, by decide, by decide, by decide⟩

theorem getD_replicate_zero (n i : Nat) : (List.replicate n 0).getD i 0 = 0 := by
  rw [List.getD_eq_getElem?_getD, List.getElem?_replicate]
  split <;> rfl

/-- Scaling an atlas rectangle multiplies its fields by the scale. -/
theorem ScaleRect_eq {k : Nat} (hk : 64 * k < 2147483648) (a b c d : Int)
    (ha : 0 ≤ a ∧ a ≤ 64) (hb : 0 ≤ b ∧ b ≤ 64) (hc : 0 ≤ c ∧ c ≤ 64) (hd : 0 ≤ d ∧ d ≤ 64) :
    ScaleRect ⟨a, b, c, d⟩ k = ⟨a * k, b * k, c * k, d * k⟩ := by
  simp only [ScaleRect]
  rw [scaled_const hk a ha.1 ha.2, scaled_const hk b hb.1 hb.2, scaled_const hk c hc.1 hc.2,
    scaled_const hk d hd.1 hd.2]

/-- A pixel of a scaled overlay rectangle lies in no sanitized region. -/
theorem overlay_disjoint {k : Nat} (hk : 64 * k < 2147483648) (b : BoxUv)
    (hb : b ∈ overlayAtlas) (r : UvRectPx) (hr : r ∈ (ScaleBoxUv b k).faces) (x y : Nat)
    (hc : r.contains x y) :
    ¬ (∃ q ∈ baseRegions k, q.contains x y) ∧ ¬ (∃ q ∈ secondaryRegions k, q.contains x y) := by
  rw [mem_baseRegions, mem_secondaryRegions]
  simp only [overlayAtlas, List.mem_cons, List.mem_singleton, List.not_mem_nil, or_false] at hb
  rcases hb with rfl | rfl | rfl | rfl | rfl | rfl | rfl | rfl <;>
    simp only [BoxUv.faces, ScaleBoxUv, UV_Hat, UV_Jacket, UV_RightSleeve, UV_RightSleeveSlim,
      UV_LeftSleeve, UV_LeftSleeveSlim, UV_RightLegPants, UV_LeftLegPants,
      List.mem_cons, List.mem_singleton, List.not_mem_nil, or_false] at hr <;>
    rcases hr with rfl | rfl | rfl | rfl | rfl | rfl <;>
    (rw [ScaleRect_eq hk _ _ _ _ (by omega) (by omega) (by omega) (by omega)] at hc
     simp only [UvRectPx.contains] at hc ⊢
     omega)

theorem classified_scale {s : SkinInfo} (hs : s.Fits) (hc : Classified s) :
    64 * s.scale < 2147483648 := by
  have hw := hs.width_lt
  rw [hc.2]
  simp only [classify]
  split_ifs <;> omega

/-- Every pixel of a scaled base face rectangle lies in a sanitized region. -/
theorem base_in_regions (s : SkinInfo) (slimArms : Bool) (hk : 64 * s.scale < 2147483648)
    (p : BasePart) (r : UvRectPx) (hr : r ∈ (baseUv s slimArms p).faces) (x y : Nat)
    (hc : r.contains x y) :
    (∃ q ∈ baseRegions s.scale, q.contains x y) ∨
      (has64 s = true ∧ ∃ q ∈ secondaryRegions s.scale, q.contains x y) := by
  rw [mem_baseRegions, mem_secondaryRegions]
  rcases Bool.eq_false_or_eq_true (has64 s) with h64 | h64 <;> cases slimArms <;> cases p <;>
    simp only [baseUv, armW, h64, Bool.false_and, Bool.true_and, Bool.and_true, Bool.and_false,
      if_true, if_false, Bool.false_eq_true, show ¬ ((4 : ℚ) = 3) by norm_num,
      BoxUv.faces, ScaleBoxUv, UV_Head, UV_Torso, UV_RightArm, UV_RightArmSlim, UV_RightLeg,
      UV_LeftArm, UV_LeftArmSlim, UV_LeftLeg,
      List.mem_cons, List.mem_singleton, List.not_mem_nil, or_false] at hr <;>
    rcases hr with rfl | rfl | rfl | rfl | rfl | rfl <;>
    (rw [ScaleRect_eq hk _ _ _ _ (by omega) (by omega) (by omega) (by omega)] at hc
     simp only [UvRectPx.contains, h64, true_and, Bool.false_eq_true, false_and, or_false] at hc ⊢
     omega)

theorem ForceRectOpaque_fields {s s' : SkinInfo} {x y w h : Int}
    (he : ForceRectOpaque s x y w h = some s') : s' = s.withRgba s'.rgba := by
  unfold ForceRectOpaque at he
  simp only [] at he
  split_ifs at he
  · cases he; rfl
  · simp only [Option.map_eq_some'] at he
    obtain ⟨rgba, -, rfl⟩ := he
    rfl

theorem Sanitize_fields {s s' : SkinInfo} (he : SanitizeMinecraftBaseAlpha s = some s') :
    s' = s.withRgba s'.rgba := by
  unfold SanitizeMinecraftBaseAlpha at he
  simp only [Option.bind_eq_some] at he
  obtain ⟨s1, e1, s2, e2, s3, e3, s4, e4, he⟩ := he
  have f1 := ForceRectOpaque_fields e1
  have f2 := ForceRectOpaque_fields e2
  have f3 := ForceRectOpaque_fields e3
  have f4 := ForceRectOpaque_fields e4
  have f14 : s4 = s.withRgba s4.rgba := by
    rw [f4, f3, f2, f1]; rfl
  split_ifs at he
  · simp only [Option.bind_eq_some] at he
    obtain ⟨s5, e5, e6⟩ := he
    have f5 := ForceRectOpaque_fields e5
    have f6 := ForceRectOpaque_fields e6
    rw [f6, f5, f14]; rfl
  · cases he; exact f14

theorem LoadSkin_fields {w h : Nat} {pixels : List Nat} {s : SkinInfo}
    (he : LoadSkin w h pixels = some s) :
    s.width = w ∧ s.height = h ∧ s.legacy64x32 = (classify w h).1 ∧
      s.scale = (classify w h).2 := by
  unfold LoadSkin at he
  simp only [Option.map_eq_some'] at he
  obtain ⟨s1, e1, rfl⟩ := he
  have := Sanitize_fields e1
  rw [this]
  exact ⟨rfl, rfl, rfl, rfl⟩

theorem AnyNonTransparent_empty (s : SkinInfo) (r : UvRectPx)
    (h : s.rgba = [] ∨ s.width = 0 ∨ s.height = 0) : AnyNonTransparent s r = false := by
  unfold AnyNonTransparent
  rw [if_pos]
  rcases h with h | h | h <;> simp [h]

theorem overlayUv_mem (s : SkinInfo) (slimArms : Bool) (p : OverlayPart) :
    ∃ b ∈ overlayAtlas, overlayUv s slimArms p = ScaleBoxUv b s.scale := by
  cases p <;> simp only [overlayUv, overlayAtlas] <;> (try split_ifs) <;>
    exact ⟨_, by simp, rfl⟩

theorem overlay_rect_Fits {k : Nat} (hk : 64 * k < 2147483648) (b : BoxUv)
    (hb : b ∈ overlayAtlas) (r : UvRectPx) (hr : r ∈ (ScaleBoxUv b k).faces) : r.Fits := by
  simp only [overlayAtlas, List.mem_cons, List.mem_singleton, List.not_mem_nil, or_false] at hb
  rcases hb with rfl | rfl | rfl | rfl | rfl | rfl | rfl | rfl <;>
    simp only [BoxUv.faces, ScaleBoxUv, UV_Hat, UV_Jacket, UV_RightSleeve, UV_RightSleeveSlim,
      UV_LeftSleeve, UV_LeftSleeveSlim, UV_RightLegPants, UV_LeftLegPants,
      List.mem_cons, List.mem_singleton, List.not_mem_nil, or_false] at hr <;>
    rcases hr with rfl | rfl | rfl | rfl | rfl | rfl <;>
    (rw [ScaleRect_eq hk _ _ _ _ (by omega) (by omega) (by omega) (by omega)]
     exact scaled_Fits hk _ _ _ _ (by omega) (by omega) (by omega) (by omega))

/-- The presence test of the code agrees with visibility. -/
theorem probe_iff_visible (s : SkinInfo) (hs : s.Fits) (b : BoxUv)
    (hb : ∀ r ∈ b.faces, r.Fits) : probe s b = true ↔ visible s b := by
  simp only [probe, List.any_eq_true, visible]
  constructor
  · rintro ⟨r, hr, ha⟩
    obtain ⟨x, y, hx, hy, hc, hne⟩ := (AnyNonTransparent_iff_exists hs (hb r hr)).1 ha
    exact ⟨x, hx, y, hy, ⟨r, hr, hc⟩, hne⟩
  · rintro ⟨x, hx, y, hy, ⟨r, hr, hc⟩, hne⟩
    exact ⟨r, hr, (AnyNonTransparent_iff_exists hs (hb r hr)).2 ⟨x, y, hx, hy, hc, hne⟩⟩

theorem probedParts_eq_visibleParts (s : SkinInfo) (slimArms : Bool) (hs : s.Fits)
    (hk : 64 * s.scale < 2147483648) : probedParts s slimArms = visibleParts s slimArms := by
  unfold probedParts visibleParts
  apply List.filter_congr
  intro p _
  unfold present
  congr 1
  obtain ⟨b, hb, e⟩ := overlayUv_mem s slimArms p
  have := probe_iff_visible s hs (overlayUv s slimArms p)
    (by rw [e]; exact overlay_rect_Fits hk b hb)
  rw [Bool.eq_iff_iff, this, decide_eq_true_iff]

theorem alphaAt_onePixelSkin (w h x0 y0 a x y : Nat) (hx0 : x0 < w) (hy0 : y0 < h)
    (hx : x < w) :
    alphaAt (onePixelSkin w h x0 y0 a) x y = if x = x0 ∧ y = y0 then a else 0 := by
  have hlt := pixel_lt hx0 hy0
  simp only [alphaAt, byteAt, onePixelSkin, blankSkin, SkinInfo.withRgba,
    List.getD_eq_getElem?_getD, List.getElem?_set, List.length_replicate]
  by_cases hxy : x = x0 ∧ y = y0
  · obtain ⟨rfl, rfl⟩ := hxy
    simp only [if_true, and_self]
    rw [if_pos (by omega)]
    rfl
  · rw [if_neg hxy, if_neg]
    · rw [List.getElem?_replicate]
      split <;> rfl
    · intro he
      have := pixel_inj hx0 hx (by omega : y0 * w + x0 = y * w + x)
      exact hxy ⟨this.2.symm, this.1.symm⟩

theorem visible_onePixelSkin (w h x0 y0 a : Nat) (hx0 : x0 < w) (hy0 : y0 < h) (ha : a ≠ 0)
    (b : BoxUv) :
    visible (onePixelSkin w h x0 y0 a) b ↔ ∃ r ∈ b.faces, r.contains x0 y0 := by
  unfold visible
  constructor
  · rintro ⟨x, hx, y, hy, hr, hne⟩
    rw [alphaAt_onePixelSkin w h x0 y0 a x y hx0 hy0 hx] at hne
    by_cases hxy : x = x0 ∧ y = y0
    · obtain ⟨rfl, rfl⟩ := hxy
      exact hr
    · rw [if_neg hxy] at hne
      exact absurd rfl hne
  · intro hr
    refine ⟨x0, hx0, y0, hy0, hr, ?_⟩
    rw [alphaAt_onePixelSkin w h x0 y0 a x0 y0 hx0 hy0 hx0, if_pos ⟨rfl, rfl⟩]
    exact ha

theorem visibleParts_hat :
    visibleParts (onePixelSkin 64 64 41 3 9) false = [OverlayPart.hat] := by
  have hv : ∀ b, visible (onePixelSkin 64 64 41 3 9) b ↔ ∃ r ∈ b.faces, r.contains 41 3 :=
    fun b => visible_onePixelSkin 64 64 41 3 9 (by decide) (by decide) (by decide) b
  simp only [visibleParts, hv]
  decide

/-- Loading succeeds on a representable buffer; the result differs from the raw
skin in `rgba` (sanitized, same length) and `hasAlpha` only. -/
theorem LoadSkin_spec (w h : Nat) (pixels : List Nat) (hl : pixels.length = w * h * 4)
    (hw : w < 2147483648) (hh : h < 2147483648) (hp : w * h ≤ 4294967296) :
    ∃ s, LoadSkin w h pixels = some s ∧ s.width = w ∧ s.height = h ∧
      s.scale = (classify w h).2 ∧ s.legacy64x32 = (classify w h).1 ∧ s.Fits ∧
      64 * s.scale < 2147483648 ∧
      SanitizeMinecraftBaseAlpha (rawSkin w h pixels) =
        some ((rawSkin w h pixels).withRgba s.rgba) ∧
      s.hasAlpha = detectAlpha s.rgba := by
  have hs : (rawSkin w h pixels).Fits := ⟨hl, hw, hh, hp⟩
  have hc : Classified (rawSkin w h pixels) := ⟨rfl, rfl⟩
  have hk := classified_scale hs hc
  obtain ⟨rgba, h1, h2, -⟩ := Sanitize_spec _ hs hk
  have e : LoadSkin w h pixels =
      (SanitizeMinecraftBaseAlpha (rawSkin w h pixels)).map
        (fun out => { out with hasAlpha := detectAlpha out.rgba }) := rfl
  refine ⟨{ (rawSkin w h pixels).withRgba rgba with hasAlpha := detectAlpha rgba }, ?_,
    rfl, rfl, rfl, rfl, ?_, hk, ?_, rfl⟩
  · rw [e, h1]; rfl
  · exact ⟨by simpa [h2] using hl, hw, hh, hp⟩
  · rw [h1]; rfl

/-! ## Box geometry -/

theorem foldl_min_eq (l : List ℚ) (a i : ℚ) (hi : a ≤ i) (hl : ∀ x ∈ l, a ≤ x)
    (hm : i = a ∨ a ∈ l) : l.foldl min i = a := by
  induction l generalizing i with
  | nil =>
    rcases hm with h | h
    · exact h
    · cases h
  | cons x l ih =>
    simp only [List.foldl_cons]
    have hx : a ≤ x := hl x (List.mem_cons_self _ _)
    apply ih (min i x) (le_min hi hx) (fun y hy => hl y (List.mem_cons_of_mem _ hy))
    rcases hm with h | h
    · left; rw [h]; exact min_eq_left hx
    · rcases List.mem_cons.1 h with h | h
      · left; rw [← h]; exact min_eq_right hi
      · right; exact h

theorem foldl_max_eq (l : List ℚ) (a i : ℚ) (hi : i ≤ a) (hl : ∀ x ∈ l, x ≤ a)
    (hm : i = a ∨ a ∈ l) : l.foldl max i = a := by
  induction l generalizing i with
  | nil =>
    rcases hm with h | h
    · exact h
    · cases h
  | cons x l ih =>
    simp only [List.foldl_cons]
    have hx : x ≤ a := hl x (List.mem_cons_self _ _)
    apply ih (max i x) (max_le hi hx) (fun y hy => hl y (List.mem_cons_of_mem _ hy))
    rcases hm with h | h
    · left; rw [h]; exact max_eq_left hx
    · rcases List.mem_cons.1 h with h | h
      · left; rw [← h]; exact max_eq_right hi
      · right; exact h

theorem lower_eq (l : List ℚ) (a : ℚ) (ha : a ∈ l) (hl : ∀ x ∈ l, a ≤ x) : lower l = a := by
  unfold lower
  apply foldl_min_eq l a _ _ hl (Or.inr ha)
  cases l with
  | nil => cases ha
  | cons x l => exact hl x (List.mem_cons_self _ _)

theorem upper_eq (l : List ℚ) (a : ℚ) (ha : a ∈ l) (hl : ∀ x ∈ l, x ≤ a) : upper l = a := by
  unfold upper
  apply foldl_max_eq l a _ _ hl (Or.inr ha)
  cases l with
  | nil => cases ha
  | cons x l => exact hl x (List.mem_cons_self _ _)

/-- Every vertex of a box sits at a corner of the cuboid `center ± size / 2`. -/
theorem boxVertices_pos (c sz : XMFLOAT3) (uv : BoxUv) (tw th : Nat) :
    ∀ v ∈ boxVertices c sz uv tw th,
      (v.pos.x = c.x - sz.x * (1 / 2) ∨ v.pos.x = c.x + sz.x * (1 / 2)) ∧
      (v.pos.y = c.y - sz.y * (1 / 2) ∨ v.pos.y = c.y + sz.y * (1 / 2)) ∧
      (v.pos.z = c.z - sz.z * (1 / 2) ∨ v.pos.z = c.z + sz.z * (1 / 2)) := by
  simp only [boxVertices, AddBox, AddFace, List.nil_append, List.cons_append,
    List.forall_mem_cons, List.not_mem_nil, false_implies, implies_true, and_true,
    true_or, or_true, and_self]

theorem boxVertices_has_LTF (c sz : XMFLOAT3) (uv : BoxUv) (tw th : Nat) :
    ∃ v ∈ boxVertices c sz uv tw th,
      v.pos = ⟨c.x - sz.x * (1 / 2), c.y + sz.y * (1 / 2), c.z - sz.z * (1 / 2)⟩ := by
  simp only [boxVertices, AddBox, AddFace, List.nil_append, List.cons_append]
  exact ⟨_, List.mem_cons_self _ _, rfl⟩

theorem boxVertices_has_RBB (c sz : XMFLOAT3) (uv : BoxUv) (tw th : Nat) :
    ∃ v ∈ boxVertices c sz uv tw th,
      v.pos = ⟨c.x + sz.x * (1 / 2), c.y - sz.y * (1 / 2), c.z + sz.z * (1 / 2)⟩ := by
  simp only [boxVertices, AddBox, AddFace, List.nil_append, List.cons_append]
  refine ⟨⟨⟨c.x + sz.x * (1 / 2), c.y - sz.y * (1 / 2), c.z + sz.z * (1 / 2)⟩, ⟨0, -1, 0⟩,
    UVFromPx (toInt32 (uv.bottom.x + uv.bottom.w)) uv.bottom.y tw th⟩, ?_, rfl⟩
  simp only [List.mem_cons, true_or, or_true]

theorem lower_coord (vs : List Vertex) (f : XMFLOAT3 → ℚ) (a : ℚ)
    (hm : ∃ v ∈ vs, f v.pos = a) (hl : ∀ v ∈ vs, a ≤ f v.pos) :
    lower (vs.map fun v => f v.pos) = a := by
  apply lower_eq
  · obtain ⟨v, hv, e⟩ := hm
    exact List.mem_map.2 ⟨v, hv, e⟩
  · intro x hx
    obtain ⟨v, hv, rfl⟩ := List.mem_map.1 hx
    exact hl v hv

theorem upper_coord (vs : List Vertex) (f : XMFLOAT3 → ℚ) (a : ℚ)
    (hm : ∃ v ∈ vs, f v.pos = a) (hl : ∀ v ∈ vs, f v.pos ≤ a) :
    upper (vs.map fun v => f v.pos) = a := by
  apply upper_eq
  · obtain ⟨v, hv, e⟩ := hm
    exact List.mem_map.2 ⟨v, hv, e⟩
  · intro x hx
    obtain ⟨v, hv, rfl⟩ := List.mem_map.1 hx
    exact hl v hv

/-- The bounding box of a box of non-negative size is `center ± size / 2`. -/
theorem extent_boxVertices (c sz : XMFLOAT3) (uv : BoxUv) (tw th : Nat)
    (hx : 0 ≤ sz.x) (hy : 0 ≤ sz.y) (hz : 0 ≤ sz.z) :
    extent (boxVertices c sz uv tw th) =
      (⟨c.x - sz.x * (1 / 2), c.y - sz.y * (1 / 2), c.z - sz.z * (1 / 2)⟩,
       ⟨c.x + sz.x * (1 / 2), c.y + sz.y * (1 / 2), c.z + sz.z * (1 / 2)⟩) := by
  have hp := boxVertices_pos c sz uv tw th
  obtain ⟨v1, hv1, e1⟩ := boxVertices_has_LTF c sz uv tw th
  obtain ⟨v2, hv2, e2⟩ := boxVertices_has_RBB c sz uv tw th
  have hx' : 0 ≤ sz.x * (1 / 2) := by positivity
  have hy' : 0 ≤ sz.y * (1 / 2) := by positivity
  have hz' : 0 ≤ sz.z * (1 / 2) := by positivity
  have a1 := lower_coord (boxVertices c sz uv tw th) (fun p => p.x) (c.x - sz.x * (1 / 2))
    ⟨v1, hv1, by rw [e1]⟩
    (fun v hv => by rcases (hp v hv).1 with h | h <;> simp only [h] <;> linarith)
  have a2 := lower_coord (boxVertices c sz uv tw th) (fun p => p.y) (c.y - sz.y * (1 / 2))
    ⟨v2, hv2, by rw [e2]⟩
    (fun v hv => by rcases (hp v hv).2.1 with h | h <;> simp only [h] <;> linarith)
  have a3 := lower_coord (boxVertices c sz uv tw th) (fun p => p.z) (c.z - sz.z * (1 / 2))
    ⟨v1, hv1, by rw [e1]⟩
    (fun v hv => by rcases (hp v hv).2.2 with h | h <;> simp only [h] <;> linarith)
  have b1 := upper_coord (boxVertices c sz uv tw th) (fun p => p.x) (c.x + sz.x * (1 / 2))
    ⟨v2, hv2, by rw [e2]⟩
    (fun v hv => by rcases (hp v hv).1 with h | h <;> simp only [h] <;> linarith)
  have b2 := upper_coord (boxVertices c sz uv tw th) (fun p => p.y) (c.y + sz.y * (1 / 2))
    ⟨v1, hv1, by rw [e1]⟩
    (fun v hv => by rcases (hp v hv).2.1 with h | h <;> simp only [h] <;> linarith)
  have b3 := upper_coord (boxVertices c sz uv tw th) (fun p => p.z) (c.z + sz.z * (1 / 2))
    ⟨v2, hv2, by rw [e2]⟩
    (fun v hv => by rcases (hp v hv).2.2 with h | h <;> simp only [h] <;> linarith)
  simp only [] at a1 a2 a3 b1 b2 b3
  unfold extent
  rw [a1, a2, a3, b1, b2, b3]

theorem halfWidthX_boxVertices (c sz : XMFLOAT3) (uv : BoxUv) (tw th : Nat)
    (hx : 0 ≤ sz.x) (hy : 0 ≤ sz.y) (hz : 0 ≤ sz.z) :
    halfWidthX (boxVertices c sz uv tw th) = sz.x / 2 := by
  unfold halfWidthX
  rw [extent_boxVertices c sz uv tw th hx hy hz]
  simp only []
  ring

theorem onePixelSkin_Fits_64 (x0 y0 a : Nat) : (onePixelSkin 64 64 x0 y0 a).Fits :=
  ⟨by simp only [onePixelSkin, withRgba_rgba, List.length_set]; exact List.length_replicate _ _,
    by show 64 < 2147483648; decide, by show 64 < 2147483648; decide,
    by show 64 * 64 ≤ 4294967296; decide⟩

theorem probedParts_sleeve (slimArms : Bool) :
    probedParts (onePixelSkin 64 64 44 36 9) slimArms = [OverlayPart.rightSleeve] := by
  rw [probedParts_eq_visibleParts _ _ (onePixelSkin_Fits_64 44 36 9) (by decide)]
  have hv : ∀ b, visible (onePixelSkin 64 64 44 36 9) b ↔ ∃ r ∈ b.faces, r.contains 44 36 :=
    fun b => visible_onePixelSkin 64 64 44 36 9 (by decide) (by decide) (by decide) b
  simp only [visibleParts, hv]
  cases slimArms <;> decide

theorem block_eq (m : BuiltMesh) (i : Nat) : m.block i = (m.vertices.drop (24 * i)).take 24 :=
  rfl

theorem armW_of_has64 (s : SkinInfo) (slimArms : Bool) (h64 : has64 s = true) :
    armW s slimArms = if slimArms then 3 else 4 := by
  simp [armW, h64]

/-- The first overlay block of a mesh is the box of the first present part. -/
theorem overlay_block_six (s : SkinInfo) (slimArms : Bool) (hw : s.width ≠ 0)
    (hh : s.height ≠ 0) (p : OverlayPart) (ps : List OverlayPart)
    (hp : probedParts s slimArms = p :: ps) :
    (BuildPlayerMesh s slimArms).block 6 =
      boxVertices (overlayBox s slimArms p).center (overlayBox s slimArms p).size
        (overlayBox s slimArms p).uv s.width s.height := by
  have hl := length_probedParts_le s slimArms
  rw [block_eq, BuildPlayerMesh_eq s slimArms hw hh, (meshOf_spec s slimArms _ hl).1, hp,
    List.flatMap_cons]
  have h144 : 24 * 6 = (baseMesh s slimArms).vertices.length := by
    rw [baseMesh_length]
  rw [h144, List.drop_left, List.take_left' (length_boxVertices _ _ _ _ _)]

theorem partSize_nonneg (s : SkinInfo) (slimArms : Bool) (p : BasePart) :
    0 ≤ (partSize s slimArms p).x ∧ 0 ≤ (partSize s slimArms p).y ∧
      0 ≤ (partSize s slimArms p).z := by
  have ha : 0 ≤ armW s slimArms := by
    unfold armW; split_ifs <;> norm_num
  cases p <;> simp only [partSize] <;> refine ⟨?_, ?_, ?_⟩ <;> first | exact ha | norm_num

theorem baseBlock_block (s : SkinInfo) (slimArms : Bool) (hw : s.width ≠ 0)
    (hh : s.height ≠ 0) (i : Nat) (p : BasePart) (hi : BasePart.all.get? i = some p) :
    (BuildPlayerMesh s slimArms).block i =
      boxVertices (partCenter s slimArms p) (partSize s slimArms p) (baseUv s slimArms p)
        s.width s.height :=
  baseBlock s slimArms hw hh i p hi

theorem halfWidthX_baseBlock (s : SkinInfo) (slimArms : Bool) (hw : s.width ≠ 0)
    (hh : s.height ≠ 0) (i : Nat) (p : BasePart) (hi : BasePart.all.get? i = some p) :
    halfWidthX ((BuildPlayerMesh s slimArms).block i) = (partSize s slimArms p).x / 2 := by
  obtain ⟨h1, h2, h3⟩ := partSize_nonneg s slimArms p
  rw [baseBlock_block s slimArms hw hh i p hi, halfWidthX_boxVertices _ _ _ _ _ h1 h2 h3]

theorem halfWidthX_overlayBox (s : SkinInfo) (slimArms : Bool) (p : OverlayPart) :
    halfWidthX (boxVertices (overlayBox s slimArms p).center (overlayBox s slimArms p).size
        (overlayBox s slimArms p).uv s.width s.height) =
      ((partSize s slimArms p.under).x + 1 / 2) / 2 := by
  obtain ⟨h1, h2, h3⟩ := partSize_nonneg s slimArms p.under
  rw [halfWidthX_boxVertices]
  · rfl
  · simp only [overlayBox, Inflate]; linarith
  · simp only [overlayBox, Inflate]; linarith
  · simp only [overlayBox, Inflate]; linarith

/-! ## Texture coordinates -/

theorem atlas_ref : ∀ b ∈ baseAtlas ++ overlayAtlas, ∀ r ∈ b.faces, r.ref := by
  decide

theorem faces_ScaleBoxUv (b : BoxUv) (k : Nat) :
    (ScaleBoxUv b k).faces = b.faces.map (fun r => ScaleRect r k) := rfl

theorem ScaleRect_ref {k : Nat} (hk : 64 * k < 2147483648) (r : UvRectPx) (hr : r.ref) :
    ScaleRect r k = ⟨r.x * k, r.y * k, r.w * k, r.h * k⟩ := by
  obtain ⟨h1, h2, h3, h4, h5, h6⟩ := hr
  exact ScaleRect_eq hk r.x r.y r.w r.h ⟨h1, by omega⟩ ⟨h2, by omega⟩ ⟨h3, by omega⟩
    ⟨h4, by omega⟩

theorem ScaleRect_inside {k : Nat} (hk : 64 * k < 2147483648) (r : UvRectPx) (hr : r.ref) :
    (ScaleRect r k).inside (64 * k) (64 * k) := by
  rw [ScaleRect_ref hk r hr]
  obtain ⟨h1, h2, h3, h4, h5, h6⟩ := hr
  have hk0 : (0 : Int) ≤ k := by omega
  refine ⟨Int.mul_nonneg h1 hk0, Int.mul_nonneg h2 hk0, Int.mul_nonneg h3 hk0,
    Int.mul_nonneg h4 hk0, ?_, ?_⟩
  · show r.x * (k : Int) + r.w * (k : Int) ≤ ((64 * k : Nat) : Int)
    rw [← Int.add_mul]; push_cast
    exact Int.mul_le_mul_of_nonneg_right h5 hk0
  · show r.y * (k : Int) + r.h * (k : Int) ≤ ((64 * k : Nat) : Int)
    rw [← Int.add_mul]; push_cast
    exact Int.mul_le_mul_of_nonneg_right h6 hk0

/-- Texture coordinates of the vertices of a box are corners of its face
rectangles divided by the texture size. -/
theorem boxVertices_uv_corner (c sz : XMFLOAT3) (uv : BoxUv) (tw th : Nat) :
    ∀ v ∈ boxVertices c sz uv tw th, ∃ r ∈ uv.faces,
      (v.uv.x = (r.x : ℚ) / tw ∨ v.uv.x = ((toInt32 (r.x + r.w) : Int) : ℚ) / tw) ∧
      (v.uv.y = (r.y : ℚ) / th ∨ v.uv.y = ((toInt32 (r.y + r.h) : Int) : ℚ) / th) := by
  have htop : uv.top ∈ uv.faces := by simp [BoxUv.faces]
  have hbottom : uv.bottom ∈ uv.faces := by simp [BoxUv.faces]
  have hleft : uv.left ∈ uv.faces := by simp [BoxUv.faces]
  have hright : uv.right ∈ uv.faces := by simp [BoxUv.faces]
  have hfront : uv.front ∈ uv.faces := by simp [BoxUv.faces]
  have hback : uv.back ∈ uv.faces := by simp [BoxUv.faces]
  simp only [boxVertices, AddBox, AddFace, List.nil_append, List.cons_append,
    List.forall_mem_cons, List.not_mem_nil, false_implies, implies_true, and_true]
  refine ⟨?_, ?_, ?_, ?_, ?_, ?_, ?_, ?_, ?_, ?_, ?_, ?_, ?_, ?_, ?_, ?_, ?_, ?_, ?_, ?_, ?_,
    ?_, ?_, ?_⟩ <;>
  first
  | (refine ⟨uv.top, htop, ?_⟩; simp only [UVFromPx, true_or, or_true, and_self]; done)
  | (refine ⟨uv.bottom, hbottom, ?_⟩; simp only [UVFromPx, true_or, or_true, and_self]; done)
  | (refine ⟨uv.front, hfront, ?_⟩; simp only [UVFromPx, true_or, or_true, and_self]; done)
  | (refine ⟨uv.back, hback, ?_⟩; simp only [UVFromPx, true_or, or_true, and_self]; done)
  | (refine ⟨uv.right, hright, ?_⟩; simp only [UVFromPx, true_or, or_true, and_self]; done)
  | (refine ⟨uv.left, hleft, ?_⟩; simp only [UVFromPx, true_or, or_true, and_self]; done)

theorem unit_of_inside (c sz : XMFLOAT3) (uv : BoxUv) (tw th : Nat) (htw : 0 < tw)
    (hth : 0 < th) (htw' : tw < 2147483648) (hth' : th < 2147483648)
    (hin : ∀ r ∈ uv.faces, r.inside tw th) :
    ∀ v ∈ boxVertices c sz uv tw th, v.uv.unit := by
  intro v hv
  obtain ⟨r, hr, hx, hy⟩ := boxVertices_uv_corner c sz uv tw th v hv
  obtain ⟨h1, h2, h3, h4, h5, h6⟩ := hin r hr
  rw [toInt32_of_range (by omega) (by omega)] at hx hy
  have ptw : (0 : ℚ) < tw := by exact_mod_cast htw
  have pth : (0 : ℚ) < th := by exact_mod_cast hth
  have q1 : (0 : ℚ) ≤ r.x := by exact_mod_cast h1
  have q2 : (0 : ℚ) ≤ r.y := by exact_mod_cast h2
  have q3 : (0 : ℚ) ≤ ((r.x + r.w : Int) : ℚ) := by exact_mod_cast (by omega : 0 ≤ r.x + r.w)
  have q4 : (0 : ℚ) ≤ ((r.y + r.h : Int) : ℚ) := by exact_mod_cast (by omega : 0 ≤ r.y + r.h)
  have q5 : ((r.x + r.w : Int) : ℚ) ≤ tw := by exact_mod_cast h5
  have q6 : ((r.y + r.h : Int) : ℚ) ≤ th := by exact_mod_cast h6
  have q7 : (r.x : ℚ) ≤ tw := by
    have : r.x ≤ (tw : Int) := by omega
    exact_mod_cast this
  have q8 : (r.y : ℚ) ≤ th := by
    have : r.y ≤ (th : Int) := by omega
    exact_mod_cast this
  refine ⟨?_, ?_, ?_, ?_⟩
  · rcases hx with h | h <;> rw [h] <;> positivity
  · rcases hx with h | h <;> rw [h, div_le_one ptw] <;> assumption
  · rcases hy with h | h <;> rw [h] <;> positivity
  · rcases hy with h | h <;> rw [h, div_le_one pth] <;> assumption

theorem baseUv_mem (s : SkinInfo) (slimArms : Bool) (p : BasePart) :
    ∃ b ∈ baseAtlas, baseUv s slimArms p = ScaleBoxUv b s.scale := by
  cases p <;> simp only [baseUv, baseAtlas] <;> (try split_ifs) <;>
    exact ⟨_, by simp, rfl⟩

/-- Scaled atlas rectangles lie inside the `64k x 64k` texture. -/
theorem atlas_inside {k : Nat} (hk : 64 * k < 2147483648) (b : BoxUv)
    (hb : b ∈ baseAtlas ++ overlayAtlas) :
    ∀ r ∈ (ScaleBoxUv b k).faces, r.inside (64 * k) (64 * k) := by
  intro r hr
  rw [faces_ScaleBoxUv] at hr
  obtain ⟨r0, hr0, rfl⟩ := List.mem_map.1 hr
  exact ScaleRect_inside hk r0 (atlas_ref b hb r0 hr0)

/-- `AnyNonTransparent` is false on a rectangle that starts below the image. -/
theorem AnyNonTransparent_below (s : SkinInfo) (r : UvRectPx) (hh : s.height < 2147483648)
    (hr : (s.height : Int) ≤ r.y) : AnyNonTransparent s r = false := by
  have eh : toInt32 (s.height : Int) = s.height := toInt32_of_range (by omega) (by omega)
  unfold AnyNonTransparent
  simp only [eh]
  split_ifs with h1 h2
  · rfl
  · rfl
  · exfalso; apply h2; right; omega

/-- Every vertex of the mesh belongs to the box of a base part or of a present
overlay part. -/
theorem mem_mesh_vertices (s : SkinInfo) (slimArms : Bool) (hw : s.width ≠ 0)
    (hh : s.height ≠ 0) (v : Vertex) (hv : v ∈ (BuildPlayerMesh s slimArms).vertices) :
    (∃ p : BasePart, v ∈ boxVertices (partCenter s slimArms p) (partSize s slimArms p)
        (baseUv s slimArms p) s.width s.height) ∨
      (∃ p ∈ probedParts s slimArms,
        v ∈ boxVertices (overlayBox s slimArms p).center (overlayBox s slimArms p).size
          (overlayUv s slimArms p) s.width s.height) := by
  rw [BuildPlayerMesh_eq s slimArms hw hh,
    (meshOf_spec s slimArms _ (length_probedParts_le s slimArms)).1, baseMesh_vertices,
    List.mem_append, List.mem_flatMap, List.mem_flatMap] at hv
  rcases hv with ⟨p, -, h⟩ | ⟨p, hp, h⟩
  · exact Or.inl ⟨p, h⟩
  · exact Or.inr ⟨p, hp, h⟩

theorem legacy_base_inside : ∀ b ∈ [UV_Head, UV_Torso, UV_RightArm, UV_RightLeg, UV_Hat],
    ∀ r ∈ (ScaleBoxUv b 1).faces, r.inside 64 32 := by
  decide

theorem legacy_overlay_below : ∀ b ∈ [UV_Jacket, UV_RightSleeve, UV_RightSleeveSlim,
    UV_RightLegPants, UV_LeftSleeve, UV_LeftSleeveSlim, UV_LeftLegPants],
    ∀ r ∈ (ScaleBoxUv b 1).faces, (32 : Int) ≤ r.y := by
  decide

theorem probe_below (s : SkinInfo) (b : BoxUv) (hh : s.height < 2147483648)
    (hb : ∀ r ∈ b.faces, (s.height : Int) ≤ r.y) : probe s b = false := by
  unfold probe
  rw [List.any_eq_false]
  intro r hr
  rw [AnyNonTransparent_below s r hh (hb r hr)]
  exact Bool.false_ne_true

/-- On a 64x32 legacy skin every box of the mesh is textured from rectangles
inside the texture. -/
theorem legacy_uv_inside (s : SkinInfo) (slimArms : Bool) (hw : s.width = 64)
    (hh : s.height = 32) (hc : Classified s) :
    (∀ p : BasePart, ∀ r ∈ (baseUv s slimArms p).faces, r.inside 64 32) ∧
      (∀ p ∈ probedParts s slimArms, ∀ r ∈ (overlayUv s slimArms p).faces,
        r.inside 64 32) := by
  have hl : s.legacy64x32 = true := by rw [hc.1, hw, hh]; rfl
  have hs : s.scale = 1 := by rw [hc.2, hw, hh]; rfl
  have h64 : has64 s = false := has64_legacy s hl
  have ha : ¬ (armW s slimArms = 3) := by
    simp [armW, h64]
  constructor
  · intro p r hr
    cases p <;> simp only [baseUv, h64, if_neg ha, Bool.false_eq_true, if_false, hs] at hr
    · exact legacy_base_inside UV_Head (by simp) r hr
    · exact legacy_base_inside UV_Torso (by simp) r hr
    · exact legacy_base_inside UV_RightArm (by simp) r hr
    · exact legacy_base_inside UV_RightLeg (by simp) r hr
    · exact legacy_base_inside UV_RightArm (by simp) r hr
    · exact legacy_base_inside UV_RightLeg (by simp) r hr
  · intro p hp r hr
    have hpr : probe s (overlayUv s slimArms p) = true := by
      simp only [probedParts, List.mem_filter, present, Bool.and_eq_true] at hp
      exact hp.2.2
    have hlt : s.height < 2147483648 := by omega
    have hbelow : ∀ b ∈ [UV_Jacket, UV_RightSleeve, UV_RightSleeveSlim,
        UV_RightLegPants, UV_LeftSleeve, UV_LeftSleeveSlim, UV_LeftLegPants],
        probe s (ScaleBoxUv b 1) = false := by
      intro b hb
      apply probe_below s _ hlt
      intro r hr
      rw [hh]
      exact legacy_overlay_below b hb r hr
    cases p <;> simp only [overlayUv, if_neg ha, hs] at hr hpr
    · exact legacy_base_inside UV_Hat (by simp) r hr
    · rw [hbelow UV_Jacket (by simp)] at hpr; cases hpr
    · rw [hbelow UV_RightSleeve (by simp)] at hpr; cases hpr
    · rw [hbelow UV_RightLegPants (by simp)] at hpr; cases hpr
    · rw [hbelow UV_LeftSleeve (by simp)] at hpr; cases hpr
    · rw [hbelow UV_LeftLegPants (by simp)] at hpr; cases hpr

theorem UVFromPx_scaled (x y : Int) (k : Nat) (hk : 0 < k) :
    UVFromPx (x * k) (y * k) (64 * k) (64 * k) = UVFromPx x y 64 64 := by
  have hk' : (k : ℚ) ≠ 0 := by exact_mod_cast (by omega : k ≠ 0)
  simp only [UVFromPx]
  push_cast
  congr 1 <;> field_simp <;> ring

/-- `AddFace` with a scaled reference rectangle on the `64k x 64k` texture is
`AddFace` with the reference rectangle on the 64x64 texture. -/
theorem AddFace_scaled (v : List Vertex) (i : List Nat) (p0 p1 p2 p3 n : XMFLOAT3)
    (r : UvRectPx) (hr : r.ref) (k : Nat) (hk1 : 0 < k) (hk : 64 * k < 2147483648) :
    AddFace v i p0 p1 p2 p3 n (ScaleRect r k) (64 * k) (64 * k) =
      AddFace v i p0 p1 p2 p3 n r 64 64 := by
  have hf := scaled_Fits hk r.x r.y r.w r.h (by have := hr; unfold UvRectPx.ref at this; omega)
    (by have := hr; unfold UvRectPx.ref at this; omega)
    (by have := hr; unfold UvRectPx.ref at this; omega)
    (by have := hr; unfold UvRectPx.ref at this; omega)
  obtain ⟨h1, h2, h3, h4, h5, h6⟩ := hr
  rw [ScaleRect_ref hk r ⟨h1, h2, h3, h4, h5, h6⟩]
  unfold AddFace
  simp only []
  rw [toInt32_of_range hf.1 hf.2.1, toInt32_of_range hf.2.2.1 hf.2.2.2,
    toInt32_of_range (by omega : -2147483648 ≤ r.x + r.w) (by omega),
    toInt32_of_range (by omega : -2147483648 ≤ r.y + r.h) (by omega),
    ← Int.add_mul, ← Int.add_mul, UVFromPx_scaled _ _ k hk1, UVFromPx_scaled _ _ k hk1,
    UVFromPx_scaled _ _ k hk1, UVFromPx_scaled _ _ k hk1]

theorem AddBox_scaled (v : List Vertex) (i : List Nat) (c sz : XMFLOAT3) (b : BoxUv)
    (hb : ∀ r ∈ b.faces, r.ref) (k : Nat) (hk1 : 0 < k) (hk : 64 * k < 2147483648) :
    AddBox v i c sz (ScaleBoxUv b k) (64 * k) (64 * k) = AddBox v i c sz b 64 64 := by
  have htop : b.top.ref := hb _ (by simp [BoxUv.faces])
  have hbottom : b.bottom.ref := hb _ (by simp [BoxUv.faces])
  have hleft : b.left.ref := hb _ (by simp [BoxUv.faces])
  have hright : b.right.ref := hb _ (by simp [BoxUv.faces])
  have hfront : b.front.ref := hb _ (by simp [BoxUv.faces])
  have hback : b.back.ref := hb _ (by simp [BoxUv.faces])
  unfold AddBox
  simp only [ScaleBoxUv, AddFace_scaled _ _ _ _ _ _ _ _ htop k hk1 hk,
    AddFace_scaled _ _ _ _ _ _ _ _ hbottom k hk1 hk,
    AddFace_scaled _ _ _ _ _ _ _ _ hleft k hk1 hk,
    AddFace_scaled _ _ _ _ _ _ _ _ hright k hk1 hk,
    AddFace_scaled _ _ _ _ _ _ _ _ hfront k hk1 hk,
    AddFace_scaled _ _ _ _ _ _ _ _ hback k hk1 hk]

theorem foldl_congr_fun {α β : Type} (f g : β → α → β) (h : ∀ m p, f m p = g m p)
    (l : List α) (b : β) : l.foldl f b = l.foldl g b := by
  have : f = g := funext fun m => funext fun p => h m p
  rw [this]

theorem AddBox_scaled_one (v : List Vertex) (i : List Nat) (c sz : XMFLOAT3) (b : BoxUv)
    (hb : ∀ r ∈ b.faces, r.ref) :
    AddBox v i c sz (ScaleBoxUv b 1) 64 64 = AddBox v i c sz b 64 64 :=
  AddBox_scaled v i c sz b hb 1 (by omega) (by omega)

theorem armW_congr (s s0 : SkinInfo) (slimArms : Bool) (h : has64 s = has64 s0) :
    armW s slimArms = armW s0 slimArms := by
  simp only [armW, h]

theorem baseUv_pair (s s0 : SkinInfo) (slimArms : Bool) (h : has64 s = has64 s0)
    (p : BasePart) :
    ∃ b ∈ baseAtlas, baseUv s slimArms p = ScaleBoxUv b s.scale ∧
      baseUv s0 slimArms p = ScaleBoxUv b s0.scale := by
  have ha := armW_congr s s0 slimArms h
  cases p <;> simp only [baseUv, baseAtlas, ← ha, ← h] <;> (try split_ifs) <;>
    exact ⟨_, by simp, rfl, rfl⟩

theorem overlayUv_pair (s s0 : SkinInfo) (slimArms : Bool) (h : has64 s = has64 s0)
    (p : OverlayPart) :
    ∃ b ∈ overlayAtlas, overlayUv s slimArms p = ScaleBoxUv b s.scale ∧
      overlayUv s0 slimArms p = ScaleBoxUv b s0.scale := by
  have ha := armW_congr s s0 slimArms h
  cases p <;> simp only [overlayUv, overlayAtlas, ← ha] <;> (try split_ifs) <;>
    exact ⟨_, by simp, rfl, rfl⟩

theorem partCenter_congr (s s0 : SkinInfo) (slimArms : Bool) (h : has64 s = has64 s0)
    (p : BasePart) : partCenter s slimArms p = partCenter s0 slimArms p := by
  cases p <;> simp only [partCenter, armW_congr s s0 slimArms h]

theorem partSize_congr (s s0 : SkinInfo) (slimArms : Bool) (h : has64 s = has64 s0)
    (p : BasePart) : partSize s slimArms p = partSize s0 slimArms p := by
  cases p <;> simp only [partSize, armW_congr s s0 slimArms h]

/-- The mesh of a `64k x 64k` skin with scale `k` is the mesh of a 64x64 skin
with scale 1 made of the same overlay parts. -/
theorem meshOf_scaled (s s0 : SkinInfo) (slimArms : Bool) (k : Nat) (hk1 : 0 < k)
    (hk : 64 * k < 2147483648) (hw : s.width = 64 * k) (hh : s.height = 64 * k)
    (hs : s.scale = k) (hw0 : s0.width = 64) (hh0 : s0.height = 64) (hs0 : s0.scale = 1)
    (h : has64 s = has64 s0) (parts : List OverlayPart) :
    meshOf s slimArms parts = meshOf s0 slimArms parts := by
  have hbase : baseMesh s slimArms = baseMesh s0 slimArms := by
    unfold baseMesh
    rw [List.foldl_map, List.foldl_map]
    apply foldl_congr_fun
    intro m p
    obtain ⟨b, hb, e, e0⟩ := baseUv_pair s s0 slimArms h p
    have hr := atlas_ref b (List.mem_append_left _ hb)
    simp only [baseBox, BuiltMesh.addBase, partCenter_congr s s0 slimArms h,
      partSize_congr s s0 slimArms h, e, e0, hs, hs0, hw, hh, hw0, hh0]
    rw [AddBox_scaled _ _ _ _ b hr k hk1 hk, AddBox_scaled_one _ _ _ _ b hr]
  unfold meshOf
  rw [List.foldl_map, List.foldl_map, hbase]
  apply foldl_congr_fun
  intro m p
  obtain ⟨b, hb, e, e0⟩ := overlayUv_pair s s0 slimArms h p
  have hr := atlas_ref b (List.mem_append_right _ hb)
  simp only [overlayBox, BuiltMesh.addOverlay, partCenter_congr s s0 slimArms h,
    partSize_congr s s0 slimArms h, e, e0, hs, hs0, hw, hh, hw0, hh0]
  rw [AddBox_scaled _ _ _ _ b hr k hk1 hk, AddBox_scaled_one _ _ _ _ b hr]

theorem has64_eq {s : SkinInfo} (hk : 64 * s.scale < 2147483648) :
    has64 s = (!s.legacy64x32 && decide (64 * s.scale ≤ s.height)) := by
  unfold has64
  have : toUInt32 (64 * (s.scale : Int)) = 64 * s.scale := by
    have := toUInt32_natCast (n := 64 * s.scale) (by omega)
    rw [← this]; push_cast; rfl
  rw [this]

theorem classified_square (s : SkinInfo) (k : Nat) (hk : 64 * k < 2147483648)
    (hw : s.width = 64 * k) (hh : s.height = 64 * k) (hc : Classified s) :
    s.scale = k ∧ s.legacy64x32 = false ∧ has64 s = true := by
  have hs : s.scale = k := by
    rw [hc.2, hw, hh]
    simp only [classify]
    split_ifs with h
    · omega
    · exfalso; apply h; exact ⟨trivial, by omega⟩
  have hl : s.legacy64x32 = false := by
    rw [hc.1, hw, hh]
    simp only [classify, decide_eq_false_iff_not]
    omega
  refine ⟨hs, hl, ?_⟩
  have hk' : 64 * s.scale < 2147483648 := by rw [hs]; exact hk
  rw [has64_eq hk', hl, hs, hh]
  simp

theorem alphaAt_blankSkin (w h x y : Nat) : alphaAt (blankSkin w h) x y = 0 := by
  unfold alphaAt byteAt blankSkin
  exact getD_replicate_zero _ _

theorem visibleParts_blankSkin (w h : Nat) (slimArms : Bool) :
    visibleParts (blankSkin w h) slimArms = [] := by
  unfold visibleParts
  rw [List.filter_eq_nil_iff]
  intro p _
  have : ¬ visible (blankSkin w h) (overlayUv (blankSkin w h) slimArms p) := by
    rintro ⟨x, -, y, -, -, hne⟩
    exact hne (alphaAt_blankSkin w h x y)
  simp [this]


theorem AddBox_nil_snd (c sz : XMFLOAT3) (uv : BoxUv) (tw th : Nat) :
    (AddBox [] [] c sz uv tw th).2 = boxIndices 0 := by
  rw [AddBox_snd [] [] c sz uv tw th (by simp)]
  rfl

/-- Every vertex of a box of positive size carries an axis-aligned unit normal
and lies on the side of the centre that normal points to. -/
theorem boxVertices_normal (c sz : XMFLOAT3) (uv : BoxUv) (tw th : Nat)
    (hx : 0 < sz.x) (hy : 0 < sz.y) (hz : 0 < sz.z) :
    ∀ v ∈ boxVertices c sz uv tw th,
      v.nrm ∈ axisUnits ∧ 0 < (v.pos.sub c).dot v.nrm := by
  simp only [boxVertices, AddBox, AddFace, List.nil_append, List.cons_append,
    List.forall_mem_cons, List.not_mem_nil, false_implies, implies_true, and_true,
    XMFLOAT3.sub, XMFLOAT3.dot, axisUnits]
  refine ⟨?_, ?_, ?_, ?_, ?_, ?_, ?_, ?_, ?_, ?_, ?_, ?_, ?_, ?_, ?_, ?_, ?_, ?_, ?_, ?_, ?_,
    ?_, ?_, ?_⟩ <;>
  (refine ⟨by simp, ?_⟩
   ring_nf
   linarith)

/-- The three vertices of every triangle of a box share their normal, and the
cross product of its two edges from the first vertex is a strictly negative
multiple of that normal. -/
theorem box_triangles (c sz : XMFLOAT3) (uv : BoxUv) (tw th : Nat)
    (hx : 0 < sz.x) (hy : 0 < sz.y) (hz : 0 < sz.z) (t : Nat) (ht : t < 12) :
    (triangle (boxVertices c sz uv tw th) (boxIndices 0) t).2.1.nrm =
        (triangle (boxVertices c sz uv tw th) (boxIndices 0) t).1.nrm ∧
      (triangle (boxVertices c sz uv tw th) (boxIndices 0) t).2.2.nrm =
        (triangle (boxVertices c sz uv tw th) (boxIndices 0) t).1.nrm ∧
      ∃ l : ℚ, 0 < l ∧
        ((triangle (boxVertices c sz uv tw th) (boxIndices 0) t).2.1.pos.sub
            (triangle (boxVertices c sz uv tw th) (boxIndices 0) t).1.pos).cross
          ((triangle (boxVertices c sz uv tw th) (boxIndices 0) t).2.2.pos.sub
            (triangle (boxVertices c sz uv tw th) (boxIndices 0) t).1.pos) =
          XMFLOAT3.smul (-l) (triangle (boxVertices c sz uv tw th) (boxIndices 0) t).1.nrm := by
  have hxz : 0 < sz.x * sz.z := mul_pos hx hz
  have hxy : 0 < sz.x * sz.y := mul_pos hx hy
  have hyz : 0 < sz.y * sz.z := mul_pos hy hz
  interval_cases t <;>
    simp only [triangle, boxIndices, faceIndices, boxVertices, AddBox, AddFace,
      List.nil_append, List.cons_append, List.append_assoc, List.getD_cons_zero,
      List.getD_cons_succ, Nat.zero_add, Nat.mul_zero, Nat.reduceMul, Nat.reduceAdd,
      XMFLOAT3.sub, XMFLOAT3.cross, XMFLOAT3.smul, true_and] <;>
    first
    | (refine ⟨sz.x * sz.z, hxz, ?_⟩; congr 1 <;> ring1)
    | (refine ⟨sz.x * sz.y, hxy, ?_⟩; congr 1 <;> ring1)
    | (refine ⟨sz.y * sz.z, hyz, ?_⟩; congr 1 <;> ring1)

set_option maxHeartbeats 2000000 in
/-- The four vertices of each face of a box share their normal. -/
theorem box_face_normal (c sz : XMFLOAT3) (uv : BoxUv) (tw th : Nat) (f j : Nat)
    (hf : f < 6) (hj : j < 4) :
    ((boxVertices c sz uv tw th).getD (4 * f + j) Vertex.zero).nrm =
      ((boxVertices c sz uv tw th).getD (4 * f) Vertex.zero).nrm := by
  interval_cases f <;> interval_cases j <;>
    simp only [boxVertices, AddBox, AddFace, List.nil_append, List.cons_append,
      List.append_assoc, List.getD_cons_zero, List.getD_cons_succ, Nat.zero_add,
      Nat.add_zero, Nat.mul_zero, Nat.reduceMul, Nat.reduceAdd]

theorem boxIndices_face : ∀ t < 12, ∀ j < 3, (boxIndices 0).getD (3 * t + j) 0 / 4 = t / 2 := by
  decide

theorem armW_eq (s : SkinInfo) (slimArms : Bool) :
    armW s slimArms = if (slimArms && has64 s) = true then 3 else 4 := by
  unfold armW
  rw [Bool.and_comm]

theorem armW_pos (s : SkinInfo) (slimArms : Bool) : 0 < armW s slimArms := by
  unfold armW; split_ifs <;> norm_num

/-- The extent of a base block is the box of its part. -/
theorem extent_baseBlock (s : SkinInfo) (slimArms : Bool) (hw : s.width ≠ 0)
    (hh : s.height ≠ 0) (i : Nat) (p : BasePart) (hi : BasePart.all.get? i = some p) :
    extent ((BuildPlayerMesh s slimArms).block i) =
      (⟨(partCenter s slimArms p).x - (partSize s slimArms p).x * (1 / 2),
        (partCenter s slimArms p).y - (partSize s slimArms p).y * (1 / 2),
        (partCenter s slimArms p).z - (partSize s slimArms p).z * (1 / 2)⟩,
       ⟨(partCenter s slimArms p).x + (partSize s slimArms p).x * (1 / 2),
        (partCenter s slimArms p).y + (partSize s slimArms p).y * (1 / 2),
        (partCenter s slimArms p).z + (partSize s slimArms p).z * (1 / 2)⟩) := by
  obtain ⟨h1, h2, h3⟩ := partSize_nonneg s slimArms p
  rw [baseBlock_block s slimArms hw hh i p hi, extent_boxVertices _ _ _ _ _ h1 h2 h3]

theorem base_extents (s : SkinInfo) (slimArms : Bool) (hw : s.width ≠ 0)
    (hh : s.height ≠ 0) :
    extent ((BuildPlayerMesh s slimArms).block 0) = (⟨-4, 24, -4⟩, ⟨4, 32, 4⟩) ∧
      extent ((BuildPlayerMesh s slimArms).block 1) = (⟨-4, 12, -2⟩, ⟨4, 24, 2⟩) ∧
      extent ((BuildPlayerMesh s slimArms).block 2) =
        (⟨-4 - armW s slimArms, 12, -2⟩, ⟨-4, 24, 2⟩) ∧
      extent ((BuildPlayerMesh s slimArms).block 3) = (⟨-4, 0, -2⟩, ⟨0, 12, 2⟩) ∧
      extent ((BuildPlayerMesh s slimArms).block 4) =
        (⟨4, 12, -2⟩, ⟨4 + armW s slimArms, 24, 2⟩) ∧
      extent ((BuildPlayerMesh s slimArms).block 5) = (⟨0, 0, -2⟩, ⟨4, 12, 2⟩) := by
  rw [extent_baseBlock s slimArms hw hh 0 BasePart.head rfl,
    extent_baseBlock s slimArms hw hh 1 BasePart.torso rfl,
    extent_baseBlock s slimArms hw hh 2 BasePart.rightArm rfl,
    extent_baseBlock s slimArms hw hh 3 BasePart.rightLeg rfl,
    extent_baseBlock s slimArms hw hh 4 BasePart.leftArm rfl,
    extent_baseBlock s slimArms hw hh 5 BasePart.leftLeg rfl]
  simp only [partCenter, partSize, Prod.mk.injEq, XMFLOAT3.mk.injEq]
  refine ⟨⟨⟨?_, ?_, ?_⟩, ⟨?_, ?_, ?_⟩⟩, ⟨⟨?_, ?_, ?_⟩, ⟨?_, ?_, ?_⟩⟩, ⟨⟨?_, ?_, ?_⟩, ⟨?_, ?_, ?_⟩⟩,
    ⟨⟨?_, ?_, ?_⟩, ⟨?_, ?_, ?_⟩⟩, ⟨⟨?_, ?_, ?_⟩, ⟨?_, ?_, ?_⟩⟩, ⟨⟨?_, ?_, ?_⟩, ⟨?_, ?_, ?_⟩⟩⟩ <;>
    ring1

/-- Every vertex of a base block is a corner of the extent of the block. -/
theorem baseBlock_corners (s : SkinInfo) (slimArms : Bool) (hw : s.width ≠ 0)
    (hh : s.height ≠ 0) (i : Nat) (hi : i < 6) :
    ∀ v ∈ (BuildPlayerMesh s slimArms).block i,
      (v.pos.x = (extent ((BuildPlayerMesh s slimArms).block i)).1.x ∨
        v.pos.x = (extent ((BuildPlayerMesh s slimArms).block i)).2.x) ∧
      (v.pos.y = (extent ((BuildPlayerMesh s slimArms).block i)).1.y ∨
        v.pos.y = (extent ((BuildPlayerMesh s slimArms).block i)).2.y) ∧
      (v.pos.z = (extent ((BuildPlayerMesh s slimArms).block i)).1.z ∨
        v.pos.z = (extent ((BuildPlayerMesh s slimArms).block i)).2.z) := by
  have hp : ∃ p, BasePart.all.get? i = some p := by
    interval_cases i <;> exact ⟨_, rfl⟩
  obtain ⟨p, hp⟩ := hp
  rw [extent_baseBlock s slimArms hw hh i p hp, baseBlock_block s slimArms hw hh i p hp]
  exact boxVertices_pos _ _ _ _ _

/-- `ForceRectOpaque` writes exactly at the indices `rectIndices`, in order. -/
theorem ForceRectOpaque_trace (s : SkinInfo) (x y w h : Int) :
    ForceRectOpaque s x y w h =
      ((rectIndices s.width s.height x y w h).foldlM writeAlpha s.rgba).map s.withRgba := by
  unfold ForceRectOpaque rectIndices
  simp only []
  split_ifs with hc
  · rfl
  · rw [foldlM_nested]
    rfl

theorem any_map_fun {β : Type} (xs : List β) (f : β → Nat) (p : Nat → Bool) :
    (xs.any fun xx => p (f xx)) = (xs.map f).any p := by
  induction xs with
  | nil => rfl
  | cons x xs ih => rw [List.any_cons, List.map_cons, List.any_cons, ih]

theorem any_flatMap_map {α β : Type} (ys : List α) (xs : List β) (g : β → α → Nat)
    (p : Nat → Bool) :
    (ys.any fun yy => xs.any fun xx => p (g xx yy)) =
      (ys.flatMap fun yy => xs.map fun xx => g xx yy).any p := by
  induction ys with
  | nil => rfl
  | cons y ys ih =>
    rw [List.any_cons, List.flatMap_cons, List.any_append, ih]
    rw [any_map_fun xs (fun xx => g xx y) p]

theorem toInt32_zero : toInt32 ((0 : Nat) : Int) = 0 := by
  rw [Nat.cast_zero]
  exact toInt32_of_range (by norm_num) (by norm_num)

/-- `AnyNonTransparent` reads (behind its guard) only at indices of `rectIndices`. -/
theorem AnyNonTransparent_trace (s : SkinInfo) (r : UvRectPx) :
    AnyNonTransparent s r =
      (!(s.rgba.isEmpty || s.width == 0 || s.height == 0) &&
        (rectIndices s.width s.height r.x r.y r.w r.h).any fun i =>
          decide (i < s.rgba.length) && (s.rgba.getD i 0 != 0)) := by
  unfold AnyNonTransparent rectIndices
  simp only []
  by_cases h0 : (s.rgba.isEmpty || s.width == 0 || s.height == 0) = true
  · rw [if_pos h0, h0]; rfl
  · rw [if_neg h0, Bool.eq_false_iff.2 h0, Bool.not_false, Bool.true_and]
    split_ifs with hc
    · rfl
    · exact any_flatMap_map _ _ (fun xx yy => pixelIndex s.width xx yy + 3)
        (fun i => decide (i < s.rgba.length) && (s.rgba.getD i 0 != 0))

/-- On a buffer of exactly `width * height * 4 < 2^31` bytes every index of
the clipped loops is inside the buffer. -/
theorem rectIndices_lt (s : SkinInfo) (hl : s.rgba.length = s.width * s.height * 4)
    (hsz : s.width * s.height * 4 < 2147483648) (x y w h : Int) :
    ∀ i ∈ rectIndices s.width s.height x y w h, i < s.rgba.length := by
  intro i hi
  unfold rectIndices at hi
  simp only [] at hi
  split_ifs at hi with hc
  · exact absurd hi (List.not_mem_nil _)
  · have z := toInt32_zero
    have hw0 : s.width ≠ 0 := by
      intro e; apply hc; left; rw [e, z]
      exact le_trans (min_le_left _ _) (le_max_left _ _)
    have hh0 : s.height ≠ 0 := by
      intro e; apply hc; right; rw [e, z]
      exact le_trans (min_le_left _ _) (le_max_left _ _)
    have h1 : s.width ≤ s.width * s.height := Nat.le_mul_of_pos_right _ (by omega)
    have h2 : s.height ≤ s.width * s.height := Nat.le_mul_of_pos_left _ (by omega)
    have hwb : s.width < 536870912 := by clear hc hi z; omega
    have hhb : s.height < 536870912 := by clear hc hi z; omega
    clear hc z
    have ew : toInt32 (s.width : Int) = s.width := toInt32_of_range (by omega) (by omega)
    have eh : toInt32 (s.height : Int) = s.height := toInt32_of_range (by omega) (by omega)
    rw [ew, eh] at hi
    simp only [List.mem_flatMap, List.mem_map, mem_intRange] at hi
    obtain ⟨yy, ⟨hy0, hy1⟩, xx, ⟨hx0, hx1⟩, rfl⟩ := hi
    have hx0' : 0 ≤ xx := le_trans (le_max_left _ _) hx0
    have hy0' : 0 ≤ yy := le_trans (le_max_left _ _) hy0
    have hx1' : xx < s.width := lt_of_lt_of_le hx1 (min_le_left _ _)
    have hy1' : yy < s.height := lt_of_lt_of_le hy1 (min_le_left _ _)
    clear hx0 hx1 hy0 hy1
    lift xx to ℕ using hx0'
    lift yy to ℕ using hy0'
    have hx : xx < s.width := by exact_mod_cast hx1'
    have hy : yy < s.height := by exact_mod_cast hy1'
    rw [pixelIndex_eq hx hy (by omega)]
    have := pixel_lt hx hy
    omega

/-- A call of `ForceRectOpaque` whose indices are all inside the buffer
completes and keeps the length of the buffer. -/
theorem ForceRectOpaque_some (s : SkinInfo) (x y w h : Int)
    (hb : ∀ i ∈ rectIndices s.width s.height x y w h, i < s.rgba.length) :
    ∃ rgba, ForceRectOpaque s x y w h = some (s.withRgba rgba) ∧
      rgba.length = s.rgba.length := by
  rw [ForceRectOpaque_trace, foldlM_writeAlpha _ _ hb]
  exact ⟨_, rfl, length_foldl_set _ _⟩

theorem Sanitize_some (s : SkinInfo) (hl : s.rgba.length = s.width * s.height * 4)
    (hsz : s.width * s.height * 4 < 2147483648) :
    ∃ rgba, SanitizeMinecraftBaseAlpha s = some (s.withRgba rgba) ∧
      rgba.length = s.rgba.length := by
  have step : ∀ (prev : List Nat), prev.length = s.rgba.length → ∀ x y w h : Int,
      ∃ rgba, ForceRectOpaque (s.withRgba prev) x y w h = some (s.withRgba rgba) ∧
        rgba.length = s.rgba.length := by
    intro prev hp x y w h
    obtain ⟨rgba, e, l⟩ := ForceRectOpaque_some (s.withRgba prev) x y w h
      (rectIndices_lt (s.withRgba prev) (by simpa [hp] using hl) (by simpa using hsz) x y w h)
    exact ⟨rgba, e, by rw [l]; exact hp⟩
  unfold SanitizeMinecraftBaseAlpha
  simp only []
  obtain ⟨r1, e1, l1⟩ := step s.rgba rfl (toInt32 (0 * toInt32 (s.scale : Int)))
    (toInt32 (0 * toInt32 (s.scale : Int))) (toInt32 (32 * toInt32 (s.scale : Int)))
    (toInt32 (16 * toInt32 (s.scale : Int)))
  rw [withRgba_self] at e1
  rw [e1, Option.some_bind]
  obtain ⟨r2, e2, l2⟩ := step r1 l1 (toInt32 (16 * toInt32 (s.scale : Int)))
    (toInt32 (16 * toInt32 (s.scale : Int))) (toInt32 (24 * toInt32 (s.scale : Int)))
    (toInt32 (16 * toInt32 (s.scale : Int)))
  rw [e2, Option.some_bind]
  obtain ⟨r3, e3, l3⟩ := step r2 l2 (toInt32 (40 * toInt32 (s.scale : Int)))
    (toInt32 (16 * toInt32 (s.scale : Int))) (toInt32 (16 * toInt32 (s.scale : Int)))
    (toInt32 (16 * toInt32 (s.scale : Int)))
  rw [e3, Option.some_bind]
  obtain ⟨r4, e4, l4⟩ := step r3 l3 (toInt32 (0 * toInt32 (s.scale : Int)))
    (toInt32 (16 * toInt32 (s.scale : Int))) (toInt32 (16 * toInt32 (s.scale : Int)))
    (toInt32 (16 * toInt32 (s.scale : Int)))
  rw [e4, Option.some_bind]
  split_ifs with hc
  · obtain ⟨r5, e5, l5⟩ := step r4 l4 (toInt32 (32 * toInt32 (s.scale : Int)))
      (toInt32 (48 * toInt32 (s.scale : Int))) (toInt32 (16 * toInt32 (s.scale : Int)))
      (toInt32 (16 * toInt32 (s.scale : Int)))
    rw [e5, Option.some_bind]
    exact step r5 l5 _ _ _ _
  · exact ⟨r4, rfl, l4⟩
/-! ## The claims -/

/-- C9. Index-list partition invariant: for every image and both values of
`slimArms`, the two index lists of the built mesh have lengths divisible by 3
and every index in either list is below the number of vertices. -/
theorem index_lists_valid (skin : SkinInfo) (slimArms : Bool) :
    (BuildPlayerMesh skin slimArms).indicesBase.length % 3 = 0 ∧
      (BuildPlayerMesh skin slimArms).indicesOverlay.length % 3 = 0 ∧
      (∀ k ∈ (BuildPlayerMesh skin slimArms).indicesBase,
        k < (BuildPlayerMesh skin slimArms).vertices.length) ∧
      (∀ k ∈ (BuildPlayerMesh skin slimArms).indicesOverlay,
        k < (BuildPlayerMesh skin slimArms).vertices.length) := by
  by_cases h0 : skin.width = 0 ∨ skin.height = 0
  · simp [BuildPlayerMesh, h0]
  · have hw : skin.width ≠ 0 := fun h => h0 (Or.inl h)
    have hh : skin.height ≠ 0 := fun h => h0 (Or.inr h)
    have hp := length_probedParts_le skin slimArms
    obtain ⟨-, hb, ho⟩ := meshOf_spec skin slimArms _ hp
    have hl := meshOf_length skin slimArms _ hp
    rw [BuildPlayerMesh_eq skin slimArms hw hh, hb, ho, hl]
    refine ⟨by simp [length_blockIndices], by rw [length_blockIndices]; omega, ?_, ?_⟩
    · intro k hk
      have := mem_blockIndices hk
      omega
    · intro k hk
      have := mem_blockIndices hk
      omega

/-- C10. Mesh size and split. `AddFace` appends 4 vertices and 6 indices and
`AddBox` appends 24 vertices and 36 indices, both leaving the earlier entries
in place. For an image of non-zero width and height the first 144 vertices of
the built mesh are the six base boxes in the order head, torso, right arm,
right leg, left arm, left leg, `indicesBase` has 216 entries all below 144, and
with `n` overlay parts present there are `144 + 24 n` vertices and `36 n`
overlay indices, every one of them at least 144, so that no index occurs in
both lists. -/
theorem mesh_size_and_split :
    (∀ (v : List Vertex) (i : List Nat) (p0 p1 p2 p3 n : XMFLOAT3) (r : UvRectPx)
        (tw th : Nat),
        ∃ vs js, AddFace v i p0 p1 p2 p3 n r tw th = (v ++ vs, i ++ js) ∧
          vs.length = 4 ∧ js.length = 6) ∧
    (∀ (v : List Vertex) (i : List Nat) (c sz : XMFLOAT3) (uv : BoxUv) (tw th : Nat),
        ∃ vs js, AddBox v i c sz uv tw th = (v ++ vs, i ++ js) ∧
          vs.length = 24 ∧ js.length = 36) ∧
    (∀ (skin : SkinInfo) (slimArms : Bool), skin.width ≠ 0 → skin.height ≠ 0 →
        ((BuildPlayerMesh skin slimArms).vertices.take 144 =
          [BasePart.head, BasePart.torso, BasePart.rightArm, BasePart.rightLeg,
            BasePart.leftArm, BasePart.leftLeg].flatMap (fun p =>
              boxVertices (baseBox skin slimArms p).center (baseBox skin slimArms p).size
                (baseBox skin slimArms p).uv skin.width skin.height)) ∧
        (BuildPlayerMesh skin slimArms).indicesBase.length = 216 ∧
        (∀ k ∈ (BuildPlayerMesh skin slimArms).indicesBase, k < 144) ∧
        (BuildPlayerMesh skin slimArms).vertices.length =
          144 + 24 * (probedParts skin slimArms).length ∧
        (BuildPlayerMesh skin slimArms).indicesOverlay.length =
          36 * (probedParts skin slimArms).length ∧
        (∀ k ∈ (BuildPlayerMesh skin slimArms).indicesOverlay, 144 ≤ k) ∧
        (∀ k ∈ (BuildPlayerMesh skin slimArms).indicesBase,
          k ∉ (BuildPlayerMesh skin slimArms).indicesOverlay)) := by
  refine ⟨AddFace_append, AddBox_append, ?_⟩
  intro skin slimArms hw hh
  have hp := length_probedParts_le skin slimArms
  obtain ⟨hv, hb, ho⟩ := meshOf_spec skin slimArms _ hp
  have hl := meshOf_length skin slimArms _ hp
  rw [BuildPlayerMesh_eq skin slimArms hw hh, hb, ho, hl, hv]
  refine ⟨?_, by simp [length_blockIndices], ?_, rfl, length_blockIndices _ _, ?_, ?_⟩
  · rw [List.take_left' (baseMesh_length skin slimArms), baseMesh_vertices]; rfl
  · intro k hk
    have := mem_blockIndices hk
    omega
  · intro k hk
    have := mem_blockIndices hk
    omega
  · intro k hk hk'
    have := mem_blockIndices hk
    have := mem_blockIndices hk'
    omega

/-- Witness of C10 on a 1x1 transparent image: six base boxes, no overlay. -/
theorem mesh_size_and_split_witness :
    (BuildPlayerMesh { width := 1, height := 1, rgba := [0, 0, 0, 0] } false).indicesBase.length
      = 216 :=
  (mesh_size_and_split.2.2 { width := 1, height := 1, rgba := [0, 0, 0, 0] } false
    (by decide) (by decide)).2.1

/-- C7. For a 64x32 texture, classified as the loader does, and either value of
`slimArms`: the legacy flag is set, `has64` (supportsSecondaryLimbs) is false,
the left-arm and left-leg base boxes (vertices 96..119 and 120..143) carry
vertex for vertex the texture coordinates of the right-arm and right-leg base
boxes (vertices 48..71 and 72..95), all four being built from the classic
right-limb face sets, and no left sleeve or left pants box is emitted. -/
theorem legacy_mirrors_right_limbs (skin : SkinInfo) (slimArms : Bool)
    (hw : skin.width = 64) (hh : skin.height = 32) (hc : Classified skin) :
    skin.legacy64x32 = true ∧ has64 skin = false ∧
      (((BuildPlayerMesh skin slimArms).vertices.drop 96).take 24).map (fun v => v.uv) =
        (((BuildPlayerMesh skin slimArms).vertices.drop 48).take 24).map (fun v => v.uv) ∧
      (((BuildPlayerMesh skin slimArms).vertices.drop 120).take 24).map (fun v => v.uv) =
        (((BuildPlayerMesh skin slimArms).vertices.drop 72).take 24).map (fun v => v.uv) ∧
      baseUv skin slimArms BasePart.rightArm = ScaleBoxUv UV_RightArm skin.scale ∧
      baseUv skin slimArms BasePart.leftArm = ScaleBoxUv UV_RightArm skin.scale ∧
      baseUv skin slimArms BasePart.rightLeg = ScaleBoxUv UV_RightLeg skin.scale ∧
      baseUv skin slimArms BasePart.leftLeg = ScaleBoxUv UV_RightLeg skin.scale ∧
      BuildPlayerMesh skin slimArms = meshOf skin slimArms (probedParts skin slimArms) ∧
      OverlayPart.leftSleeve ∉ probedParts skin slimArms ∧
      OverlayPart.leftPants ∉ probedParts skin slimArms := by
  have hl : skin.legacy64x32 = true := by
    rw [hc.1, hw, hh]; rfl
  have h64 : has64 skin = false := has64_legacy skin hl
  have hw0 : skin.width ≠ 0 := by omega
  have hh0 : skin.height ≠ 0 := by omega
  have e1 : baseUv skin slimArms BasePart.rightArm = ScaleBoxUv UV_RightArm skin.scale := by
    simp [baseUv, armW, h64]
  have e2 : baseUv skin slimArms BasePart.leftArm = ScaleBoxUv UV_RightArm skin.scale := by
    simp [baseUv, h64]
  have e3 : baseUv skin slimArms BasePart.rightLeg = ScaleBoxUv UV_RightLeg skin.scale := rfl
  have e4 : baseUv skin slimArms BasePart.leftLeg = ScaleBoxUv UV_RightLeg skin.scale := by
    simp [baseUv, h64]
  have b2 := baseBlock skin slimArms hw0 hh0 2 BasePart.rightArm rfl
  have b3 := baseBlock skin slimArms hw0 hh0 3 BasePart.rightLeg rfl
  have b4 := baseBlock skin slimArms hw0 hh0 4 BasePart.leftArm rfl
  have b5 := baseBlock skin slimArms hw0 hh0 5 BasePart.leftLeg rfl
  norm_num at b2 b3 b4 b5
  refine ⟨hl, h64, ?_, ?_, e1, e2, e3, e4, BuildPlayerMesh_eq skin slimArms hw0 hh0, ?_, ?_⟩
  · rw [b4, b2]
    simp only [baseBox, e1, e2]
    exact boxVertices_uv _ _ _ _ _ _ _
  · rw [b5, b3]
    simp only [baseBox, e3, e4]
    exact boxVertices_uv _ _ _ _ _ _ _
  · simp [probedParts, present, eligible, h64, OverlayPart.all, List.mem_filter]
  · simp [probedParts, present, eligible, h64, OverlayPart.all, List.mem_filter]

/-- Witness of C7 on the fully transparent 64x32 texture. -/
theorem legacy_mirrors_right_limbs_witness :
    has64 { width := 64, height := 32, scale := 1, legacy64x32 := true,
            rgba := List.replicate 8192 0 } = false :=
  (legacy_mirrors_right_limbs
    { width := 64, height := 32, scale := 1, legacy64x32 := true,
      rgba := List.replicate 8192 0 } true rfl rfl (by decide)).2.1

/-- C2. For every representable image and every scale with `64 * scale` below
`2^31`, `SanitizeMinecraftBaseAlpha` succeeds, keeps the dimensions, and
afterwards every in-bounds pixel inside one of the four always-present base
rectangles scaled by `k = scale` (head `(0,0,32k,16k)`, torso
`(16k,16k,24k,16k)`, right arm `(40k,16k,16k,16k)`, right leg
`(0,16k,16k,16k)`) has alpha byte 255. -/
theorem sanitize_base_opaque (s : SkinInfo) (hs : s.Fits)
    (hk : 64 * s.scale < 2147483648) :
    ∃ s', SanitizeMinecraftBaseAlpha s = some s' ∧ s'.width = s.width ∧
      s'.height = s.height ∧
      ∀ x y, x < s.width → y < s.height →
        (∃ r ∈ baseRegions s.scale, r.contains x y) → alphaAt s' x y = 255 := by
  obtain ⟨rgba, h1, -, h3⟩ := Sanitize_spec s hs hk
  refine ⟨s.withRgba rgba, h1, rfl, rfl, ?_⟩
  intro x y hx hy hr
  rw [alphaAt, h3 x y 3 hx hy (by omega), if_pos ⟨rfl, Or.inl hr⟩]

/-- Witness of C2 on the blank 64x64 skin. -/
theorem sanitize_base_opaque_witness :
    ∃ s', SanitizeMinecraftBaseAlpha (blankSkin 64 64) = some s' ∧
      s'.width = (blankSkin 64 64).width ∧ s'.height = (blankSkin 64 64).height ∧
      ∀ x y, x < (blankSkin 64 64).width → y < (blankSkin 64 64).height →
        (∃ r ∈ baseRegions (blankSkin 64 64).scale, r.contains x y) → alphaAt s' x y = 255 :=
  sanitize_base_opaque (blankSkin 64 64)
    ⟨List.length_replicate _ _, by decide, by decide, by decide⟩ (by decide)

/-- C4, as stated, fails: on the blank 64x64 skin (scale 1, not legacy) the
sanitizer succeeds and changes the alpha of pixel (32, 48), which lies outside
the four always-present base rectangles (it is in the left-arm rectangle). -/
theorem sanitize_frame_counterexample :
    ∃ s', SanitizeMinecraftBaseAlpha (blankSkin 64 64) = some s' ∧
      ¬ (∃ r ∈ baseRegions (blankSkin 64 64).scale, r.contains 32 48) ∧
      alphaAt (blankSkin 64 64) 32 48 = 0 ∧ alphaAt s' 32 48 = 255 := by
  obtain ⟨rgba, h1, -, h3⟩ := Sanitize_spec (blankSkin 64 64) blankSkin_Fits_64 (by decide)
  refine ⟨_, h1, by decide, ?_, ?_⟩
  · unfold alphaAt byteAt blankSkin
    exact getD_replicate_zero _ _
  · rw [alphaAt, h3 32 48 3 (by decide) (by decide) (by decide), if_pos]
    exact ⟨rfl, Or.inr (by decide)⟩

/-- C4, amended. For every representable image with `64 * scale` below `2^31`,
`SanitizeMinecraftBaseAlpha` succeeds, keeps every field but `rgba` and the
length of `rgba`, and leaves all four bytes of every in-bounds pixel unchanged
that lies outside the four always-present scaled base rectangles and, when the
texture has secondary limbs (`has64`: not legacy and height at least
`64 * scale`), also outside the scaled left-arm `(32k,48k,16k,16k)` and
left-leg `(16k,48k,16k,16k)` rectangles. -/
theorem sanitize_frame (s : SkinInfo) (hs : s.Fits) (hk : 64 * s.scale < 2147483648) :
    ∃ s', SanitizeMinecraftBaseAlpha s = some s' ∧ s'.width = s.width ∧
      s'.height = s.height ∧ s'.scale = s.scale ∧ s'.legacy64x32 = s.legacy64x32 ∧
      s'.hasAlpha = s.hasAlpha ∧ s'.rgba.length = s.rgba.length ∧
      ∀ x y, x < s.width → y < s.height →
        ¬ (∃ r ∈ baseRegions s.scale, r.contains x y) →
        ¬ (has64 s = true ∧ ∃ r ∈ secondaryRegions s.scale, r.contains x y) →
        ∀ c, c < 4 → byteAt s' x y c = byteAt s x y c := by
  obtain ⟨rgba, h1, h2, h3⟩ := Sanitize_spec s hs hk
  refine ⟨s.withRgba rgba, h1, rfl, rfl, rfl, rfl, rfl, h2, ?_⟩
  intro x y hx hy hb hsec c hc
  rw [h3 x y c hx hy hc, if_neg]
  rintro ⟨-, h | h⟩
  · exact hb h
  · exact hsec h

/-- Witness of the amended C4 on the blank 64x64 skin. -/
theorem sanitize_frame_witness :
    ∃ s', SanitizeMinecraftBaseAlpha (blankSkin 64 64) = some s' ∧
      s'.width = (blankSkin 64 64).width ∧
      s'.height = (blankSkin 64 64).height ∧ s'.scale = (blankSkin 64 64).scale ∧
      s'.legacy64x32 = (blankSkin 64 64).legacy64x32 ∧
      s'.hasAlpha = (blankSkin 64 64).hasAlpha ∧
      s'.rgba.length = (blankSkin 64 64).rgba.length ∧
      ∀ x y, x < (blankSkin 64 64).width → y < (blankSkin 64 64).height →
        ¬ (∃ r ∈ baseRegions (blankSkin 64 64).scale, r.contains x y) →
        ¬ (has64 (blankSkin 64 64) = true ∧
            ∃ r ∈ secondaryRegions (blankSkin 64 64).scale, r.contains x y) →
        ∀ c, c < 4 → byteAt s' x y c = byteAt (blankSkin 64 64) x y c :=
  sanitize_frame (blankSkin 64 64)
    ⟨List.length_replicate _ _, by decide, by decide, by decide⟩ (by decide)

/-- C5. Sanitization never touches overlay regions: for every representable
image with `64 * scale` below `2^31`, `SanitizeMinecraftBaseAlpha` succeeds,
keeps the dimensions and the buffer length, changes no R, G or B byte, and
leaves all four bytes unchanged of every in-bounds pixel inside a scaled face
rectangle of an overlay part (hat, jacket, right and left sleeve in the classic
and slim variants, right and left pants). -/
theorem sanitize_keeps_overlay (s : SkinInfo) (hs : s.Fits)
    (hk : 64 * s.scale < 2147483648) :
    ∃ s', SanitizeMinecraftBaseAlpha s = some s' ∧ s'.width = s.width ∧
      s'.height = s.height ∧ s'.rgba.length = s.rgba.length ∧
      (∀ x y c, x < s.width → y < s.height → c < 3 → byteAt s' x y c = byteAt s x y c) ∧
      (∀ b ∈ overlayAtlas, ∀ r ∈ (ScaleBoxUv b s.scale).faces, ∀ x y,
        x < s.width → y < s.height → r.contains x y →
        ∀ c, c < 4 → byteAt s' x y c = byteAt s x y c) := by
  obtain ⟨rgba, h1, h2, h3⟩ := Sanitize_spec s hs hk
  refine ⟨s.withRgba rgba, h1, rfl, rfl, h2, ?_, ?_⟩
  · intro x y c hx hy hc
    rw [h3 x y c hx hy (by omega), if_neg]
    rintro ⟨hc3, -⟩
    omega
  · intro b hb r hr x y hx hy hcont c hc
    obtain ⟨d1, d2⟩ := overlay_disjoint hk b hb r hr x y hcont
    rw [h3 x y c hx hy hc, if_neg]
    rintro ⟨-, h | h⟩
    · exact d1 h
    · exact d2 h.2

/-- Witness of C5 on the blank 64x64 skin. -/
theorem sanitize_keeps_overlay_witness :
    ∃ s', SanitizeMinecraftBaseAlpha (blankSkin 64 64) = some s' ∧
      s'.width = (blankSkin 64 64).width ∧
      s'.height = (blankSkin 64 64).height ∧
      s'.rgba.length = (blankSkin 64 64).rgba.length ∧
      (∀ x y c, x < (blankSkin 64 64).width → y < (blankSkin 64 64).height → c < 3 →
        byteAt s' x y c = byteAt (blankSkin 64 64) x y c) ∧
      (∀ b ∈ overlayAtlas, ∀ r ∈ (ScaleBoxUv b (blankSkin 64 64).scale).faces, ∀ x y,
        x < (blankSkin 64 64).width → y < (blankSkin 64 64).height → r.contains x y →
        ∀ c, c < 4 → byteAt s' x y c = byteAt (blankSkin 64 64) x y c) :=
  sanitize_keeps_overlay (blankSkin 64 64)
    ⟨List.length_replicate _ _, by decide, by decide, by decide⟩ (by decide)

/-- C3. Base-layer opacity is guaranteed by sanitization. For every
representable image classified as `LoadSkinPngWIC` does and both values of
`slimArms`, `SanitizeMinecraftBaseAlpha` succeeds and keeps the dimensions;
every pixel of a face rectangle `BuildPlayerMesh` assigns to a base box lies in
a sanitized region (one of the four base regions, or under `has64` one of the
two secondary ones); hence every in-bounds pixel of these rectangles has alpha
255 afterwards; and the `i`-th block of 24 vertices of the mesh built from the
sanitized skin is the box textured from the `i`-th of these face sets. -/
theorem base_rects_sanitized (s : SkinInfo) (slimArms : Bool) (hs : s.Fits)
    (hc : Classified s) :
    ∃ s', SanitizeMinecraftBaseAlpha s = some s' ∧ s'.width = s.width ∧
      s'.height = s.height ∧
      (∀ p : BasePart, ∀ r ∈ (baseUv s' slimArms p).faces, ∀ x y, r.contains x y →
        (∃ q ∈ baseRegions s.scale, q.contains x y) ∨
          (has64 s = true ∧ ∃ q ∈ secondaryRegions s.scale, q.contains x y)) ∧
      (∀ p : BasePart, ∀ r ∈ (baseUv s' slimArms p).faces, ∀ x y,
        x < s.width → y < s.height → r.contains x y → alphaAt s' x y = 255) ∧
      (s.width ≠ 0 → s.height ≠ 0 → ∀ i p, BasePart.all.get? i = some p →
        ((BuildPlayerMesh s' slimArms).vertices.drop (24 * i)).take 24 =
          boxVertices (partCenter s' slimArms p) (partSize s' slimArms p)
            (baseUv s' slimArms p) s.width s.height) := by
  have hk := classified_scale hs hc
  obtain ⟨rgba, h1, -, h3⟩ := Sanitize_spec s hs hk
  refine ⟨s.withRgba rgba, h1, rfl, rfl, ?_, ?_, ?_⟩
  · intro p r hr x y hcont
    exact base_in_regions s slimArms hk p r hr x y hcont
  · intro p r hr x y hx hy hcont
    rw [alphaAt, h3 x y 3 hx hy (by omega),
      if_pos ⟨rfl, base_in_regions s slimArms hk p r hr x y hcont⟩]
  · intro hw hh i p hi
    exact baseBlock (s.withRgba rgba) slimArms hw hh i p hi

/-- Witness of C3 on the blank 64x64 skin with slim arms. -/
theorem base_rects_sanitized_witness :
    ∃ s', SanitizeMinecraftBaseAlpha (blankSkin 64 64) = some s' ∧
      s'.width = (blankSkin 64 64).width ∧ s'.height = (blankSkin 64 64).height ∧
      (∀ p : BasePart, ∀ r ∈ (baseUv s' true p).faces, ∀ x y, r.contains x y →
        (∃ q ∈ baseRegions (blankSkin 64 64).scale, q.contains x y) ∨
          (has64 (blankSkin 64 64) = true ∧
            ∃ q ∈ secondaryRegions (blankSkin 64 64).scale, q.contains x y)) ∧
      (∀ p : BasePart, ∀ r ∈ (baseUv s' true p).faces, ∀ x y,
        x < (blankSkin 64 64).width → y < (blankSkin 64 64).height → r.contains x y →
        alphaAt s' x y = 255) ∧
      ((blankSkin 64 64).width ≠ 0 → (blankSkin 64 64).height ≠ 0 →
        ∀ i p, BasePart.all.get? i = some p →
        ((BuildPlayerMesh s' true).vertices.drop (24 * i)).take 24 =
          boxVertices (partCenter s' true p) (partSize s' true p)
            (baseUv s' true p) (blankSkin 64 64).width (blankSkin 64 64).height) :=
  base_rects_sanitized (blankSkin 64 64) true
    ⟨List.length_replicate _ _, by decide, by decide, by decide⟩ (by decide)

/-- C6. Texture classification, for all positive width and height: the scale is
`width / 64` when `width = height` and `width` is a multiple of 64, and 1
otherwise; the legacy flag is set iff the size is 64x32; the scale is at least
1; a `64k x 64k` texture with `k >= 1` gets scale `k` and is not legacy; and
every skin `LoadSkinPngWIC` produces carries exactly this profile. -/
theorem classification (w h : Nat) (hw : 0 < w) (hh : 0 < h) :
    (w = h ∧ w % 64 = 0 → (classify w h).2 = w / 64) ∧
      (¬ (w = h ∧ w % 64 = 0) → (classify w h).2 = 1) ∧
      ((classify w h).1 = true ↔ w = 64 ∧ h = 32) ∧
      1 ≤ (classify w h).2 ∧
      (∀ k, 1 ≤ k → w = 64 * k → h = 64 * k → classify w h = (false, k)) ∧
      (∀ pixels s, LoadSkin w h pixels = some s →
        s.width = w ∧ s.height = h ∧ s.legacy64x32 = (classify w h).1 ∧
          s.scale = (classify w h).2) := by
  refine ⟨?_, ?_, ?_, ?_, ?_, ?_⟩
  · intro hc; simp only [classify, if_pos hc]
  · intro hc; simp only [classify, if_neg hc]
  · simp [classify]
  · simp only [classify]; split_ifs <;> omega
  · intro k hk e1 e2
    subst e1 e2
    have h1 : ¬ (64 * k = 64 ∧ 64 * k = 32) := by omega
    have h2 : 64 * k % 64 = 0 := by omega
    have h3 : 64 * k / 64 = k := by omega
    simp only [classify, h1, h2, h3, decide_False, and_self, if_true]
  · intro pixels s he
    exact LoadSkin_fields he

/-- Witness of C6 on a 128x128 texture. -/
theorem classification_witness : classify 128 128 = (false, 2) :=
  (classification 128 128 (by decide) (by decide)).2.2.2.2.1 2 (by decide) rfl rfl

/-- C8. For every representable image and every rectangle whose edges
`x + w`, `y + h` are representable, `AnyNonTransparent` returns true iff some
pixel `(x, y)` with `max(0, r.x) <= x < min(width, r.x + r.w)` and
`max(0, r.y) <= y < min(height, r.y + r.h)` has a non-zero alpha byte; it
returns false when the rectangle lies fully outside the image and, for any
skin and rectangle, when the image is empty; and the overlay boxes of the built
mesh are those of the eligible parts for which the test succeeds on one of the
six face rectangles. -/
theorem AnyNonTransparent_iff :
    (∀ (s : SkinInfo) (r : UvRectPx), s.Fits → r.Fits →
      ((AnyNonTransparent s r = true ↔
          ∃ x y : Int, max 0 r.x ≤ x ∧ x < min (s.width : Int) (r.x + r.w) ∧
            max 0 r.y ≤ y ∧ y < min (s.height : Int) (r.y + r.h) ∧
            alphaAt s x.toNat y.toNat ≠ 0) ∧
        ((s.width : Int) ≤ r.x ∨ r.x + r.w ≤ 0 ∨ (s.height : Int) ≤ r.y ∨ r.y + r.h ≤ 0 →
          AnyNonTransparent s r = false))) ∧
    (∀ (s : SkinInfo) (r : UvRectPx), s.rgba = [] ∨ s.width = 0 ∨ s.height = 0 →
      AnyNonTransparent s r = false) ∧
    (∀ (s : SkinInfo) (slimArms : Bool), s.width ≠ 0 → s.height ≠ 0 →
      BuildPlayerMesh s slimArms =
        meshOf s slimArms (OverlayPart.all.filter fun p =>
          eligible s p && (overlayUv s slimArms p).faces.any (AnyNonTransparent s))) := by
  refine ⟨?_, AnyNonTransparent_empty, ?_⟩
  · intro s r hs hr
    have key : AnyNonTransparent s r = true ↔
        ∃ x y : Int, max 0 r.x ≤ x ∧ x < min (s.width : Int) (r.x + r.w) ∧
          max 0 r.y ≤ y ∧ y < min (s.height : Int) (r.y + r.h) ∧
          alphaAt s x.toNat y.toNat ≠ 0 := by
      rw [AnyNonTransparent_iff_exists hs hr]
      constructor
      · rintro ⟨x, y, hx, hy, ⟨h1, h2, h3, h4⟩, hne⟩
        refine ⟨x, y, by omega, by omega, by omega, by omega, ?_⟩
        simpa using hne
      · rintro ⟨x, y, h1, h2, h3, h4, hne⟩
        lift x to ℕ using (by omega)
        lift y to ℕ using (by omega)
        simp only [Int.toNat_ofNat] at hne
        exact ⟨x, y, by omega, by omega, ⟨by omega, by omega, by omega, by omega⟩, hne⟩
    refine ⟨key, ?_⟩
    intro hout
    rw [← Bool.not_eq_true, key]
    rintro ⟨x, y, h1, h2, h3, h4, -⟩
    omega
  · intro s slimArms hw hh
    exact BuildPlayerMesh_eq s slimArms hw hh

/-- Witness of C8: a 1x1 image whose only pixel has alpha 9, probed on the
rectangle (0, 0, 1, 1). -/
theorem AnyNonTransparent_iff_witness :
    AnyNonTransparent { width := 1, height := 1, rgba := [0, 0, 0, 9] } ⟨0, 0, 1, 1⟩ = true ↔
      ∃ x y : Int, max 0 (0 : Int) ≤ x ∧ x < min (1 : Int) (0 + 1) ∧
        max 0 (0 : Int) ≤ y ∧ y < min (1 : Int) (0 + 1) ∧
        alphaAt { width := 1, height := 1, rgba := [0, 0, 0, 9] } x.toNat y.toNat ≠ 0 :=
  (AnyNonTransparent_iff.1 { width := 1, height := 1, rgba := [0, 0, 0, 9] } ⟨0, 0, 1, 1⟩
    ⟨by decide, by decide, by decide, by decide⟩ (by decide)).1

/-- C1. For every representable image of non-zero width and height with
`64 * scale` below `2^31`, the built mesh consists of the six base boxes
followed by the boxes (24 vertices, 36 overlay indices each) of exactly those
overlay parts that are eligible (hat, jacket, right sleeve, right pants always;
left sleeve and left pants only under `has64`) and have an in-bounds pixel of
non-zero alpha inside one of their six scaled face rectangles. -/
theorem overlay_iff_visible (s : SkinInfo) (slimArms : Bool) (hs : s.Fits)
    (hk : 64 * s.scale < 2147483648) (hw : s.width ≠ 0) (hh : s.height ≠ 0) :
    BuildPlayerMesh s slimArms = meshOf s slimArms (visibleParts s slimArms) ∧
      (∀ p, p ∈ visibleParts s slimArms ↔
        eligible s p = true ∧ visible s (overlayUv s slimArms p)) ∧
      (BuildPlayerMesh s slimArms).vertices =
        (baseMesh s slimArms).vertices ++
          (visibleParts s slimArms).flatMap (fun p =>
            boxVertices (overlayBox s slimArms p).center (overlayBox s slimArms p).size
              (overlayBox s slimArms p).uv s.width s.height) ∧
      (BuildPlayerMesh s slimArms).vertices.length =
        144 + 24 * (visibleParts s slimArms).length ∧
      (BuildPlayerMesh s slimArms).indicesOverlay.length =
        36 * (visibleParts s slimArms).length := by
  have he := probedParts_eq_visibleParts s slimArms hs hk
  have hp := length_probedParts_le s slimArms
  rw [he] at hp
  have hm : BuildPlayerMesh s slimArms = meshOf s slimArms (visibleParts s slimArms) := by
    rw [BuildPlayerMesh_eq s slimArms hw hh, he]
  obtain ⟨hv, -, ho⟩ := meshOf_spec s slimArms _ hp
  refine ⟨hm, ?_, ?_, ?_, ?_⟩
  · intro p
    simp only [visibleParts, List.mem_filter, Bool.and_eq_true, decide_eq_true_iff]
    constructor
    · exact fun h => h.2
    · intro h
      exact ⟨by cases p <;> simp [OverlayPart.all], h⟩
  · rw [hm, hv]
  · rw [hm, meshOf_length s slimArms _ hp]
  · rw [hm, ho, length_blockIndices]

/-- Witness of C1, the example of the claim: a 64x64 image whose only non-zero
alpha is the pixel (41, 3) of the hat top face gives 36 overlay indices. -/
theorem overlay_iff_visible_witness :
    (BuildPlayerMesh (onePixelSkin 64 64 41 3 9) false).indicesOverlay.length = 36 := by
  have h := (overlay_iff_visible (onePixelSkin 64 64 41 3 9) false
    ⟨by simp only [onePixelSkin, withRgba_rgba, List.length_set]; exact List.length_replicate _ _,
      by decide, by decide, by decide⟩
    (by decide) (by decide) (by decide)).2.2.2.2
  rw [h, visibleParts_hat]
  rfl

/-- C16. For every image with `width == 0` or `height == 0` and both values of
`slimArms`, `BuildPlayerMesh` returns the empty mesh: no vertices, no base
indices, no overlay indices. -/
theorem empty_image_empty_mesh (skin : SkinInfo) (slimArms : Bool)
    (h : skin.width = 0 ∨ skin.height = 0) :
    BuildPlayerMesh skin slimArms = ⟨[], [], []⟩ := by
  unfold BuildPlayerMesh
  rw [if_pos h]

/-- Witness of C16 on the 0x0 image. -/
theorem empty_image_empty_mesh_witness :
    BuildPlayerMesh { width := 0, height := 0, rgba := [] } true = ⟨[], [], []⟩ :=
  empty_image_empty_mesh { width := 0, height := 0, rgba := [] } true (Or.inl rfl)

/-- C13, the code at a failing input: the fully opaque 2x1 image with a white
and a black pixel loads with both alpha bytes 255 and `hasAlpha = true`,
because the detection reads every byte from offset 3 on, colour bytes
included. -/
theorem hasAlpha_reads_colour_bytes :
    LoadSkin 2 1 [255, 255, 255, 255, 0, 0, 0, 255] =
        some { width := 2, height := 1, scale := 1, legacy64x32 := false, hasAlpha := true,
               rgba := [255, 255, 255, 255, 0, 0, 0, 255] } ∧
      alphaAt { width := 2, height := 1, scale := 1, legacy64x32 := false, hasAlpha := true,
                rgba := [255, 255, 255, 255, 0, 0, 0, 255] } 0 0 = 255 ∧
      alphaAt { width := 2, height := 1, scale := 1, legacy64x32 := false, hasAlpha := true,
                rgba := [255, 255, 255, 255, 0, 0, 0, 255] } 1 0 = 255 := by
  decide

set_option maxRecDepth 100000 in
/-- C12, as stated, fails: the fully opaque 41x1 image is non-conforming, loads
with scale 1 and the legacy flag off, and its mesh has a hat box (36 overlay
indices), since pixel (40, 0) lies in the hat top face. -/
theorem nonconforming_counterexample :
    (LoadSkin 41 1 (List.replicate 164 255)).map
      (fun s => (s.scale, s.legacy64x32, (BuildPlayerMesh s false).indicesOverlay.length)) =
      some (1, false, 36) := by
  decide

/-- C12, amended. For every non-conforming texture (positive dimensions,
neither 64x32 nor a square whose side is a multiple of 64) within the 32-bit
range and both values of `slimArms`, loading succeeds with scale 1 and the
legacy flag off, and the built mesh consists of the six base boxes (216 base
indices) followed by the box of every eligible overlay part that has a visible
pixel: `indicesOverlay` has 36 entries per such part and is empty exactly when
there is none. -/
theorem nonconforming_degrades (w h : Nat) (pixels : List Nat) (slimArms : Bool)
    (hw0 : 0 < w) (hh0 : 0 < h) (hl : pixels.length = w * h * 4)
    (hw : w < 2147483648) (hh : h < 2147483648) (hp : w * h ≤ 4294967296)
    (h1 : ¬ (w = 64 ∧ h = 32)) (h2 : ¬ (w = h ∧ w % 64 = 0)) :
    ∃ s, LoadSkin w h pixels = some s ∧ s.width = w ∧ s.height = h ∧ s.scale = 1 ∧
      s.legacy64x32 = false ∧
      BuildPlayerMesh s slimArms = meshOf s slimArms (visibleParts s slimArms) ∧
      (BuildPlayerMesh s slimArms).vertices.take 144 = (baseMesh s slimArms).vertices ∧
      (BuildPlayerMesh s slimArms).indicesBase.length = 216 ∧
      (BuildPlayerMesh s slimArms).indicesOverlay.length =
        36 * (visibleParts s slimArms).length ∧
      ((BuildPlayerMesh s slimArms).indicesOverlay = [] ↔ visibleParts s slimArms = []) := by
  obtain ⟨s, e, ew, eh, es, el, hs, hk, -, -⟩ := LoadSkin_spec w h pixels hl hw hh hp
  have hsw : s.width ≠ 0 := by omega
  have hsh : s.height ≠ 0 := by omega
  have he := probedParts_eq_visibleParts s slimArms hs hk
  have hpl := length_probedParts_le s slimArms
  rw [he] at hpl
  have hm : BuildPlayerMesh s slimArms = meshOf s slimArms (visibleParts s slimArms) := by
    rw [BuildPlayerMesh_eq s slimArms hsw hsh, he]
  obtain ⟨hv, hb, ho⟩ := meshOf_spec s slimArms _ hpl
  have hlen : (BuildPlayerMesh s slimArms).indicesOverlay.length =
      36 * (visibleParts s slimArms).length := by
    rw [hm, ho, length_blockIndices]
  refine ⟨s, e, ew, eh, ?_, ?_, hm, ?_, ?_, hlen, ?_⟩
  · rw [es]; simp only [classify, if_neg h2]
  · rw [el]; simp only [classify, decide_eq_false_iff_not]; exact h1
  · rw [hm, hv, List.take_left' (baseMesh_length s slimArms)]
  · rw [hm, hb, length_blockIndices]
  · rw [← List.length_eq_zero, ← List.length_eq_zero, hlen]
    omega

/-- Witness of the amended C12 on the fully opaque 41x1 image. -/
theorem nonconforming_degrades_witness :
    ∃ s, LoadSkin 41 1 (List.replicate 164 255) = some s ∧ s.width = 41 ∧ s.height = 1 ∧
      s.scale = 1 ∧ s.legacy64x32 = false ∧
      BuildPlayerMesh s true = meshOf s true (visibleParts s true) ∧
      (BuildPlayerMesh s true).vertices.take 144 = (baseMesh s true).vertices ∧
      (BuildPlayerMesh s true).indicesBase.length = 216 ∧
      (BuildPlayerMesh s true).indicesOverlay.length = 36 * (visibleParts s true).length ∧
      ((BuildPlayerMesh s true).indicesOverlay = [] ↔ visibleParts s true = []) :=
  nonconforming_degrades 41 1 (List.replicate 164 255) true (by decide) (by decide)
    (List.length_replicate _ _) (by decide) (by decide) (by decide) (by decide) (by decide)

/-- C11, as stated, fails for the sleeves: on the 64x64 skin whose only visible
pixel is (44, 36), in the right sleeve front face, the single overlay box
(block 6) is the right sleeve, and its half-width along x is 2.25 with classic
arms and 1.75 with slim arms, not 2.0 and 1.5. -/
theorem slim_toggle_counterexample :
    has64 (onePixelSkin 64 64 44 36 9) = true ∧
      probedParts (onePixelSkin 64 64 44 36 9) false = [OverlayPart.rightSleeve] ∧
      probedParts (onePixelSkin 64 64 44 36 9) true = [OverlayPart.rightSleeve] ∧
      halfWidthX ((BuildPlayerMesh (onePixelSkin 64 64 44 36 9) false).block 6) = 9 / 4 ∧
      halfWidthX ((BuildPlayerMesh (onePixelSkin 64 64 44 36 9) true).block 6) = 7 / 4 := by
  have h64 : has64 (onePixelSkin 64 64 44 36 9) = true := by decide
  refine ⟨h64, probedParts_sleeve false, probedParts_sleeve true, ?_, ?_⟩
  · rw [overlay_block_six _ false (by decide) (by decide) _ _ (probedParts_sleeve false),
      halfWidthX_overlayBox]
    simp only [OverlayPart.under, partSize, armW_of_has64 _ _ h64]
    norm_num
  · rw [overlay_block_six _ true (by decide) (by decide) _ _ (probedParts_sleeve true),
      halfWidthX_overlayBox]
    simp only [OverlayPart.under, partSize, armW_of_has64 _ _ h64]
    norm_num

/-- C11, amended. For every texture with secondary limbs (`has64`) and non-zero
size, toggling `slimArms` from false to true changes the half-width along x of
the two arm base boxes (blocks 2 and 4) from 2 to 1.5 and of the two sleeve
boxes from 2.25 to 1.75; the overlay part of either mesh is made of the boxes
`overlayBox` of the present parts; the blocks of the head, torso, right leg and
left leg (0, 1, 3, 5) are identical in the two meshes; and the hat, jacket,
right pants and left pants are present in one mesh iff in the other, with
identical 24 vertices. -/
theorem slim_toggle (s : SkinInfo) (hw : s.width ≠ 0) (hh : s.height ≠ 0)
    (h64 : has64 s = true) :
    (halfWidthX ((BuildPlayerMesh s false).block 2) = 2 ∧
      halfWidthX ((BuildPlayerMesh s false).block 4) = 2 ∧
      halfWidthX ((BuildPlayerMesh s true).block 2) = 3 / 2 ∧
      halfWidthX ((BuildPlayerMesh s true).block 4) = 3 / 2) ∧
    (∀ p ∈ [OverlayPart.rightSleeve, OverlayPart.leftSleeve],
      halfWidthX (boxVertices (overlayBox s false p).center (overlayBox s false p).size
        (overlayBox s false p).uv s.width s.height) = 9 / 4 ∧
      halfWidthX (boxVertices (overlayBox s true p).center (overlayBox s true p).size
        (overlayBox s true p).uv s.width s.height) = 7 / 4) ∧
    (∀ slimArms, (BuildPlayerMesh s slimArms).vertices =
      (baseMesh s slimArms).vertices ++
        (probedParts s slimArms).flatMap (fun p =>
          boxVertices (overlayBox s slimArms p).center (overlayBox s slimArms p).size
            (overlayBox s slimArms p).uv s.width s.height)) ∧
    (∀ i ∈ [0, 1, 3, 5],
      (BuildPlayerMesh s false).block i = (BuildPlayerMesh s true).block i) ∧
    (∀ p ∈ [OverlayPart.hat, OverlayPart.jacket, OverlayPart.rightPants,
        OverlayPart.leftPants],
      (p ∈ probedParts s false ↔ p ∈ probedParts s true) ∧
      boxVertices (overlayBox s false p).center (overlayBox s false p).size
          (overlayBox s false p).uv s.width s.height =
        boxVertices (overlayBox s true p).center (overlayBox s true p).size
          (overlayBox s true p).uv s.width s.height) := by
  refine ⟨⟨?_, ?_, ?_, ?_⟩, ?_, ?_, ?_, ?_⟩
  · rw [halfWidthX_baseBlock s false hw hh 2 BasePart.rightArm rfl]
    simp only [partSize, armW_of_has64 _ _ h64]; norm_num
  · rw [halfWidthX_baseBlock s false hw hh 4 BasePart.leftArm rfl]
    simp only [partSize, armW_of_has64 _ _ h64]; norm_num
  · rw [halfWidthX_baseBlock s true hw hh 2 BasePart.rightArm rfl]
    simp only [partSize, armW_of_has64 _ _ h64]; norm_num
  · rw [halfWidthX_baseBlock s true hw hh 4 BasePart.leftArm rfl]
    simp only [partSize, armW_of_has64 _ _ h64]; norm_num
  · intro p hp
    simp only [List.mem_cons, List.mem_singleton, List.not_mem_nil, or_false] at hp
    rcases hp with rfl | rfl <;>
      (rw [halfWidthX_overlayBox, halfWidthX_overlayBox]
       simp only [OverlayPart.under, partSize, armW_of_has64 _ _ h64]
       norm_num)
  · intro slimArms
    rw [BuildPlayerMesh_eq s slimArms hw hh,
      (meshOf_spec s slimArms _ (length_probedParts_le s slimArms)).1]
  · intro i hi
    simp only [List.mem_cons, List.mem_singleton, List.not_mem_nil, or_false] at hi
    rcases hi with rfl | rfl | rfl | rfl
    · rw [baseBlock_block s false hw hh 0 BasePart.head rfl,
        baseBlock_block s true hw hh 0 BasePart.head rfl]; rfl
    · rw [baseBlock_block s false hw hh 1 BasePart.torso rfl,
        baseBlock_block s true hw hh 1 BasePart.torso rfl]; rfl
    · rw [baseBlock_block s false hw hh 3 BasePart.rightLeg rfl,
        baseBlock_block s true hw hh 3 BasePart.rightLeg rfl]; rfl
    · rw [baseBlock_block s false hw hh 5 BasePart.leftLeg rfl,
        baseBlock_block s true hw hh 5 BasePart.leftLeg rfl]; rfl
  · intro p hp
    simp only [List.mem_cons, List.mem_singleton, List.not_mem_nil, or_false] at hp
    rcases hp with rfl | rfl | rfl | rfl <;>
      exact ⟨by simp [probedParts, present, eligible, overlayUv, List.mem_filter], rfl⟩

/-- Witness of the amended C11 on the blank 64x64 skin. -/
theorem slim_toggle_witness :
    halfWidthX ((BuildPlayerMesh (blankSkin 64 64) false).block 2) = 2 ∧
      halfWidthX ((BuildPlayerMesh (blankSkin 64 64) false).block 4) = 2 ∧
      halfWidthX ((BuildPlayerMesh (blankSkin 64 64) true).block 2) = 3 / 2 ∧
      halfWidthX ((BuildPlayerMesh (blankSkin 64 64) true).block 4) = 3 / 2 :=
  (slim_toggle (blankSkin 64 64) (by decide) (by decide) (by decide)).1

/-- C14. For every conforming texture (64x32, or `64k x 64k` with `k >= 1` and
side below `2^31`), classified as the loader does, every alpha content and
both values of `slimArms`, each vertex of the built mesh has both texture
coordinates, as exact rationals, in the closed interval [0, 1]. -/
theorem uv_in_unit_square (s : SkinInfo) (slimArms : Bool) (hc : Classified s)
    (hconf : (s.width = 64 ∧ s.height = 32) ∨
      (∃ k, 1 ≤ k ∧ s.width = 64 * k ∧ s.height = 64 * k ∧ 64 * k < 2147483648)) :
    ∀ v ∈ (BuildPlayerMesh s slimArms).vertices, v.uv.unit := by
  intro v hv
  rcases hconf with ⟨hw, hh⟩ | ⟨k, hk1, hw, hh, hk⟩
  · obtain ⟨hb, ho⟩ := legacy_uv_inside s slimArms hw hh hc
    rcases mem_mesh_vertices s slimArms (by omega) (by omega) v hv with ⟨p, h⟩ | ⟨p, hp, h⟩
    · rw [hw, hh] at h
      exact unit_of_inside _ _ _ 64 32 (by omega) (by omega) (by omega) (by omega) (hb p) v h
    · rw [hw, hh] at h
      exact unit_of_inside _ _ _ 64 32 (by omega) (by omega) (by omega) (by omega)
        (ho p hp) v h
  · have hs : s.scale = k := by
      rw [hc.2, hw, hh]
      simp only [classify]
      split_ifs with h
      · omega
      · exfalso; apply h; exact ⟨trivial, by omega⟩
    rcases mem_mesh_vertices s slimArms (by omega) (by omega) v hv with ⟨p, h⟩ | ⟨p, hp, h⟩
    · obtain ⟨b, hb, e⟩ := baseUv_mem s slimArms p
      rw [hw, hh, e, hs] at h
      exact unit_of_inside _ _ _ (64 * k) (64 * k) (by omega) (by omega) hk hk
        (atlas_inside hk b (List.mem_append_left _ hb)) v h
    · obtain ⟨b, hb, e⟩ := overlayUv_mem s slimArms p
      rw [hw, hh, e, hs] at h
      exact unit_of_inside _ _ _ (64 * k) (64 * k) (by omega) (by omega) hk hk
        (atlas_inside hk b (List.mem_append_right _ hb)) v h

/-- Witness of C14 on the blank 64x32 skin. -/
theorem uv_in_unit_square_witness :
    Classified (blankSkin 64 32) ∧
      ∀ v ∈ (BuildPlayerMesh (blankSkin 64 32) true).vertices, v.uv.unit :=
  ⟨by decide, uv_in_unit_square (blankSkin 64 32) true (by decide) (Or.inl ⟨rfl, rfl⟩)⟩

/-- C15. Mesh correctness is independent of scale: for every `k >= 1` with
`64 k` below `2^31`, a box textured from a scaled atlas face set on the
`64k x 64k` texture has exactly the vertices of the box textured from the
reference face set on the 64x64 texture (each texture coordinate is the
reference corner divided by 64), and the mesh built from a classified
`64k x 64k` skin is identical to the mesh built with the same `slimArms` from
any classified 64x64 skin that has the same overlay parts present. -/
theorem scale_independent (s s0 : SkinInfo) (slimArms : Bool) (k : Nat) (hk1 : 1 ≤ k)
    (hk : 64 * k < 2147483648) (hw : s.width = 64 * k) (hh : s.height = 64 * k)
    (hc : Classified s) (hw0 : s0.width = 64) (hh0 : s0.height = 64) (hc0 : Classified s0)
    (hp : probedParts s slimArms = probedParts s0 slimArms) :
    (∀ b ∈ baseAtlas ++ overlayAtlas, ∀ c sz : XMFLOAT3,
      boxVertices c sz (ScaleBoxUv b k) (64 * k) (64 * k) = boxVertices c sz b 64 64) ∧
      BuildPlayerMesh s slimArms = BuildPlayerMesh s0 slimArms := by
  constructor
  · intro b hb c sz
    unfold boxVertices
    rw [AddBox_scaled [] [] c sz b (atlas_ref b hb) k (by omega) hk]
  · obtain ⟨hs, -, h64⟩ := classified_square s k hk hw hh hc
    obtain ⟨hs0, -, h640⟩ := classified_square s0 1 (by omega) hw0 hh0 hc0
    rw [BuildPlayerMesh_eq s slimArms (by omega) (by omega),
      BuildPlayerMesh_eq s0 slimArms (by omega) (by omega), hp]
    exact meshOf_scaled s s0 slimArms k (by omega) hk hw hh hs hw0 hh0 hs0
      (by rw [h64, h640]) _

/-- Witness of C15: the blank 128x128 and 64x64 skins give the same mesh. -/
theorem scale_independent_witness :
    BuildPlayerMesh (blankSkin 128 128) false = BuildPlayerMesh (blankSkin 64 64) false :=
  (scale_independent (blankSkin 128 128) (blankSkin 64 64) false 2 (by decide) (by decide)
    rfl rfl (by decide) rfl rfl (by decide)
    (by
      rw [probedParts_eq_visibleParts _ _
          ⟨List.length_replicate _ _, by decide, by decide, by decide⟩ (by decide),
        probedParts_eq_visibleParts _ _
          ⟨List.length_replicate _ _, by decide, by decide, by decide⟩ (by decide),
        visibleParts_blankSkin, visibleParts_blankSkin])).2


/-- C18. For every box of positive size emitted by `AddBox` (24 vertices,
indices `boxIndices`): every vertex carries an axis-aligned unit normal and
lies on the side of the box centre that normal points to; the four vertices of
each face share their normal; each of the twelve triangles takes its three
vertices from one face (triangles `2f` and `2f + 1` from face `f`), and the
cross product `(p1 - p0) x (p2 - p0)` of its edges is a strictly negative
multiple of the face normal, so all twelve triangles have the same winding
with respect to the outward normal. -/
theorem box_normals_and_winding (c sz : XMFLOAT3) (uv : BoxUv) (tw th : Nat)
    (hx : 0 < sz.x) (hy : 0 < sz.y) (hz : 0 < sz.z) :
    AddBox [] [] c sz uv tw th = (boxVertices c sz uv tw th, boxIndices 0) ∧
      (∀ v ∈ boxVertices c sz uv tw th,
        v.nrm ∈ axisUnits ∧ 0 < (v.pos.sub c).dot v.nrm) ∧
      (∀ f < 6, ∀ j < 4,
        ((boxVertices c sz uv tw th).getD (4 * f + j) Vertex.zero).nrm =
          ((boxVertices c sz uv tw th).getD (4 * f) Vertex.zero).nrm) ∧
      (∀ t < 12, ∀ j < 3, (boxIndices 0).getD (3 * t + j) 0 / 4 = t / 2) ∧
      (∀ t < 12,
        (triangle (boxVertices c sz uv tw th) (boxIndices 0) t).2.1.nrm =
          (triangle (boxVertices c sz uv tw th) (boxIndices 0) t).1.nrm ∧
        (triangle (boxVertices c sz uv tw th) (boxIndices 0) t).2.2.nrm =
          (triangle (boxVertices c sz uv tw th) (boxIndices 0) t).1.nrm ∧
        ∃ l : ℚ, 0 < l ∧
          ((triangle (boxVertices c sz uv tw th) (boxIndices 0) t).2.1.pos.sub
              (triangle (boxVertices c sz uv tw th) (boxIndices 0) t).1.pos).cross
            ((triangle (boxVertices c sz uv tw th) (boxIndices 0) t).2.2.pos.sub
              (triangle (boxVertices c sz uv tw th) (boxIndices 0) t).1.pos) =
            XMFLOAT3.smul (-l)
              (triangle (boxVertices c sz uv tw th) (boxIndices 0) t).1.nrm) := by
  refine ⟨Prod.ext rfl (AddBox_nil_snd c sz uv tw th),
    boxVertices_normal c sz uv tw th hx hy hz, ?_, boxIndices_face, ?_⟩
  · intro f hf j hj
    exact box_face_normal c sz uv tw th f j hf hj
  · intro t ht
    exact box_triangles c sz uv tw th hx hy hz t ht

/-- Witness of C18 on the head box of the player (centre (0, 28, 0), size 8). -/
theorem box_normals_and_winding_witness :
    (0 : ℚ) < 8 ∧
      ∀ v ∈ boxVertices ⟨0, 28, 0⟩ ⟨8, 8, 8⟩ UV_Head 64 64,
        v.nrm ∈ axisUnits ∧ 0 < (v.pos.sub ⟨0, 28, 0⟩).dot v.nrm :=
  ⟨by norm_num,
    (box_normals_and_winding ⟨0, 28, 0⟩ ⟨8, 8, 8⟩ UV_Head 64 64 (by norm_num) (by norm_num)
      (by norm_num)).2.1⟩

/-- C19. For every image with non-zero dimensions and both values of
`slimArms`, with `a = armW` (3 when `slimArms` and `has64`, else 4), the six
base blocks of the built mesh have the extents head [-4,4]x[24,32]x[-4,4],
torso [-4,4]x[12,24]x[-2,2], right arm [-4-a,-4]x[12,24]x[-2,2], right leg
[-4,0]x[0,12]x[-2,2], left arm [4,4+a]x[12,24]x[-2,2], left leg
[0,4]x[0,12]x[-2,2], and every vertex of a base block is a corner of its
extent; no point is strictly inside two of the six extents; and reflection in
the plane x = 0 fixes the head and torso extents and swaps the right and left
arm, and the right and left leg. -/
theorem base_box_placement (s : SkinInfo) (slimArms : Bool) (hw : s.width ≠ 0)
    (hh : s.height ≠ 0) :
    armW s slimArms = (if (slimArms && has64 s) = true then 3 else 4) ∧
      (extent ((BuildPlayerMesh s slimArms).block 0) = (⟨-4, 24, -4⟩, ⟨4, 32, 4⟩) ∧
        extent ((BuildPlayerMesh s slimArms).block 1) = (⟨-4, 12, -2⟩, ⟨4, 24, 2⟩) ∧
        extent ((BuildPlayerMesh s slimArms).block 2) =
          (⟨-4 - armW s slimArms, 12, -2⟩, ⟨-4, 24, 2⟩) ∧
        extent ((BuildPlayerMesh s slimArms).block 3) = (⟨-4, 0, -2⟩, ⟨0, 12, 2⟩) ∧
        extent ((BuildPlayerMesh s slimArms).block 4) =
          (⟨4, 12, -2⟩, ⟨4 + armW s slimArms, 24, 2⟩) ∧
        extent ((BuildPlayerMesh s slimArms).block 5) = (⟨0, 0, -2⟩, ⟨4, 12, 2⟩)) ∧
      (∀ i < 6, ∀ v ∈ (BuildPlayerMesh s slimArms).block i,
        (v.pos.x = (extent ((BuildPlayerMesh s slimArms).block i)).1.x ∨
          v.pos.x = (extent ((BuildPlayerMesh s slimArms).block i)).2.x) ∧
        (v.pos.y = (extent ((BuildPlayerMesh s slimArms).block i)).1.y ∨
          v.pos.y = (extent ((BuildPlayerMesh s slimArms).block i)).2.y) ∧
        (v.pos.z = (extent ((BuildPlayerMesh s slimArms).block i)).1.z ∨
          v.pos.z = (extent ((BuildPlayerMesh s slimArms).block i)).2.z)) ∧
      (∀ i < 6, ∀ j < 6, i ≠ j → ∀ p : XMFLOAT3,
        ¬ (strictlyInside (extent ((BuildPlayerMesh s slimArms).block i)) p ∧
          strictlyInside (extent ((BuildPlayerMesh s slimArms).block j)) p)) ∧
      mirrorX (extent ((BuildPlayerMesh s slimArms).block 0)) =
        extent ((BuildPlayerMesh s slimArms).block 0) ∧
      mirrorX (extent ((BuildPlayerMesh s slimArms).block 1)) =
        extent ((BuildPlayerMesh s slimArms).block 1) ∧
      mirrorX (extent ((BuildPlayerMesh s slimArms).block 2)) =
        extent ((BuildPlayerMesh s slimArms).block 4) ∧
      mirrorX (extent ((BuildPlayerMesh s slimArms).block 3)) =
        extent ((BuildPlayerMesh s slimArms).block 5) := by
  have ha := armW_pos s slimArms
  obtain ⟨e0, e1, e2, e3, e4, e5⟩ := base_extents s slimArms hw hh
  refine ⟨armW_eq s slimArms, base_extents s slimArms hw hh,
    fun i hi => baseBlock_corners s slimArms hw hh i hi, ?_, ?_, ?_, ?_, ?_⟩
  · intro i hi j hj hij p
    interval_cases i <;> interval_cases j <;>
      first
      | exact absurd rfl hij
      | (simp only [e0, e1, e2, e3, e4, e5, strictlyInside]
         rintro ⟨h1, h2⟩
         obtain ⟨a1, a2, a3, a4, a5, a6⟩ := h1
         obtain ⟨b1, b2, b3, b4, b5, b6⟩ := h2
         linarith)
  · rw [e0]
    simp only [mirrorX, Prod.mk.injEq, XMFLOAT3.mk.injEq, and_true, true_and]
    norm_num
  · rw [e1]
    simp only [mirrorX, Prod.mk.injEq, XMFLOAT3.mk.injEq, and_true, true_and]
    norm_num
  · rw [e2, e4]
    simp only [mirrorX, Prod.mk.injEq, XMFLOAT3.mk.injEq, and_true, true_and]
    constructor <;> ring1
  · rw [e3, e5]
    simp only [mirrorX, Prod.mk.injEq, XMFLOAT3.mk.injEq, and_true, true_and]
    norm_num

/-- Witness of C19 on the blank 64x64 skin with classic arms. -/
theorem base_box_placement_witness :
    extent ((BuildPlayerMesh (blankSkin 64 64) false).block 0) = (⟨-4, 24, -4⟩, ⟨4, 32, 4⟩) :=
  (base_box_placement (blankSkin 64 64) false (by decide) (by decide)).2.1.1

/-- C17. For every image whose buffer has exactly `width * height * 4` bytes,
with `width * height * 4 < 2^31` (zero dimensions included) and any `scale`
and `legacy64x32` (in particular the ones the classifier derives):
`ForceRectOpaque` and `AnyNonTransparent` visit exactly the indices
`rectIndices` of their clipped loops, for every rectangle every such index is
strictly less than the buffer length, so every `ForceRectOpaque` call
completes, `SanitizeMinecraftBaseAlpha` completes and returns a buffer of the
same length, and the guard of `AnyNonTransparent` holds at every index it
tests. -/
theorem core_in_bounds (s : SkinInfo) (hl : s.rgba.length = s.width * s.height * 4)
    (hsz : s.width * s.height * 4 < 2147483648) :
    (∀ x y w h : Int,
      ForceRectOpaque s x y w h =
          ((rectIndices s.width s.height x y w h).foldlM writeAlpha s.rgba).map s.withRgba ∧
        (∀ i ∈ rectIndices s.width s.height x y w h, i < s.rgba.length) ∧
        ∃ rgba, ForceRectOpaque s x y w h = some (s.withRgba rgba) ∧
          rgba.length = s.rgba.length) ∧
      (∃ rgba, SanitizeMinecraftBaseAlpha s = some (s.withRgba rgba) ∧
        rgba.length = s.rgba.length) ∧
      (∀ r : UvRectPx,
        AnyNonTransparent s r =
            (!(s.rgba.isEmpty || s.width == 0 || s.height == 0) &&
              (rectIndices s.width s.height r.x r.y r.w r.h).any fun i =>
                decide (i < s.rgba.length) && (s.rgba.getD i 0 != 0)) ∧
          ∀ i ∈ rectIndices s.width s.height r.x r.y r.w r.h, i < s.rgba.length) :=
  ⟨fun x y w h => ⟨ForceRectOpaque_trace s x y w h, rectIndices_lt s hl hsz x y w h,
      ForceRectOpaque_some s x y w h (rectIndices_lt s hl hsz x y w h)⟩,
    Sanitize_some s hl hsz,
    fun r => ⟨AnyNonTransparent_trace s r, rectIndices_lt s hl hsz r.x r.y r.w r.h⟩⟩

/-- Witness of C17 on the blank 64x64 skin. -/
theorem core_in_bounds_witness :
    ∃ rgba, SanitizeMinecraftBaseAlpha (blankSkin 64 64) =
        some ((blankSkin 64 64).withRgba rgba) ∧
      rgba.length = (blankSkin 64 64).rgba.length :=
  (core_in_bounds (blankSkin 64 64) (List.length_replicate _ _) (by decide)).2.1

end SkinViewer
